import Mathlib

/-!
# Delta diff engine (`src/diff_output.c`): shallow embedding and verified properties

C strings are lists of characters; the end of the list and the character `NUL` both
terminate a string.  C `int` values are integers, wrapped to 32 bits where the code
computes with them.  Pointers into the delta vector and into the iterator's pools are
indices (`Option Nat`, `none` being `NULL`).
-/

namespace DiffOutput

/-! ## Characters, integers, buffers -/

/-- String terminator of C. -/
def NUL : Char := Char.ofNat 0

/-- Line feed. -/
def LF : Char := Char.ofNat 10

/-- Value of a C `int` expression after two's complement wrap-around to 32 bits. -/
def wrap32 (x : Int) : Int := (x + 2147483648) % 4294967296 - 2147483648

/-- Values a C `int` can hold. -/
def is_int (x : Int) : Prop := -2147483648 ≤ x ∧ x ≤ 2147483647

instance (x : Int) : Decidable (is_int x) := by unfold is_int; infer_instance

/-- Character a C pointer points at: the head of the remaining string, `NUL` at its end. -/
def deref (s : List Char) : Char := s.headD NUL

/-- The C string held in a buffer: the characters before the first `NUL`. -/
def cstr : List Char → List Char
  | [] => []
  | c :: cs => if c = NUL then [] else c :: cstr cs

/-- Hunk coordinates (`git_diff_range`). -/
structure git_diff_range where
  old_start : Int
  old_lines : Int
  new_start : Int
  new_lines : Int
deriving DecidableEq

/-- All four fields of a range fit a C `int`. -/
def range_is_int (r : git_diff_range) : Prop :=
  is_int r.old_start ∧ is_int r.old_lines ∧ is_int r.new_start ∧ is_int r.new_lines

instance (r : git_diff_range) : Decidable (range_is_int r) := by
  unfold range_is_int; infer_instance

/-! ## Hunk headers: `read_next_int`, `parse_hunk_header`, `format_hunk_header` -/

/-- Modelled from the spec: the body of `read_next_int` is not in src/; first loop of the
helper.  `parse_hunk_header` calls it with the pointer on `@` or just behind a number of
`@@ -a[,b] +c[,d] @@`, so it moves forward to the next decimal digit (the `-` and `+` of
the header are separators), stopping at the end of the string. -/
def skip_to_digit : List Char → List Char
  | [] => []
  | c :: cs => if c = NUL ∨ c.isDigit = true then c :: cs else skip_to_digit cs

/-- Modelled from the spec: the body of `read_next_int` is not in src/; second loop of the
helper.  It accumulates the decimal digits into an `int` (`v = v * 10 + digit`), counts
them and leaves the pointer on the first character that is not a digit, which is where
`parse_hunk_header` tests for `,`. -/
def read_digits : List Char → Int → Nat → Int × Nat × List Char
  | [], v, digits => (v, digits, [])
  | c :: cs, v, digits =>
    if c.isDigit = true then
      read_digits cs (wrap32 (v * 10 + ((c.toNat : Int) - 48))) (digits + 1)
    else (v, digits, c :: cs)

/-- Modelled from the spec: the body of `read_next_int` is not in src/.  Reads the next
number of a hunk header: result code (`-1` when there is no digit), the advanced pointer,
and the value stored through the out parameter (stored also on failure). -/
def read_next_int (str : List Char) : Int × List Char × Int :=
  let r := read_digits (skip_to_digit str) 0 0
  (if 0 < r.2.1 then 0 else -1, r.2.2, r.1)

/-- Source `parse_hunk_header`: the result code and the range as left in memory. -/
def parse_hunk_header (range : git_diff_range) (header : List Char) :
    Int × git_diff_range :=
  if deref header ≠ '@' then (-1, range) else
  let r1 := read_next_int header
  let range := { range with old_start := r1.2.2 }
  if r1.1 < 0 then (-1, range) else
  let header := r1.2.1
  let r2 := if deref header = ',' then read_next_int header else (0, header, 1)
  let range := { range with old_lines := r2.2.2 }
  if r2.1 < 0 then (-1, range) else
  let header := r2.2.1
  let r3 := read_next_int header
  let range := { range with new_start := r3.2.2 }
  if r3.1 < 0 then (-1, range) else
  let header := r3.2.1
  let r4 := if deref header = ',' then read_next_int header else (0, header, 1)
  let range := { range with new_lines := r4.2.2 }
  if r4.1 < 0 then (-1, range) else
  if range.old_start < 0 ∨ range.new_start < 0 then (-1, range) else
  (0, range)

/-- Conversion `%d` of the C library: decimal digits, a minus sign for negative values. -/
def fmt_d : Int → List Char
  | Int.ofNat n => Nat.toDigits 10 n
  | Int.negSucc n => '-' :: Nat.toDigits 10 (n + 1)

/-- Modelled from the spec: `p_snprintf` is not in src/.  Given the fully formatted text
`s`, at most `len - 1` of its characters and a terminating `NUL` are stored at the start
of the buffer (a longer text is silently truncated); the result is the length of `s`. -/
def p_snprintf (buf : List Char) (len : Nat) (s : List Char) : List Char × Int :=
  if len = 0 then (buf, s.length)
  else (s.take (len - 1) ++ NUL :: buf.drop ((s.take (len - 1)).length + 1), s.length)

/-- Source `format_hunk_header`: the buffer after the call and the returned length. -/
def format_hunk_header (header : List Char) (len : Nat) (range : git_diff_range) :
    List Char × Int :=
  if range.old_lines ≠ 1 then
    if range.new_lines ≠ 1 then
      p_snprintf header len
        ("@@ -".toList ++ fmt_d range.old_start ++ ",".toList ++ fmt_d range.old_lines ++
          " +".toList ++ fmt_d range.new_start ++ ",".toList ++ fmt_d range.new_lines ++
          " @@".toList)
    else
      p_snprintf header len
        ("@@ -".toList ++ fmt_d range.old_start ++ ",".toList ++ fmt_d range.old_lines ++
          " +".toList ++ fmt_d range.new_start ++ " @@".toList)
  else
    if range.new_lines ≠ 1 then
      p_snprintf header len
        ("@@ -".toList ++ fmt_d range.old_start ++ " +".toList ++ fmt_d range.new_start ++
          ",".toList ++ fmt_d range.new_lines ++ " @@".toList)
    else
      p_snprintf header len
        ("@@ -".toList ++ fmt_d range.old_start ++ " +".toList ++ fmt_d range.new_start ++
          " @@".toList)

/-- Decimal numeral of a natural number, most significant digit first (the spec's
"numbers in decimal"), from the positional digits of the number. -/
def decimal_nat (n : Nat) : List Char :=
  if n = 0 then ['0'] else ((Nat.digits 10 n).reverse.map Nat.digitChar)

/-- Decimal numeral of an integer: a minus sign before the numeral of a negative value. -/
def decimal (v : Int) : List Char :=
  if v < 0 then '-' :: decimal_nat v.natAbs else decimal_nat v.natAbs

/-- The four canonical header forms of the spec, `@@ -a[,b] +c[,d] @@`, a count being
written exactly when it differs from 1. -/
def canonical_header (r : git_diff_range) : List Char :=
  "@@ -".toList ++ decimal r.old_start ++
    (if r.old_lines = 1 then [] else ',' :: decimal r.old_lines) ++
    " +".toList ++ decimal r.new_start ++
    (if r.new_lines = 1 then [] else ',' :: decimal r.new_lines) ++ " @@".toList

/-! ## Data model: statuses, flags, options, files, deltas -/

/-- Status of a delta (`git_delta_t`). -/
inductive git_delta_t
  | UNMODIFIED | ADDED | DELETED | MODIFIED | RENAMED | COPIED | IGNORED | UNTRACKED
  | TYPECHANGE
deriving DecidableEq

/-- Modelled from the spec: the enumerator values of `git_delta_t` are declared in a header
that is not in src/; the statuses are numbered from 0 in the order the spec lists them. -/
def git_delta_t.code : git_delta_t → Int
  | .UNMODIFIED => 0 | .ADDED => 1 | .DELETED => 2 | .MODIFIED => 3 | .RENAMED => 4
  | .COPIED => 5 | .IGNORED => 6 | .UNTRACKED => 7 | .TYPECHANGE => 8

/-- All statuses, in the order of their codes. -/
def all_statuses : List git_delta_t :=
  [.UNMODIFIED, .ADDED, .DELETED, .MODIFIED, .RENAMED, .COPIED, .IGNORED, .UNTRACKED,
   .TYPECHANGE]

/-- The `GIT_DIFF_FILE_*` flag bits of a file side; `flags & F` is the field `F`. -/
structure file_flags where
  VALID_OID : Bool
  NO_DATA : Bool
  BINARY : Bool
  NOT_BINARY : Bool
  FREE_DATA : Bool
  UNMAP_DATA : Bool
deriving DecidableEq

/-- The `GIT_DIFF_*` option bits the engine tests. -/
structure option_flags where
  FORCE_TEXT : Bool
  INCLUDE_UNMODIFIED : Bool
  INCLUDE_IGNORED : Bool
  INCLUDE_UNTRACKED : Bool
deriving DecidableEq

/-- Options of a diff (`git_diff_options`): the flag bits, the size threshold and the
line counts handed to the diff primitive. -/
structure git_diff_options where
  flags : option_flags
  max_size : Int
  context_lines : Nat
  interhunk_lines : Nat
deriving DecidableEq

/-- One side of a delta (`git_diff_file`); the zero object id is `0`, a `NULL` path is
`none`. -/
structure git_diff_file where
  oid : Nat
  path : Option (List Char)
  mode : Nat
  size : Int
  flags : file_flags
deriving DecidableEq

/-- A delta (`git_diff_delta`): two sides, a status and the binary verdict -1, 0 or 1. -/
structure git_diff_delta where
  old_file : git_diff_file
  new_file : git_diff_file
  status : git_delta_t
  binary : Int
deriving DecidableEq

/-- Which `git_diff_file` of the delta a `file` pointer designates. -/
inductive side
  | old | new
deriving DecidableEq

/-- Read through a `file` pointer. -/
def git_diff_delta.file (d : git_diff_delta) : side → git_diff_file
  | .old => d.old_file
  | .new => d.new_file

/-- Write through a `file` pointer. -/
def git_diff_delta.set_file (d : git_diff_delta) (s : side) (f : git_diff_file) :
    git_diff_delta :=
  match s with
  | .old => { d with old_file := f }
  | .new => { d with new_file := f }

/-- Modelled from the spec: the error codes are declared in a header that is not in src/;
`UserAbort`. -/
def GIT_EUSER : Int := -7

/-- Modelled from the spec: the error codes are declared in a header that is not in src/;
`IterOver`. -/
def GIT_ITEROVER : Int := -31

/-- Modelled from the spec: the macro is not in src/; the default threshold of the
size tier, 512 MiB. -/
def MAX_DIFF_FILESIZE : Int := 536870912

/-! ## Skipping and counting -/

/-- Source `diff_delta_is_ambiguous`. -/
def diff_delta_is_ambiguous (delta : git_diff_delta) : Bool :=
  delta.new_file.oid == 0 && delta.new_file.flags.VALID_OID == false &&
    delta.status == git_delta_t.MODIFIED

/-- Source `diff_delta_should_skip`. -/
def diff_delta_should_skip (opts : git_diff_options) (delta : git_diff_delta) : Bool :=
  if delta.status = git_delta_t.UNMODIFIED ∧ opts.flags.INCLUDE_UNMODIFIED = false then true
  else if delta.status = git_delta_t.IGNORED ∧ opts.flags.INCLUDE_IGNORED = false then true
  else if delta.status = git_delta_t.UNTRACKED ∧ opts.flags.INCLUDE_UNTRACKED = false then true
  else false

/-- Loop of `git_diff_entrycount` over the deltas, `count` being the counter so far;
the vector is taken to hold fewer than 2^31 deltas, so the `int` counter does not wrap. -/
def entrycount_loop (opts : git_diff_options) (delta_t : Int) :
    List git_diff_delta → Nat → Nat
  | [], count => count
  | delta :: rest, count =>
    if diff_delta_should_skip opts delta then entrycount_loop opts delta_t rest count
    else if delta_t < 0 ∨ delta.status.code = delta_t then
      entrycount_loop opts delta_t rest (count + 1)
    else entrycount_loop opts delta_t rest count

/-! ## Binary classification -/

/-- Modelled from the spec: of `update_delta_is_binary` src/ holds only the second test;
the first test and the two assignments follow the spec (verdict yes if either side is
`BINARY`, no if both sides pass the second test, otherwise left as it is). -/
def update_delta_is_binary (delta : git_diff_delta) : git_diff_delta :=
  if delta.old_file.flags.BINARY = true ∨ delta.new_file.flags.BINARY = true then
    { delta with binary := 1 }
  else if (delta.old_file.flags.NOT_BINARY = true ∨ delta.old_file.flags.NO_DATA = true) ∧
      (delta.new_file.flags.NOT_BINARY = true ∨ delta.new_file.flags.NO_DATA = true) then
    { delta with binary := 0 }
  else delta

/-- Source `diff_delta_is_binary_by_size` on the side `file` of the context's delta;
`opts` is `none` for a `NULL` options pointer.  The result code is always 0.
`BINARY_DIFF_FLAGS`, a macro missing from src/, is `BINARY | NOT_BINARY`. -/
def diff_delta_is_binary_by_size (opts : Option git_diff_options) (delta : git_diff_delta)
    (file : side) : git_diff_delta :=
  if (delta.file file).flags.BINARY = true ∨ (delta.file file).flags.NOT_BINARY = true then
    delta
  else
    match opts with
    | some o =>
      if o.max_size < 0 then delta
      else
        let threshold := if o.max_size > 0 then o.max_size else MAX_DIFF_FILESIZE
        let f := delta.file file
        let delta :=
          if f.size > threshold then
            delta.set_file file { f with flags := { f.flags with BINARY := true } }
          else delta
        update_delta_is_binary delta
    | none =>
      let f := delta.file file
      let delta :=
        if f.size > MAX_DIFF_FILESIZE then
          delta.set_file file { f with flags := { f.flags with BINARY := true } }
        else delta
      update_delta_is_binary delta

/-! ## Collaborators -/

/-- Source kind of a side (`git_iterator_type_t`). -/
inductive git_iterator_type_t
  | EMPTY | TREE | INDEX | WORKDIR
deriving DecidableEq

/-- Value of the `diff` attribute of a path. -/
inductive attr_value
  | TRUE | FALSE | UNSPECIFIED
deriving DecidableEq

/-- The collaborators the engine consumes (repository, object database, filesystem,
filters, line-diff primitive); none of them is in src/.  A call returns its result code
first, and its outputs next. -/
structure Env where
  /-- Lookup `git_attr_get(&value, repo, 0, path, "diff")`. -/
  attr_get : List Char → Int × attr_value
  /-- The test of `diff_delta_is_binary_by_attr` that chooses between copying the old
  side's binary flags to the new side and querying the attribute of the new side; its text
  is missing from src/. -/
  mirror_new : git_diff_delta → Bool
  /-- Header peek `git_odb__read_header_or_object`: result code and size of the object. -/
  odb_read_header : Nat → Int × Nat
  /-- Blob lookup: result code and raw content of the blob. -/
  blob_lookup : Nat → Int × List Char
  /-- Call `p_readlink(path, buf, alloc_len)`: number of bytes read (negative on failure)
  and the bytes. -/
  readlink : Option (List Char) → Int → Int × List Char
  /-- Call `git_futils_open_ro`: a descriptor, negative on failure. -/
  open_ro : Option (List Char) → Int
  /-- Call `git_futils_filesize` on the opened file. -/
  filesize : Option (List Char) → Int
  /-- Call `git_filters_load`: the number of filters, negative on failure. -/
  filters_load : Option (List Char) → Int
  /-- Call `git_futils_mmap_ro(map, fd, 0, size)`: result code and the mapped bytes. -/
  mmap_ro : Option (List Char) → Int → Int × List Char
  /-- Call `git_futils_readbuffer_fd`: result code and the bytes read. -/
  readbuffer_fd : Option (List Char) → Int → Int × List Char
  /-- Call `git_filters_apply`: result code and the filtered bytes. -/
  filters_apply : Option (List Char) → List Char → Int × List Char
  /-- Call `git_odb_hash(&oid, data, len, GIT_OBJ_BLOB)`: result code and the object id. -/
  odb_hash : List Char → Nat → Int × Nat
  /-- Content sniff `git_buf_is_binary` on the searched span. -/
  buf_is_binary : List Char → Bool
  /-- The batches `xdl_diff` emits for the two byte spans under the options, in order;
  each batch is the list of its buffers. -/
  xdl_diff : List Char → Nat → List Char → Nat → git_diff_options → List (List (List Char))

/-! ## Processor context -/

/-- Byte span (`git_map`). -/
structure git_map where
  data : List Char
  len : Nat
deriving DecidableEq

/-- The borrowed empty span `data = "", len = 0`. -/
def empty_map : git_map := ⟨[], 0⟩

/-- Source `diff_delta_context`, without the repository handle (the collaborators stand
for it), the xdiff parameter blocks (derived from `opts`) and the callback fields
`cb_data`, `per_hunk`, `per_line` (passed to `diff_delta_cb` as arguments).  `delta` is
the pointer into the delta vector; a blob handle is the object id it was looked up by. -/
structure diff_delta_context where
  opts : git_diff_options
  delta : Option Nat
  prepped : Bool
  loaded : Bool
  diffable : Bool
  diffed : Bool
  old_src : git_iterator_type_t
  new_src : git_iterator_type_t
  old_blob : Option Nat
  new_blob : Option Nat
  old_data : git_map
  new_data : git_map
  cb_error : Int
  range : git_diff_range
deriving DecidableEq

/-- A delta list (`git_diff_list`): options, source kinds and the vector of deltas. -/
structure git_diff_list where
  opts : git_diff_options
  old_src : git_iterator_type_t
  new_src : git_iterator_type_t
  deltas : List git_diff_delta
deriving DecidableEq

/-- Source `git_diff_entrycount`. -/
def git_diff_entrycount (diff : git_diff_list) (delta_t : Int) : Int :=
  (entrycount_loop diff.opts delta_t diff.deltas 0 : Nat)

/-- Source `diff_delta_init_context` through `diff_delta_init_context_from_diff_list`:
the zeroed context with the options and source kinds of the list. -/
def diff_delta_init_context_from_diff_list (diff : git_diff_list) : diff_delta_context :=
  { opts := diff.opts, delta := none, prepped := false, loaded := false, diffable := false,
    diffed := false, old_src := diff.old_src, new_src := diff.new_src, old_blob := none,
    new_blob := none, old_data := ⟨[], 0⟩, new_data := ⟨[], 0⟩, cb_error := 0,
    range := ⟨0, 0, 0, 0⟩ }

/-- Read the content map of a side of the context. -/
def diff_delta_context.map (ctxt : diff_delta_context) : side → git_map
  | .old => ctxt.old_data
  | .new => ctxt.new_data

/-- Write the content map of a side of the context. -/
def diff_delta_context.set_map (ctxt : diff_delta_context) (s : side) (m : git_map) :
    diff_delta_context :=
  match s with
  | .old => { ctxt with old_data := m }
  | .new => { ctxt with new_data := m }

/-! ## Classification by attribute and by content -/

/-- Modelled from the spec: of `update_file_is_binary_by_attr` src/ holds only the test
for an absent or empty path; the lookup and its three outcomes follow the spec (not
diffable sets `BINARY`, diffable sets `NOT_BINARY`, otherwise the flags stay). -/
def update_file_is_binary_by_attr (env : Env) (file : git_diff_file) : Int × git_diff_file :=
  if file.path = none ∨ file.path = some [] then (0, file)
  else
    let r := env.attr_get (file.path.getD [])
    if r.1 < 0 then (-1, file)
    else
      match r.2 with
      | .FALSE => (0, { file with flags := { file.flags with BINARY := true } })
      | .TRUE => (0, { file with flags := { file.flags with NOT_BINARY := true } })
      | .UNSPECIFIED => (0, file)

/-- Modelled from the spec: of `diff_delta_is_binary_by_attr` src/ holds the `FORCE_TEXT`
test, the two attribute updates and the copy of the old side's binary flags; the body of
the `FORCE_TEXT` branch (both sides `NOT_BINARY`, verdict no) and the final fold follow
the spec.  The verdict starts as unknown: `git_diff_blobs` zeroes its delta and tests
`binary == -1` right after the prep. -/
def diff_delta_is_binary_by_attr (env : Env) (opts : git_diff_options)
    (delta : git_diff_delta) : Int × git_diff_delta :=
  let delta := { delta with binary := -1 }
  if opts.flags.FORCE_TEXT = true then
    (0, { delta with
            old_file := { delta.old_file with
              flags := { delta.old_file.flags with NOT_BINARY := true } },
            new_file := { delta.new_file with
              flags := { delta.new_file.flags with NOT_BINARY := true } },
            binary := 0 })
  else
    let r := update_file_is_binary_by_attr env delta.old_file
    let delta := { delta with old_file := r.2 }
    if r.1 < 0 then (-1, delta)
    else
      let rn :=
        if env.mirror_new delta = true then
          ((0 : Int), { delta.new_file with
            flags := { delta.new_file.flags with
              BINARY := delta.new_file.flags.BINARY || delta.old_file.flags.BINARY,
              NOT_BINARY := delta.new_file.flags.NOT_BINARY || delta.old_file.flags.NOT_BINARY } })
        else update_file_is_binary_by_attr env delta.new_file
      (rn.1, update_delta_is_binary { delta with new_file := rn.2 })

/-- Source `diff_delta_is_binary_by_content` on the side `file` with the span `map`;
the result code is always 0. -/
def diff_delta_is_binary_by_content (env : Env) (delta : git_diff_delta) (file : side)
    (map : git_map) : git_diff_delta :=
  let f := delta.file file
  let delta :=
    if f.flags.BINARY = false ∧ f.flags.NOT_BINARY = false then
      if env.buf_is_binary (map.data.take (min map.len 4000)) = true then
        delta.set_file file { f with flags := { f.flags with BINARY := true } }
      else
        delta.set_file file { f with flags := { f.flags with NOT_BINARY := true } }
    else delta
  update_delta_is_binary delta

/-! ## Content loader -/

/-- Source `get_blob_content` for the side `file`; the stores of the blob's raw content
and size into the map are missing from src/ and follow the spec (the map borrows the
blob's content).  The header peek and the lookup are the collaborators' calls. -/
def get_blob_content (env : Env) (ctxt : diff_delta_context) (delta : git_diff_delta)
    (file : side) : Int × diff_delta_context × git_diff_delta :=
  let f := delta.file file
  if f.oid = 0 then (0, ctxt, delta)
  else
    let peek := if f.size = 0 then env.odb_read_header f.oid else (0, 0)
    if f.size = 0 ∧ peek.1 < 0 then (peek.1, ctxt, delta)
    else
      let delta := if f.size = 0 then delta.set_file file { f with size := peek.2 } else delta
      let delta := diff_delta_is_binary_by_size (some ctxt.opts) delta file
      if delta.binary = 1 then (0, ctxt, delta)
      else
        let r := env.blob_lookup f.oid
        if r.1 ≠ 0 then (r.1, ctxt, delta)
        else
          let map : git_map := ⟨r.2, r.2.length⟩
          let ctxt :=
            match file with
            | .old => { ctxt with old_blob := some f.oid, old_data := map }
            | .new => { ctxt with new_blob := some f.oid, new_data := map }
          (0, ctxt, diff_delta_is_binary_by_content env delta file map)

/-- Test `S_ISLNK` on a file mode. -/
def S_ISLNK (mode : Nat) : Bool := mode &&& 0o170000 == 0o120000

/-- Modelled from the spec: of `get_workdir_content` src/ holds the symlink read, the
open/size/filter/map sequence and the hash and sniff steps; the test on the file mode
that selects the symlink branch, the `FREE_DATA` flag of that branch and its error code
follow the spec.  The path is identified with the file it names. -/
def get_workdir_content (env : Env) (ctxt : diff_delta_context) (delta : git_diff_delta)
    (file : side) : Int × diff_delta_context × git_diff_delta :=
  let f := delta.file file
  -- the branch on the mode; `cleanup` is reached directly with `skip = true`
  let s : Bool × Int × diff_delta_context × git_diff_delta :=
    if S_ISLNK f.mode = true then
      let alloc_len := f.size * 2 + 1
      let r := env.readlink f.path alloc_len
      if r.1 < 0 then (true, -1, ctxt, delta)
      else
        (false, 0, ctxt.set_map file ⟨r.2, r.1.toNat⟩,
          delta.set_file file { f with flags := { f.flags with FREE_DATA := true } })
    else
      let fd := env.open_ro f.path
      if fd < 0 then (true, fd, ctxt, delta)
      else
        let f := if f.size = 0 then { f with size := env.filesize f.path } else f
        let delta := diff_delta_is_binary_by_size (some ctxt.opts) (delta.set_file file f) file
        if delta.binary = 1 then (false, 0, ctxt, delta)
        else
          let n := env.filters_load f.path
          if n < 0 then (false, n, ctxt, delta)
          else if n = 0 then
            let m := env.mmap_ro f.path f.size
            let f := delta.file file
            (false, m.1, (if m.1 = 0 then ctxt.set_map file ⟨m.2, f.size.toNat⟩ else ctxt),
              delta.set_file file { f with flags := { f.flags with UNMAP_DATA := true } })
          else
            let raw := env.readbuffer_fd f.path f.size
            if raw.1 ≠ 0 then (false, raw.1, ctxt, delta)
            else
              let filtered := env.filters_apply f.path raw.2
              if filtered.1 ≠ 0 then (false, filtered.1, ctxt, delta)
              else
                let f := delta.file file
                (false, 0, ctxt.set_map file ⟨filtered.2, filtered.2.length⟩,
                  delta.set_file file { f with flags := { f.flags with FREE_DATA := true } })
  if s.1 = true then (s.2.1, s.2.2.1, s.2.2.2)
  else
    let error := s.2.1
    let ctxt := s.2.2.1
    let delta := s.2.2.2
    -- once data is loaded, update OID if we didn't have it previously
    let f := delta.file file
    let h := env.odb_hash (ctxt.map file).data (ctxt.map file).len
    let hashing := error = 0 ∧ f.flags.VALID_OID = false
    let error := if hashing then h.1 else error
    let delta :=
      if hashing then
        delta.set_file file
          (if h.1 = 0 then { f with oid := h.2, flags := { f.flags with VALID_OID := true } }
           else f)
      else delta
    if error = 0 then (0, ctxt, diff_delta_is_binary_by_content env delta file (ctxt.map file))
    else (error, ctxt, delta)

/-- Modelled from the spec: of `release_content` src/ holds only the two resets of the map
to the empty span; following the spec a mapped span is unmapped, an owned buffer is
freed, each branch resets the map and clears its flag, and the blob handle is released
(the caller's handle variable is not changed). -/
def release_content (file : git_diff_file) (map : git_map) : git_diff_file × git_map :=
  let r : git_diff_file × git_map :=
    if file.flags.UNMAP_DATA = true then
      ({ file with flags := { file.flags with UNMAP_DATA := false } }, empty_map)
    else (file, map)
  if r.1.flags.FREE_DATA = true then
    ({ r.1 with flags := { r.1.flags with FREE_DATA := false } }, empty_map)
  else r

/-! ## Phases of the delta processor

Prep, load and exec take the context together with the delta its `delta` pointer
designates and return both as the call leaves them; each of them tests the pointer for
`NULL` before it uses the delta.  `diff_delta_unload` does not: on a loaded context it
reads the delta through the pointer without a test, so it is given the vector of deltas
the pointer points into and follows the pointer itself. -/

/-- Source `diff_delta_unload` on the processor state: the context and the vector of
deltas its `delta` pointer points into.  On a loaded context the source reads
`ctxt->delta->old_file` and `ctxt->delta->new_file` without testing the pointer: the
result is `none` when the pointer is `NULL` (or designates no delta of the vector). -/
def diff_delta_unload (ctxt : diff_delta_context) (deltas : List git_diff_delta) :
    Option (diff_delta_context × List git_diff_delta) :=
  let ctxt := { ctxt with diffed := false }
  let r : Option (diff_delta_context × List git_diff_delta) :=
    if ctxt.loaded = true then
      match ctxt.delta with
      | none => none
      | some i =>
        match deltas[i]? with
        | none => none
        | some delta =>
          let o := release_content delta.old_file ctxt.old_data
          let n := release_content delta.new_file ctxt.new_data
          some ({ ctxt with old_data := o.2, new_data := n.2, loaded := false },
            deltas.set i { delta with old_file := o.1, new_file := n.1 })
    else some (ctxt, deltas)
  r.map fun r => ({ r.1 with delta := none, prepped := false }, r.2)

/-- The statements of source `diff_delta_unload` for a context whose `delta` pointer
designates `delta`, as at the `cleanup` label of `git_diff_foreach`, where the pointer is
the element of the loop: the context and that delta as the call leaves them. -/
def diff_delta_unload_attached (ctxt : diff_delta_context) (delta : git_diff_delta) :
    diff_delta_context × git_diff_delta :=
  let ctxt := { ctxt with diffed := false }
  let r : diff_delta_context × git_diff_delta :=
    if ctxt.loaded = true then
      let o := release_content delta.old_file ctxt.old_data
      let n := release_content delta.new_file ctxt.new_data
      ({ ctxt with old_data := o.2, new_data := n.2, loaded := false },
        { delta with old_file := o.1, new_file := n.1 })
    else (ctxt, delta)
  ({ r.1 with delta := none, prepped := false }, r.2)

/-- Source `diff_delta_prep`. -/
def diff_delta_prep (env : Env) (ctxt : diff_delta_context) (delta : git_diff_delta) :
    Int × diff_delta_context × git_diff_delta :=
  if ctxt.prepped = true ∨ ctxt.delta = none then (0, ctxt, delta)
  else
    let r := diff_delta_is_binary_by_attr env ctxt.opts delta
    (r.1, { ctxt with prepped := (r.1 == 0) }, r.2)

/-- The `cleanup` label of `diff_delta_load`: last update of the verdict, the `loaded`
flag and, for a loaded context, the `diffable` flag. -/
def diff_delta_load_cleanup (error : Int) (ctxt : diff_delta_context)
    (delta : git_diff_delta) : Int × diff_delta_context × git_diff_delta :=
  let delta := if delta.binary = -1 then update_delta_is_binary delta else delta
  let ctxt := { ctxt with loaded := (error == 0) }
  let ctxt :=
    if ctxt.loaded = true then
      { ctxt with diffable :=
          (delta.binary != 1 && delta.status != git_delta_t.UNMODIFIED &&
            (ctxt.old_data.len != 0 || ctxt.new_data.len != 0) &&
            delta.old_file.oid != delta.new_file.oid) }
    else ctxt
  (error, ctxt, delta)

/-- The `switch` of `diff_delta_load` on the status: which sides have no data. -/
def diff_delta_load_no_data (delta : git_diff_delta) : git_diff_delta :=
  match delta.status with
  | .ADDED =>
    { delta with old_file := { delta.old_file with
        flags := { delta.old_file.flags with NO_DATA := true } } }
  | .DELETED =>
    { delta with new_file := { delta.new_file with
        flags := { delta.new_file.flags with NO_DATA := true } } }
  | .MODIFIED => delta
  | _ =>
    { delta with
        new_file := { delta.new_file with
          flags := { delta.new_file.flags with NO_DATA := true } },
        old_file := { delta.old_file with
          flags := { delta.old_file.flags with NO_DATA := true } } }

/-- The end of `diff_delta_load` before its `cleanup` label: the status becomes
`UNMODIFIED` when the definitive object ids agree. -/
def diff_delta_load_finish (check_if_unmodified : Bool) (error : Int)
    (ctxt : diff_delta_context) (delta : git_diff_delta) :
    Int × diff_delta_context × git_diff_delta :=
  let delta :=
    if check_if_unmodified = true ∧ delta.old_file.mode = delta.new_file.mode ∧
        delta.old_file.oid = delta.new_file.oid then
      { delta with status := git_delta_t.UNMODIFIED }
    else delta
  diff_delta_load_cleanup error ctxt delta

/-- Source `diff_delta_load`. -/
def diff_delta_load (env : Env) (ctxt : diff_delta_context) (delta : git_diff_delta) :
    Int × diff_delta_context × git_diff_delta :=
  if ctxt.loaded = true ∨ ctxt.delta = none then (0, ctxt, delta)
  else
    let p := if ctxt.prepped = false then diff_delta_prep env ctxt delta else (0, ctxt, delta)
    if ctxt.prepped = false ∧ p.1 < 0 then diff_delta_load_cleanup p.1 p.2.1 p.2.2
    else
      let error := p.1
      let ctxt := { p.2.1 with old_data := empty_map, old_blob := none,
                               new_data := empty_map, new_blob := none }
      let delta := p.2.2
      if delta.binary = 1 then diff_delta_load_cleanup error ctxt delta
      else
        let delta := diff_delta_load_no_data delta
        let check_if_unmodified : Bool :=
          (delta.old_file.flags.NO_DATA == false && delta.old_file.flags.VALID_OID == false) &&
          (delta.new_file.flags.NO_DATA == false && delta.new_file.flags.VALID_OID == false)
        -- old side from the working directory
        let wo_do := delta.old_file.flags.NO_DATA = false ∧
          ctxt.old_src = git_iterator_type_t.WORKDIR
        let wo := if wo_do then get_workdir_content env ctxt delta side.old
                  else (error, ctxt, delta)
        if wo_do ∧ (wo.1 < 0 ∨ wo.2.2.binary = 1) then
          diff_delta_load_cleanup wo.1 wo.2.1 wo.2.2
        else
          -- new side from the working directory
          let wn_do := wo.2.2.new_file.flags.NO_DATA = false ∧
            wo.2.1.new_src = git_iterator_type_t.WORKDIR
          let wn := if wn_do then get_workdir_content env wo.2.1 wo.2.2 side.new else wo
          if wn_do ∧ wn.1 < 0 then diff_delta_load_cleanup wn.1 wn.2.1 wn.2.2
          else
            -- old side from the object database
            let bo_do := wn.2.2.old_file.flags.NO_DATA = false ∧
              wn.2.1.old_src ≠ git_iterator_type_t.WORKDIR
            let bo := if bo_do then get_blob_content env wn.2.1 wn.2.2 side.old else wn
            if bo_do ∧ (bo.1 < 0 ∨ bo.2.2.binary = 1) then
              diff_delta_load_cleanup bo.1 bo.2.1 bo.2.2
            else
              -- new side from the object database
              let bn_do := bo.2.2.new_file.flags.NO_DATA = false ∧
                bo.2.1.new_src ≠ git_iterator_type_t.WORKDIR
              let bn := if bn_do then get_blob_content env bo.2.1 bo.2.2 side.new else bo
              if bn_do ∧ (bn.1 < 0 ∨ bn.2.2.binary = 1) then
                diff_delta_load_cleanup bn.1 bn.2.1 bn.2.2
              else diff_delta_load_finish check_if_unmodified bn.1 bn.2.1 bn.2.2

/-! ## Exec: the demultiplexer and the diff primitive -/

/-- Origin of a line event (`GIT_DIFF_LINE_*`, of which the demultiplexer produces these
five). -/
inductive git_diff_line_t
  | CONTEXT | ADDITION | DELETION | ADD_EOFNL | DEL_EOFNL
deriving DecidableEq

/-- Hunk callback (`git_diff_hunk_fn`): user data, delta, range, header bytes and length
to the new user data and the returned code. -/
abbrev git_diff_hunk_fn (σ : Type) :=
  σ → git_diff_delta → git_diff_range → List Char → Nat → σ × Int

/-- Line callback (`git_diff_data_fn`): user data, delta, range, origin, content bytes and
length to the new user data and the returned code. -/
abbrev git_diff_data_fn (σ : Type) :=
  σ → git_diff_delta → git_diff_range → git_diff_line_t → List Char → Nat → σ × Int

/-- File callback (`git_diff_file_fn`): user data, delta and progress, given as the index
of the delta and the length of the vector, to the new user data and the returned code. -/
abbrev git_diff_file_fn (σ : Type) :=
  σ → git_diff_delta → Nat → Nat → σ × Int

/-- The part of `diff_delta_cb` for `len == 2 || len == 3` and for `len == 3`, up to its
`return ctxt->cb_error`. -/
def diff_delta_cb_lines {σ : Type} (per_line : Option (git_diff_data_fn σ))
    (delta : git_diff_delta) (st : diff_delta_context × σ) (bufs : List (List Char))
    (len : Nat) : Int × diff_delta_context × σ :=
  let c := deref (bufs.getD 0 [])
  let st2 : diff_delta_context × σ :=
    if len = 2 ∨ len = 3 then
      let origin :=
        if c = '+' then git_diff_line_t.ADDITION
        else if c = '-' then git_diff_line_t.DELETION
        else git_diff_line_t.CONTEXT
      match per_line with
      | some f =>
        let q := f st.2 delta st.1.range origin (bufs.getD 1 []) (bufs.getD 1 []).length
        (if q.2 ≠ 0 then { st.1 with cb_error := GIT_EUSER } else st.1, q.1)
      | none => st
    else st
  let st3 : diff_delta_context × σ :=
    if len = 3 ∧ st2.1.cb_error = 0 then
      let origin :=
        if c = '+' then git_diff_line_t.DEL_EOFNL
        else if c = '-' then git_diff_line_t.ADD_EOFNL
        else git_diff_line_t.CONTEXT
      match per_line with
      | some f =>
        let q := f st2.2 delta st2.1.range origin (bufs.getD 2 []) (bufs.getD 2 []).length
        (if q.2 ≠ 0 then { st2.1 with cb_error := GIT_EUSER } else st2.1, q.1)
      | none => st2
    else st2
  (st3.1.cb_error, st3)

/-- Source `diff_delta_cb` on a batch `bufs` of `len` buffers; `delta` is the delta of the
context, `st` the context and the user data. -/
def diff_delta_cb {σ : Type} (per_hunk : Option (git_diff_hunk_fn σ))
    (per_line : Option (git_diff_data_fn σ)) (delta : git_diff_delta)
    (st : diff_delta_context × σ) (bufs : List (List Char)) (len : Nat) :
    Int × diff_delta_context × σ :=
  if len = 1 then
    let p := parse_hunk_header st.1.range (bufs.getD 0 [])
    let ctxt := { st.1 with cb_error := p.1, range := p.2 }
    if p.1 < 0 then (ctxt.cb_error, ctxt, st.2)
    else
      let st1 : diff_delta_context × σ :=
        match per_hunk with
        | some f =>
          let q := f st.2 delta ctxt.range (bufs.getD 0 []) (bufs.getD 0 []).length
          (if q.2 ≠ 0 then { ctxt with cb_error := GIT_EUSER } else ctxt, q.1)
        | none => (ctxt, st.2)
      diff_delta_cb_lines per_line delta st1 bufs len
  else diff_delta_cb_lines per_line delta st bufs len

/-- Modelled from the spec: `xdl_diff` is not in src/.  The primitive hands its batches to
the emit callback in order and, observing a negative result, unwinds without emitting
the remaining batches. -/
def xdl_emit {S : Type} (outf : S → List (List Char) → Nat → Int × S) :
    List (List (List Char)) → S → S
  | [], s => s
  | bufs :: rest, s =>
    let r := outf s bufs bufs.length
    if r.1 < 0 then r.2 else xdl_emit outf rest r.2

/-- Source `diff_delta_exec` with the callbacks `per_hunk`, `per_line` and the user data
`cb_data`. -/
def diff_delta_exec {σ : Type} (env : Env) (per_hunk : Option (git_diff_hunk_fn σ))
    (per_line : Option (git_diff_data_fn σ)) (ctxt : diff_delta_context)
    (delta : git_diff_delta) (cb_data : σ) :
    Int × diff_delta_context × git_diff_delta × σ :=
  if ctxt.diffed = true ∨ ctxt.delta = none then (0, ctxt, delta, cb_data)
  else
    let l := if ctxt.loaded = false then diff_delta_load env ctxt delta else (0, ctxt, delta)
    if ctxt.loaded = false ∧ l.1 < 0 then (l.1, l.2.1, l.2.2, cb_data)
    else if l.2.1.diffable = false then (0, l.2.1, l.2.2, cb_data)
    else
      let ctxt := { l.2.1 with cb_error := 0 }
      let r := xdl_emit (diff_delta_cb per_hunk per_line l.2.2)
        (env.xdl_diff ctxt.old_data.data ctxt.old_data.len ctxt.new_data.data
          ctxt.new_data.len ctxt.opts) (ctxt, cb_data)
      let error := r.1.cb_error
      (error, { r.1 with diffed := (error == 0) }, l.2.2, r.2)

/-! ## Streaming traversal -/

/-- Modelled from the spec: the statements of `git_diff_foreach` between the unload at its
`cleanup` label and the test for `GIT_EUSER` are missing from src/; the traversal returns
the first error encountered, so the loop is left when `error` holds an error code (error
codes are negative). -/
def foreach_stops (error : Int) : Bool := error < 0

/-- The body of the loop of `git_diff_foreach` for the delta `delta` at index `idx`, up to
its `cleanup` label; the first component tells that the body ended in `continue`. -/
def foreach_body {σ : Type} (env : Env) (file_cb : Option (git_diff_file_fn σ))
    (hunk_cb : Option (git_diff_hunk_fn σ)) (line_cb : Option (git_diff_data_fn σ))
    (total idx : Nat) (error : Int) (ctxt : diff_delta_context) (delta : git_diff_delta)
    (data : σ) : Bool × Int × diff_delta_context × git_diff_delta × σ :=
  let ctxt := { ctxt with delta := some idx }
  let a := if diff_delta_is_ambiguous delta = true then diff_delta_load env ctxt delta
           else (error, ctxt, delta)
  if diff_delta_is_ambiguous delta = true ∧ a.1 < 0 then (false, a.1, a.2.1, a.2.2, data)
  else if diff_delta_should_skip a.2.1.opts a.2.2 = true then (true, a.1, a.2.1, a.2.2, data)
  else
    let l := diff_delta_load env a.2.1 a.2.2
    if l.1 < 0 then (false, l.1, l.2.1, l.2.2, data)
    else
      let q : σ × Int :=
        match file_cb with
        | some f => f data l.2.2 idx total
        | none => (data, 0)
      if q.2 ≠ 0 then (false, GIT_EUSER, l.2.1, l.2.2, q.1)
      else
        let e := diff_delta_exec env hunk_cb line_cb l.2.1 l.2.2 q.1
        (false, e.1, e.2.1, e.2.2.1, e.2.2.2)

/-- Result of a streaming traversal: returned code, user data, the deltas as the
traversal leaves them, and the context at the return. -/
structure foreach_result (σ : Type) where
  error : Int
  data : σ
  deltas : List git_diff_delta
  ctxt : diff_delta_context

/-- The loop of `git_diff_foreach` from index `idx` over the deltas `rest`; `done` holds
the deltas already visited.  At the `cleanup` label `ctxt.delta` is the element of the
loop, so the unload is `diff_delta_unload_attached` on that element. -/
def foreach_loop {σ : Type} (env : Env) (file_cb : Option (git_diff_file_fn σ))
    (hunk_cb : Option (git_diff_hunk_fn σ)) (line_cb : Option (git_diff_data_fn σ))
    (total : Nat) : Nat → List git_diff_delta → Int → diff_delta_context → σ →
    List git_diff_delta → foreach_result σ
  | _, [], error, ctxt, data, done => ⟨error, data, done, ctxt⟩
  | idx, delta :: rest, error, ctxt, data, done =>
    let b := foreach_body env file_cb hunk_cb line_cb total idx error ctxt delta data
    if b.1 = true then
      foreach_loop env file_cb hunk_cb line_cb total (idx + 1) rest b.2.1 b.2.2.1 b.2.2.2.2
        (done ++ [b.2.2.2.1])
    else
      let u := diff_delta_unload_attached b.2.2.1 b.2.2.2.1
      if foreach_stops b.2.1 = true then ⟨b.2.1, b.2.2.2.2, done ++ u.2 :: rest, u.1⟩
      else
        foreach_loop env file_cb hunk_cb line_cb total (idx + 1) rest b.2.1 u.1 b.2.2.2.2
          (done ++ [u.2])

/-- Source `git_diff_foreach`. -/
def git_diff_foreach {σ : Type} (env : Env) (diff : git_diff_list) (data : σ)
    (file_cb : Option (git_diff_file_fn σ)) (hunk_cb : Option (git_diff_hunk_fn σ))
    (line_cb : Option (git_diff_data_fn σ)) : foreach_result σ :=
  foreach_loop env file_cb hunk_cb line_cb diff.deltas.length 0 diff.deltas 0
    (diff_delta_init_context_from_diff_list diff) data []

/-! ## Pull iterator -/

/-- A captured line (`diffiter_line`); `next` points into the pool of lines, `ptr` is the
content the line borrows. -/
structure diffiter_line where
  next : Option Nat
  origin : git_diff_line_t
  ptr : List Char
  len : Nat
deriving DecidableEq

/-- A captured hunk (`diffiter_hunk`); `next` points into the pool of hunks, `line_head`
into the pool of lines. -/
structure diffiter_hunk where
  next : Option Nat
  range : git_diff_range
  line_head : Option Nat
  line_count : Nat
deriving DecidableEq

/-- Source `git_diff_iterator`.  A pool is the list of the items allocated from it since
it was last cleared; a pointer into a pool is an index, which dangles once the pool is
cleared. -/
structure git_diff_iterator where
  diff : git_diff_list
  ctxt : diff_delta_context
  file_index : Nat
  next_index : Nat
  hunks : List diffiter_hunk
  hunk_count : Nat
  hunk_head : Option Nat
  hunk_curr : Option Nat
  hunk_header : List Char
  lines : List diffiter_line
  line_curr : Option Nat
deriving DecidableEq

/-- Callback data of the capture (`diffiter_cb_info`); `iter` stands for the iterator the
callbacks write to (they do not touch its context). -/
structure diffiter_cb_info where
  iter : git_diff_iterator
  last_hunk : Option Nat
  last_line : Option Nat
deriving DecidableEq

/-- Store through a pointer into a pool. -/
def pool_update {α : Type} (f : α → α) : List α → Nat → List α
  | [], _ => []
  | x :: xs, 0 => f x :: xs
  | x :: xs, i + 1 => x :: pool_update f xs i

/-- Source `diffiter_hunk_cb`; allocation from the pool succeeds.  User data `none` is
a capture that has crashed. -/
def diffiter_hunk_cb : git_diff_hunk_fn (Option diffiter_cb_info) :=
  fun cb_data _delta range _header _header_len =>
    match cb_data with
    | none => (none, -1)
    | some info =>
      let iter := info.iter
      let hunk := iter.hunks.length
      let hunks := iter.hunks ++ [(⟨none, ⟨0, 0, 0, 0⟩, none, 0⟩ : diffiter_hunk)]
      let hunks :=
        match info.last_hunk with
        | some last => pool_update (fun h => { h with next := some hunk }) hunks last
        | none => hunks
      let hunks := pool_update (fun h => { h with range := range }) hunks hunk
      let iter : git_diff_iterator :=
        { iter with hunks := hunks, hunk_count := iter.hunk_count + 1 }
      let iter : git_diff_iterator :=
        if iter.hunk_head = none then
          { iter with hunk_curr := some hunk, hunk_head := some hunk }
        else iter
      (some { info with iter := iter, last_hunk := some hunk }, 0)

/-- Source `diffiter_line_cb`; allocation from the pool succeeds.  A line before any hunk
writes through the `NULL` pointer `info->last_hunk`: the capture crashes. -/
def diffiter_line_cb : git_diff_data_fn (Option diffiter_cb_info) :=
  fun cb_data _delta _range line_origin content content_len =>
    match cb_data with
    | none => (none, -1)
    | some info =>
      let iter := info.iter
      let line := iter.lines.length
      let lines := iter.lines ++ [(⟨none, git_diff_line_t.CONTEXT, [], 0⟩ : diffiter_line)]
      let lines :=
        match info.last_line with
        | some last => pool_update (fun l => { l with next := some line }) lines last
        | none => lines
      let lines :=
        pool_update (fun l => { l with origin := line_origin, ptr := content,
                                       len := content_len }) lines line
      match info.last_hunk with
      | none => (none, -1)
      | some last_hunk =>
        let hunks :=
          pool_update (fun h => { h with line_count := h.line_count + 1 }) iter.hunks last_hunk
        let hunks :=
          pool_update (fun h => if h.line_head = none then { h with line_head := some line }
                                else h) hunks last_hunk
        (some { info with iter := { iter with hunks := hunks, lines := lines },
                          last_line := some line }, 0)

/-- The delta the context's `delta` pointer designates. -/
def git_diff_iterator.delta (iter : git_diff_iterator) : Option git_diff_delta :=
  match iter.ctxt.delta with
  | none => none
  | some i => iter.diff.deltas[i]?

/-- Write the context and the delta at index `i` of the vector back to the iterator. -/
def git_diff_iterator.store (iter : git_diff_iterator) (ctxt : diff_delta_context)
    (i : Nat) (delta : git_diff_delta) : git_diff_iterator :=
  { iter with ctxt := ctxt, diff := { iter.diff with deltas := iter.diff.deltas.set i delta } }

/-- Source `diffiter_do_diff_file`: the returned code and the iterator; `none` when the
capture crashed (or the `delta` pointer does not designate a delta of the vector). -/
def diffiter_do_diff_file (env : Env) (iter : git_diff_iterator) :
    Option (Int × git_diff_iterator) :=
  if iter.ctxt.diffed = true then some (0, iter)
  else
    match iter.ctxt.delta with
    | none => some (0, iter)
    | some i =>
      match iter.diff.deltas[i]? with
      | none => none
      | some delta =>
        let info : diffiter_cb_info := ⟨iter, none, none⟩
        let e := diff_delta_exec env (some diffiter_hunk_cb) (some diffiter_line_cb)
          iter.ctxt delta (some info)
        match e.2.2.2 with
        | none => none
        | some info =>
          let iter := info.iter.store e.2.1 i e.2.2.1
          let error := if e.1 = GIT_EUSER then iter.ctxt.cb_error else e.1
          some (error, iter)

/-- Source `diffiter_do_unload_file`; `none` when a loaded context without a delta is
unloaded (`diff_delta_unload` reads the delta through the `NULL` pointer). -/
def diffiter_do_unload_file (iter : git_diff_iterator) : Option git_diff_iterator :=
  let r : Option git_diff_iterator :=
    if iter.ctxt.loaded = true then
      (diff_delta_unload iter.ctxt iter.diff.deltas).map fun u =>
        { iter with ctxt := u.1, diff := { iter.diff with deltas := u.2 },
                    lines := [], hunks := [] }
    else some iter
  r.map fun iter =>
    { iter with ctxt := { iter.ctxt with delta := none }, hunk_head := none, hunk_count := 0 }

/-- Source `git_diff_iterator_num_hunks_in_file`. -/
def git_diff_iterator_num_hunks_in_file (env : Env) (iter : git_diff_iterator) :
    Option (Int × git_diff_iterator) :=
  (diffiter_do_diff_file env iter).map fun r =>
    (if r.1 ≠ 0 then r.1 else (r.2.hunk_count : Int), r.2)

/-- Source `git_diff_iterator_num_lines_in_hunk`; `none` when `hunk_curr` dangles. -/
def git_diff_iterator_num_lines_in_hunk (env : Env) (iter : git_diff_iterator) :
    Option (Int × git_diff_iterator) :=
  match diffiter_do_diff_file env iter with
  | none => none
  | some r =>
    match r.2.hunk_curr with
    | some p =>
      if r.1 = 0 then
        match r.2.hunks[p]? with
        | some h => some ((h.line_count : Int), r.2)
        | none => none
      else some r
    | none => some r

/-- The `while` loop of `git_diff_iterator_next_file`; the first argument is the number
of deltas from `file_index` to the end of the vector, so that with none left
`git_vector_get` returns `NULL`. -/
def next_file_loop (env : Env) : Nat → git_diff_iterator → Int × git_diff_iterator
  | 0, iter => (GIT_ITEROVER, { iter with ctxt := { iter.ctxt with delta := none } })
  | left + 1, iter =>
    match iter.diff.deltas[iter.file_index]? with
    | none => (GIT_ITEROVER, { iter with ctxt := { iter.ctxt with delta := none } })
    | some delta =>
      let ctxt := { iter.ctxt with delta := some iter.file_index }
      let a := if diff_delta_is_ambiguous delta = true then diff_delta_load env ctxt delta
               else (0, ctxt, delta)
      let iter := iter.store a.2.1 iter.file_index a.2.2
      if diff_delta_is_ambiguous delta = true ∧ a.1 < 0 then (a.1, iter)
      else if diff_delta_should_skip iter.ctxt.opts a.2.2 = false then (a.1, iter)
      else
        let iter := { iter with file_index := iter.file_index + 1 }
        if a.1 ≠ 0 then (a.1, iter) else next_file_loop env left iter

/-- Result of `git_diff_iterator_next_file`: returned code, the pointer stored through
`delta_ptr`, and the iterator. -/
structure next_file_result where
  error : Int
  delta_ptr : Option Nat
  iter : git_diff_iterator
deriving DecidableEq

/-- Source `git_diff_iterator_next_file` (with a `delta_ptr` to store through); `none`
when the unload of the current file crashes. -/
def git_diff_iterator_next_file (env : Env) (iter : git_diff_iterator) :
    Option next_file_result :=
  let iter := { iter with file_index := iter.next_index }
  match diffiter_do_unload_file iter with
  | none => none
  | some iter =>
    let l := next_file_loop env (iter.diff.deltas.length - iter.file_index) iter
    let iter := l.2
    let p : Int × git_diff_iterator :=
      if l.1 = 0 then
        let iter := { iter with next_index := iter.file_index + 1 }
        match iter.ctxt.delta, iter.delta with
        | some i, some delta =>
          let r := diff_delta_prep env iter.ctxt delta
          (r.1, iter.store r.2.1 i r.2.2)
        | _, _ => (0, iter)
      else (l.1, iter)
    let iter := p.2
    let iter :=
      if iter.ctxt.delta = none then { iter with hunk_curr := none, line_curr := none }
      else iter
    some ⟨p.1, if p.1 = 0 then iter.ctxt.delta else none, iter⟩

/-- Result of `git_diff_iterator_next_hunk`: returned code, the range the pointer stored
through `range_ptr` designates, the header buffer `*header` points to, the value stored
through `header_len`, and the iterator. -/
structure next_hunk_result where
  error : Int
  range : Option git_diff_range
  header : Option (List Char)
  header_len : Nat
  iter : git_diff_iterator
deriving DecidableEq

/-- Source `git_diff_iterator_next_hunk`; the flags tell which of `range_ptr`, `header` and
`header_len` are not `NULL`.  The result is `none` when the capture crashed, when
`hunk_curr` dangles, or when the newline is written outside the header buffer. -/
def git_diff_iterator_next_hunk (env : Env) (range_ptr header header_len : Bool)
    (iter : git_diff_iterator) : Option next_hunk_result :=
  match diffiter_do_diff_file env iter with
  | none => none
  | some r =>
    let iter := r.2
    if r.1 ≠ 0 then some ⟨r.1, none, none, 0, iter⟩
    else
      match iter.hunk_curr with
      | none => some ⟨GIT_ITEROVER, none, none, 0, { iter with line_curr := none }⟩
      | some p =>
        match iter.hunks[p]? with
        | none => none
        | some hunk =>
          let range := hunk.range
          let f := format_hunk_header iter.hunk_header 128 range
          let out := f.2
          if header = true ∧ (out < 0 ∨ 128 ≤ out) then none
          else
            let iter :=
              if header = true then { iter with hunk_header := f.1.set out.toNat LF }
              else iter
            let iter := { iter with line_curr := hunk.line_head, hunk_curr := hunk.next }
            some ⟨0, if range_ptr = true then some range else none,
              if header = true then some iter.hunk_header else none,
              if header = true ∧ header_len = true then (out + 1).toNat else 0, iter⟩

/-- Result of `git_diff_iterator_next_line`: returned code, the values stored through
`line_origin`, `content_ptr` and `content_len`, and the iterator. -/
structure next_line_result where
  error : Int
  line_origin : git_diff_line_t
  content : Option (List Char)
  content_len : Nat
  iter : git_diff_iterator
deriving DecidableEq

/-- Source `git_diff_iterator_next_line` (with the three out parameters to store
through); `none` when the capture crashed or a dangling pointer is read. -/
def git_diff_iterator_next_line (env : Env) (iter : git_diff_iterator) :
    Option next_line_result :=
  match diffiter_do_diff_file env iter with
  | none => none
  | some r =>
    let iter := r.2
    if r.1 ≠ 0 then some ⟨r.1, git_diff_line_t.CONTEXT, none, 0, iter⟩
    else
      let h : Option (Int × git_diff_iterator) :=
        if iter.hunk_curr = iter.hunk_head then
          (git_diff_iterator_next_hunk env false false false iter).map fun n => (n.error, n.iter)
        else some (0, iter)
      match h with
      | none => none
      | some h =>
        let iter := h.2
        if h.1 ≠ 0 then some ⟨h.1, git_diff_line_t.CONTEXT, none, 0, iter⟩
        else
          match iter.line_curr with
          | none => some ⟨GIT_ITEROVER, git_diff_line_t.CONTEXT, none, 0, iter⟩
          | some p =>
            match iter.lines[p]? with
            | none => none
            | some line =>
              some ⟨0, line.origin, some line.ptr, line.len, { iter with line_curr := line.next }⟩

/-- Source `git_diff_iterator_new`: the iterator the function builds and stores through
`iterator_ptr` (zeroed, with the delta list and the context initialised from it); the
exit of the function after that store is not part of the model. -/
def git_diff_iterator_new (diff : git_diff_list) : git_diff_iterator :=
  { diff := diff, ctxt := diff_delta_init_context_from_diff_list diff, file_index := 0,
    next_index := 0, hunks := [], hunk_count := 0, hunk_head := none, hunk_curr := none,
    hunk_header := List.replicate 128 NUL, lines := [], line_curr := none }

/-! ## Specification-side definitions -/

/-- The deltas `git_diff_entrycount` counts for the filter `delta_t`: not skippable, and
of the status `delta_t` unless `delta_t` is negative. -/
def counted (opts : git_diff_options) (delta_t : Int) (delta : git_diff_delta) : Bool :=
  !diff_delta_should_skip opts delta && (decide (delta_t < 0) || delta.status.code == delta_t)

/-- One invocation of a user callback, with its arguments and the code it returned. -/
inductive cb_event
  | file (delta : git_diff_delta) (idx total : Nat) (ret : Int)
  | hunk (delta : git_diff_delta) (range : git_diff_range) (header : List Char)
      (header_len : Nat) (ret : Int)
  | line (delta : git_diff_delta) (range : git_diff_range) (origin : git_diff_line_t)
      (content : List Char) (content_len : Nat) (ret : Int)
deriving DecidableEq

/-- A file callback that also records its invocation at the end of a log kept beside the
user data. -/
def traced_file_cb {σ : Type} (f : git_diff_file_fn σ) :
    git_diff_file_fn (σ × List cb_event) :=
  fun s delta idx total =>
    let q := f s.1 delta idx total
    ((q.1, s.2 ++ [cb_event.file delta idx total q.2]), q.2)

/-- A hunk callback that also records its invocation. -/
def traced_hunk_cb {σ : Type} (f : git_diff_hunk_fn σ) :
    git_diff_hunk_fn (σ × List cb_event) :=
  fun s delta range header header_len =>
    let q := f s.1 delta range header header_len
    ((q.1, s.2 ++ [cb_event.hunk delta range header header_len q.2]), q.2)

/-- A line callback that also records its invocation. -/
def traced_line_cb {σ : Type} (f : git_diff_data_fn σ) :
    git_diff_data_fn (σ × List cb_event) :=
  fun s delta range origin content content_len =>
    let q := f s.1 delta range origin content content_len
    ((q.1, s.2 ++ [cb_event.line delta range origin content content_len q.2]), q.2)

/-- A log in which every recorded file callback returned 0. -/
def no_file_abort (t : List cb_event) : Prop :=
  ∀ delta idx total ret, cb_event.file delta idx total ret ∈ t → ret = 0

/-- A line as a consumer sees it: origin, content bytes and length. -/
abbrev line_triple := git_diff_line_t × List Char × Nat

/-- The lines successive `git_diff_iterator_next_line` calls return until a call returns
non-zero (at most `n` calls). -/
def iterator_lines (env : Env) : Nat → git_diff_iterator →
    Option (List line_triple × git_diff_iterator)
  | 0, iter => some ([], iter)
  | n + 1, iter =>
    match git_diff_iterator_next_line env iter with
    | none => none
    | some r =>
      if r.error ≠ 0 then some ([], r.iter)
      else
        (iterator_lines env n r.iter).map fun p =>
          ((r.line_origin, r.content.getD [], r.content_len) :: p.1, p.2)

/-- What a consumer of the iterator observes for the current file: for each successful
`git_diff_iterator_next_hunk` call (until one returns non-zero; at most `n` calls) the
range returned and the lines `git_diff_iterator_next_line` returns before the following
`next_hunk` call. -/
def iterator_hunks (env : Env) (n : Nat) : Nat → git_diff_iterator →
    Option (List (git_diff_range × List line_triple))
  | 0, _ => some []
  | m + 1, iter =>
    match git_diff_iterator_next_hunk env true false false iter with
    | none => none
    | some r =>
      if r.error ≠ 0 then some []
      else
        match r.range, iterator_lines env n r.iter with
        | some range, some ls =>
          (iterator_hunks env n m ls.2).map fun rest => (range, ls.1) :: rest
        | _, _ => none

/-- The line callbacks recorded at the head of a log, up to the next record of another
callback. -/
def leading_lines : List cb_event → List line_triple
  | cb_event.line _ _ origin content content_len _ :: rest =>
    (origin, content, content_len) :: leading_lines rest
  | _ => []

/-- What a consumer of the streaming traversal observes: the ranges passed to the hunk
callback, each with the lines passed to the line callback before the next hunk. -/
def streaming_hunks : List cb_event → List (git_diff_range × List line_triple)
  | [] => []
  | cb_event.hunk _ range _ _ _ :: rest => (range, leading_lines rest) :: streaming_hunks rest
  | cb_event.file _ _ _ _ :: rest => streaming_hunks rest
  | cb_event.line _ _ _ _ _ _ :: rest => streaming_hunks rest

/-! ## Sample repository -/

/-- Flags of a side whose object id is known. -/
def flags_valid_oid : file_flags := ⟨true, false, false, false, false, false⟩

/-- Flags of a side with no flag set. -/
def flags_none : file_flags := ⟨false, false, false, false, false, false⟩

/-- Default options: no flag, default size threshold, no context lines. -/
def sample_opts : git_diff_options := ⟨⟨false, false, false, false⟩, 0, 0, 0⟩

/-- Blobs of the sample object database, by object id. -/
def sample_blob : Nat → List Char
  | 1 => "a\nx\nc\n".toList
  | 2 => "b\nx\nd\n".toList
  | 3 => [NUL, 'o', 'l', 'd']
  | 4 => [NUL, 'n', 'e', 'w']
  | 5 => "same\n".toList
  | _ => []

/-- A sample repository: the blobs above, a working directory in which every file holds
`same` and a newline (the content of blob 5), no attributes, no filters, and a diff
primitive that reports two one-line hunks between blobs 1 and 2. -/
def sample_env : Env where
  attr_get := fun _ => (0, attr_value.UNSPECIFIED)
  mirror_new := fun d => d.old_file.path == d.new_file.path
  odb_read_header := fun oid => (0, (sample_blob oid).length)
  blob_lookup := fun oid => (0, sample_blob oid)
  readlink := fun _ _ => (-1, [])
  open_ro := fun _ => 3
  filesize := fun _ => 5
  filters_load := fun _ => 0
  mmap_ro := fun _ _ => (0, sample_blob 5)
  readbuffer_fd := fun _ _ => (0, sample_blob 5)
  filters_apply := fun _ bytes => (0, bytes)
  odb_hash := fun data _ => (0, if data = sample_blob 5 then 5 else 100 + data.length)
  buf_is_binary := fun data => data.contains NUL
  xdl_diff := fun old_data _ new_data _ _ =>
    if old_data = sample_blob 1 ∧ new_data = sample_blob 2 then
      [["@@ -1 +1 @@\n".toList], ["-".toList, "a\n".toList], ["+".toList, "b\n".toList],
       ["@@ -3 +3 @@\n".toList], ["-".toList, "c\n".toList], ["+".toList, "d\n".toList]]
    else []

/-- A side of a sample delta: regular file `f.txt` with the given object id and flags. -/
def sample_file (oid : Nat) (flags : file_flags) : git_diff_file :=
  ⟨oid, some "f.txt".toList, 0o100644, 0, flags⟩

/-- A modified text file: blob 1 against blob 2, both ids known. -/
def delta_text : git_diff_delta :=
  ⟨sample_file 1 flags_valid_oid, sample_file 2 flags_valid_oid, git_delta_t.MODIFIED, -1⟩

/-- A modified binary file: blob 3 against blob 4, both ids known. -/
def delta_binary : git_diff_delta :=
  ⟨sample_file 3 flags_valid_oid, sample_file 4 flags_valid_oid, git_delta_t.MODIFIED, -1⟩

/-- An ambiguous delta: recorded as modified with the zero id on the new side, which
lives in the working directory and holds the content of the old side's blob 5. -/
def delta_ambiguous : git_diff_delta :=
  ⟨sample_file 5 flags_none, sample_file 0 flags_none, git_delta_t.MODIFIED, -1⟩

/-- Tree-to-tree list with the text delta only. -/
def diff_text : git_diff_list :=
  ⟨sample_opts, git_iterator_type_t.TREE, git_iterator_type_t.TREE, [delta_text]⟩

/-- Tree-to-tree list: the text delta, then the binary delta. -/
def diff_text_binary : git_diff_list :=
  ⟨sample_opts, git_iterator_type_t.TREE, git_iterator_type_t.TREE,
    [delta_text, delta_binary]⟩

/-- Tree-to-workdir list of two ambiguous deltas. -/
def diff_ambiguous : git_diff_list :=
  ⟨sample_opts, git_iterator_type_t.TREE, git_iterator_type_t.WORKDIR,
    [delta_ambiguous, delta_ambiguous]⟩

/-- File callback that aborts: returns 1. -/
def abort_file_cb : git_diff_file_fn Unit := fun s _ _ _ => (s, 1)

/-- Callbacks that accept: return 0. -/
def ok_file_cb : git_diff_file_fn Unit := fun s _ _ _ => (s, 0)

/-- Hunk callback that accepts: returns 0. -/
def ok_hunk_cb : git_diff_hunk_fn Unit := fun s _ _ _ _ => (s, 0)

/-- Line callback that accepts: returns 0. -/
def ok_line_cb : git_diff_data_fn Unit := fun s _ _ _ _ _ => (s, 0)

/-- The iterator on the text delta of `diff_text`, after `git_diff_iterator_next_file`. -/
def iter_on_text : git_diff_iterator :=
  ((git_diff_iterator_next_file sample_env (git_diff_iterator_new diff_text)).map
    fun r => r.iter).getD (git_diff_iterator_new diff_text)

/-- The result of `git_diff_iterator_next_hunk` on `iter_on_text`. -/
def first_hunk_of_text : next_hunk_result :=
  (git_diff_iterator_next_hunk sample_env true true true iter_on_text).getD
    ⟨-1, none, none, 0, iter_on_text⟩

/-- The iterator over `diff_text_binary` after `git_diff_iterator_next_file` (the text
delta) and `git_diff_iterator_num_hunks_in_file`. -/
def iter_text_counted : Option git_diff_iterator :=
  (git_diff_iterator_next_file sample_env (git_diff_iterator_new diff_text_binary)).bind
    fun r => (git_diff_iterator_num_hunks_in_file sample_env r.iter).map fun c => c.2

/-- The iterator over `diff_text_binary` after the second `git_diff_iterator_next_file`
(the binary delta). -/
def iter_on_binary : Option git_diff_iterator :=
  iter_text_counted.bind fun it =>
    (git_diff_iterator_next_file sample_env it).map fun r => r.iter

/-- The log of a streaming traversal of `diff_text` with callbacks that accept. -/
def streaming_log_of_text : List cb_event :=
  (git_diff_foreach sample_env diff_text ((), ([] : List cb_event))
    (some (traced_file_cb ok_file_cb)) (some (traced_hunk_cb ok_hunk_cb))
    (some (traced_line_cb ok_line_cb))).data.2

/-! ## Specification-side definitions for the classifier and the demultiplexer -/

/-- The verdict that folding the per-side flags gives: yes (1) when a side carries
`BINARY`, else no (0) when each side carries `NOT_BINARY` or `NO_DATA`, else unknown
(-1). -/
def verdict_of_flags (d : git_diff_delta) : Int :=
  if d.old_file.flags.BINARY = true ∨ d.new_file.flags.BINARY = true then 1
  else if (d.old_file.flags.NOT_BINARY = true ∨ d.old_file.flags.NO_DATA = true) ∧
      (d.new_file.flags.NOT_BINARY = true ∨ d.new_file.flags.NO_DATA = true) then 0
  else -1

/-- The verdict of the delta agrees with its per-side flags. -/
def verdict_consistent (d : git_diff_delta) : Prop := d.binary = verdict_of_flags d

/-- The code a recorded callback invocation returned. -/
def cb_event.ret : cb_event → Int
  | .file _ _ _ ret => ret
  | .hunk _ _ _ _ ret => ret
  | .line _ _ _ _ _ ret => ret

/-- A log in which every recorded callback returned 0. -/
def no_abort (t : List cb_event) : Prop := ∀ ev ∈ t, ev.ret = 0

/-- A text without digits and without terminator: what `read_next_int` skips. -/
def separators (s : List Char) : Prop := ∀ c ∈ s, c ≠ NUL ∧ c.isDigit = false

instance (s : List Char) : Decidable (separators s) := by unfold separators; infer_instance

/-- A delta whose old side has no data and no binary flag and whose new side is known
not to be binary. -/
def delta_added_text : git_diff_delta :=
  ⟨⟨0, some "f.txt".toList, 0, 0, ⟨false, true, false, false, false, false⟩⟩,
   ⟨2, some "f.txt".toList, 0o100644, 6, ⟨true, false, false, true, false, false⟩⟩,
   git_delta_t.ADDED, -1⟩

/-- Line callback that never aborts and counts its invocations. -/
def counting_line_cb : git_diff_data_fn Nat := fun s _ _ _ _ _ => (s + 1, 0)

/-- A batch of three buffers for an added last line without a newline. -/
def batch_add_eofnl : List (List Char) :=
  ["+".toList, "b".toList, "\n\\ No newline at end of file\n".toList]

/-- A count as a hunk header writes it: a comma and the decimal numeral, or nothing. -/
def written_count : Option Nat → List Char
  | none => []
  | some b => ',' :: decimal_nat b

/-- A step of the loader that touches the classification of a delta: the size tier or the
content tier on a side, or the store of a side's size that precedes the size tier. -/
inductive tier_step
  | size_tier (file : side)
  | content_tier (file : side) (map : git_map)
  | set_size (file : side) (size : Int)

/-- One classification step applied to a delta. -/
def run_tier (env : Env) (opts : Option git_diff_options) (d : git_diff_delta) :
    tier_step → git_diff_delta
  | .size_tier file => diff_delta_is_binary_by_size opts d file
  | .content_tier file map => diff_delta_is_binary_by_content env d file map
  | .set_size file size => d.set_file file { d.file file with size := size }

/-- A sequence of classification steps applied to a delta, in order. -/
def run_tiers (env : Env) (opts : Option git_diff_options) :
    List tier_step → git_diff_delta → git_diff_delta
  | [], d => d
  | step :: rest, d => run_tiers env opts rest (run_tier env opts d step)

/-- The sample options with `FORCE_TEXT` set. -/
def force_text_opts : git_diff_options :=
  { sample_opts with flags := { sample_opts.flags with FORCE_TEXT := true } }

/-- An unprepared context on the first delta of a list with `FORCE_TEXT`. -/
def ctxt_force_text : diff_delta_context :=
  { diff_delta_init_context_from_diff_list diff_text with
      opts := force_text_opts, delta := some 0 }

/-- The relation the spec gives for the `diffable` flag: the verdict is not yes, the
status is not `UNMODIFIED`, at least one content map has non-zero length, and the two
object ids differ. -/
def diffable_spec (ctxt : diff_delta_context) (delta : git_diff_delta) : Prop :=
  delta.binary ≠ 1 ∧ delta.status ≠ git_delta_t.UNMODIFIED ∧
    (ctxt.old_data.len ≠ 0 ∨ ctxt.new_data.len ≠ 0) ∧
    delta.old_file.oid ≠ delta.new_file.oid

instance (ctxt : diff_delta_context) (delta : git_diff_delta) :
    Decidable (diffable_spec ctxt delta) := by
  unfold diffable_spec; infer_instance

/-- An unloaded context on the binary delta of the text-and-binary list. -/
def ctxt_fresh : diff_delta_context :=
  { diff_delta_init_context_from_diff_list diff_text_binary with delta := some 1 }

/-- The other side of a delta. -/
def side.other : side → side
  | .old => .new
  | .new => .old

/-- The parts of a side the classification tiers never write: object id, mode, and the
flags `VALID_OID` and `NO_DATA`. -/
def git_diff_file.ident (f : git_diff_file) : Nat × Nat × Bool × Bool :=
  (f.oid, f.mode, f.flags.VALID_OID, f.flags.NO_DATA)

/-- The convention for result codes: the collaborators whose result the loader tests
against 0 return 0 or a negative error code. -/
def Env.codes_ok (env : Env) : Prop :=
  (∀ path size, (env.mmap_ro path size).1 ≤ 0) ∧
  (∀ path size, (env.readbuffer_fd path size).1 ≤ 0) ∧
  (∀ path bytes, (env.filters_apply path bytes).1 ≤ 0) ∧
  (∀ data len, (env.odb_hash data len).1 ≤ 0) ∧
  (∀ oid, (env.blob_lookup oid).1 ≤ 0)

/-- The first part of `get_workdir_content`, the branch on the file mode, as the function
computes it: whether the branch jumps to the `cleanup` label, past the hash and the
content sniff, then the result code, the context and the delta. -/
def workdir_read (env : Env) (ctxt : diff_delta_context) (delta : git_diff_delta)
    (file : side) : Bool × Int × diff_delta_context × git_diff_delta :=
  let f := delta.file file
  if S_ISLNK f.mode = true then
    let alloc_len := f.size * 2 + 1
    let r := env.readlink f.path alloc_len
    if r.1 < 0 then (true, -1, ctxt, delta)
    else
      (false, 0, ctxt.set_map file ⟨r.2, r.1.toNat⟩,
        delta.set_file file { f with flags := { f.flags with FREE_DATA := true } })
  else
    let fd := env.open_ro f.path
    if fd < 0 then (true, fd, ctxt, delta)
    else
      let f := if f.size = 0 then { f with size := env.filesize f.path } else f
      let delta := diff_delta_is_binary_by_size (some ctxt.opts) (delta.set_file file f) file
      if delta.binary = 1 then (false, 0, ctxt, delta)
      else
        let n := env.filters_load f.path
        if n < 0 then (false, n, ctxt, delta)
        else if n = 0 then
          let m := env.mmap_ro f.path f.size
          let f := delta.file file
          (false, m.1, (if m.1 = 0 then ctxt.set_map file ⟨m.2, f.size.toNat⟩ else ctxt),
            delta.set_file file { f with flags := { f.flags with UNMAP_DATA := true } })
        else
          let raw := env.readbuffer_fd f.path f.size
          if raw.1 ≠ 0 then (false, raw.1, ctxt, delta)
          else
            let filtered := env.filters_apply f.path raw.2
            if filtered.1 ≠ 0 then (false, filtered.1, ctxt, delta)
            else
              let f := delta.file file
              (false, 0, ctxt.set_map file ⟨filtered.2, filtered.2.length⟩,
                delta.set_file file { f with flags := { f.flags with FREE_DATA := true } })

/-- The second part of `get_workdir_content`, as the function computes it from the outcome
`s` of the first part: the hash of the loaded bytes when the side has no definitive id,
and the content sniff. -/
def workdir_hash (env : Env) (file : side)
    (s : Bool × Int × diff_delta_context × git_diff_delta) :
    Int × diff_delta_context × git_diff_delta :=
  if s.1 = true then (s.2.1, s.2.2.1, s.2.2.2)
  else
    let error := s.2.1
    let ctxt := s.2.2.1
    let delta := s.2.2.2
    let f := delta.file file
    let h := env.odb_hash (ctxt.map file).data (ctxt.map file).len
    let hashing := error = 0 ∧ f.flags.VALID_OID = false
    let error := if hashing then h.1 else error
    let delta :=
      if hashing then
        delta.set_file file
          (if h.1 = 0 then { f with oid := h.2, flags := { f.flags with VALID_OID := true } }
           else f)
      else delta
    if error = 0 then (0, ctxt, diff_delta_is_binary_by_content env delta file (ctxt.map file))
    else (error, ctxt, delta)

/-- The source of a side of the context (`old_src`, `new_src`). -/
def diff_delta_context.src (ctxt : diff_delta_context) : side → git_iterator_type_t
  | .old => ctxt.old_src
  | .new => ctxt.new_src

/-- The state of `diff_delta_load`, past its guard, when the first content step begins:
the result code of the prep, the context with both maps and blob handles reset, and the
delta after the `switch` on the status. -/
def load_start (env : Env) (ctxt : diff_delta_context) (delta : git_diff_delta) :
    Int × diff_delta_context × git_diff_delta :=
  let p := if ctxt.prepped = false then diff_delta_prep env ctxt delta else (0, ctxt, delta)
  (p.1, { p.2.1 with old_data := empty_map, old_blob := none,
                     new_data := empty_map, new_blob := none },
    diff_delta_load_no_data p.2.2)

/-- A working-directory step of `diff_delta_load` on the side `file`, from the state `s`:
the content is read when the side has data and lives in the working directory. -/
def load_workdir (env : Env) (file : side) (s : Int × diff_delta_context × git_diff_delta) :
    Int × diff_delta_context × git_diff_delta :=
  if (s.2.2.file file).flags.NO_DATA = false ∧
      s.2.1.src file = git_iterator_type_t.WORKDIR then
    get_workdir_content env s.2.1 s.2.2 file
  else s

/-- An object-database step of `diff_delta_load` on the side `file`, from the state `s`:
the blob is read when the side has data and does not live in the working directory. -/
def load_blob (env : Env) (file : side) (s : Int × diff_delta_context × git_diff_delta) :
    Int × diff_delta_context × git_diff_delta :=
  if (s.2.2.file file).flags.NO_DATA = false ∧
      s.2.1.src file ≠ git_iterator_type_t.WORKDIR then
    get_blob_content env s.2.1 s.2.2 file
  else s

/-- The flag `check_if_unmodified` of `diff_delta_load`, from the delta after the `switch`
on the status. -/
def load_check (delta : git_diff_delta) : Bool :=
  (delta.old_file.flags.NO_DATA == false && delta.old_file.flags.VALID_OID == false) &&
  (delta.new_file.flags.NO_DATA == false && delta.new_file.flags.VALID_OID == false)

/-- An unloaded context on the first delta of the tree-to-workdir list. -/
def ctxt_workdir : diff_delta_context :=
  { diff_delta_init_context_from_diff_list diff_ambiguous with delta := some 0 }

/-- A modified file whose old side, from a tree, carries the definitive id of blob 5 and
whose new side lives in the working directory with the same content. -/
def delta_same_content : git_diff_delta :=
  ⟨sample_file 5 flags_valid_oid, sample_file 0 flags_none, git_delta_t.MODIFIED, -1⟩

/-- Tree-to-workdir list with that delta only. -/
def diff_same_content : git_diff_list :=
  ⟨sample_opts, git_iterator_type_t.TREE, git_iterator_type_t.WORKDIR, [delta_same_content]⟩

/-- A repository like the sample one in which every file of the working directory holds
the four bytes of blob 3, which start with a NUL byte, and hashes to the id 3. -/
def binary_env : Env :=
  { sample_env with
      filesize := fun _ => 4
      mmap_ro := fun _ _ => (0, sample_blob 3)
      readbuffer_fd := fun _ _ => (0, sample_blob 3)
      odb_hash := fun data _ => (0, if data = sample_blob 3 then 3 else 100 + data.length) }

/-- A modified binary file, blob 3 in the tree and the same bytes in the working
directory, no id being definitive. -/
def delta_same_binary : git_diff_delta :=
  ⟨sample_file 3 flags_none, sample_file 0 flags_none, git_delta_t.MODIFIED, -1⟩

/-- Tree-to-workdir list with that delta only. -/
def diff_same_binary : git_diff_list :=
  ⟨sample_opts, git_iterator_type_t.TREE, git_iterator_type_t.WORKDIR, [delta_same_binary]⟩

/-- A modified file with the content of blob 5 on both sides, no id being definitive, whose
new side, in the working directory, was recorded with the id 7. -/
def delta_stale_oid : git_diff_delta :=
  ⟨sample_file 5 flags_none, sample_file 7 flags_none, git_delta_t.MODIFIED, -1⟩

/-- Tree-to-workdir list with that delta only. -/
def diff_stale_oid : git_diff_list :=
  ⟨sample_opts, git_iterator_type_t.TREE, git_iterator_type_t.WORKDIR, [delta_stale_oid]⟩

/-! ## Definitions for the idempotence of the phases and the iterator's loads -/

/-- An unloaded context on the delta of the text list. -/
def ctxt_text : diff_delta_context :=
  { diff_delta_init_context_from_diff_list diff_text with delta := some 0 }

/-- The iterator `iter_on_text` after the capture of the diff of its file. -/
def iter_text_diffed : git_diff_iterator :=
  ((diffiter_do_diff_file sample_env iter_on_text).map fun r => r.2).getD iter_on_text

/-- The first hunk captured for the text delta. -/
def hunk_of_text : diffiter_hunk :=
  iter_text_diffed.hunks.getD 0 ⟨none, ⟨0, 0, 0, 0⟩, none, 0⟩

/-- The range whose four fields are the least `int`, the one with the longest header. -/
def range_int_min : git_diff_range :=
  ⟨-2147483648, -2147483648, -2147483648, -2147483648⟩

/-- A repository like the sample one in which the file `g.txt` of the working directory
holds the six bytes of blob 2, which hash to the id 2. -/
def changed_env : Env :=
  { sample_env with
      filesize := fun path => if path = some "g.txt".toList then 6 else 5
      mmap_ro := fun path _ =>
        (0, if path = some "g.txt".toList then sample_blob 2 else sample_blob 5)
      readbuffer_fd := fun path _ =>
        (0, if path = some "g.txt".toList then sample_blob 2 else sample_blob 5)
      odb_hash := fun data _ =>
        (0, if data = sample_blob 5 then 5 else if data = sample_blob 2 then 2
            else 100 + data.length) }

/-- A modified file `g.txt`: blob 1 in the tree, id definitive, against the working
directory, whose id is not yet known. -/
def delta_changed : git_diff_delta :=
  ⟨⟨1, some "g.txt".toList, 0o100644, 0, flags_valid_oid⟩,
   ⟨0, some "g.txt".toList, 0o100644, 0, flags_none⟩, git_delta_t.MODIFIED, -1⟩

/-- Tree-to-workdir list with the changed file only. -/
def diff_changed : git_diff_list :=
  ⟨sample_opts, git_iterator_type_t.TREE, git_iterator_type_t.WORKDIR, [delta_changed]⟩

/-- Tree-to-workdir list: an ambiguous delta with identical content, then the changed
file. -/
def diff_skipped_changed : git_diff_list :=
  ⟨sample_opts, git_iterator_type_t.TREE, git_iterator_type_t.WORKDIR,
    [delta_ambiguous, delta_changed]⟩

/-- What a consumer sees of the first file of a list: the code and the delta pointer
`git_diff_iterator_next_file` returns on a new iterator, whether it leaves the context
marked loaded, then the result of `git_diff_iterator_num_hunks_in_file`, the `diffable`
flag and the content maps the context holds after it, and the delta the pointer
designates after it. -/
structure first_file_report where
  error : Int
  delta_ptr : Option Nat
  loaded : Bool
  num_hunks : Int
  diffable : Bool
  old_data : git_map
  new_data : git_map
  delta : Option git_diff_delta
deriving DecidableEq

/-- The calls `git_diff_iterator_next_file` and `git_diff_iterator_num_hunks_in_file` on a
new iterator over `diff`. -/
def first_file (env : Env) (diff : git_diff_list) : Option first_file_report :=
  (git_diff_iterator_next_file env (git_diff_iterator_new diff)).bind fun r =>
    (git_diff_iterator_num_hunks_in_file env r.iter).map fun c =>
      ⟨r.error, r.delta_ptr, r.iter.ctxt.loaded, c.1, c.2.ctxt.diffable, c.2.ctxt.old_data,
        c.2.ctxt.new_data, r.delta_ptr.bind fun i => c.2.diff.deltas[i]?⟩

/-! ## Definitions for the hunk header parser over its helper -/

/-- Source `parse_hunk_header` with its helper `read_next_int`, which is not in src/, as
the parameter `rd` (result code, advanced pointer, value stored). -/
def parse_hunk_header_with (rd : List Char → Int × List Char × Int)
    (range : git_diff_range) (header : List Char) : Int × git_diff_range :=
  if deref header ≠ '@' then (-1, range) else
  let r1 := rd header
  let range := { range with old_start := r1.2.2 }
  if r1.1 < 0 then (-1, range) else
  let header := r1.2.1
  let r2 := if deref header = ',' then rd header else (0, header, 1)
  let range := { range with old_lines := r2.2.2 }
  if r2.1 < 0 then (-1, range) else
  let header := r2.2.1
  let r3 := rd header
  let range := { range with new_start := r3.2.2 }
  if r3.1 < 0 then (-1, range) else
  let header := r3.2.1
  let r4 := if deref header = ',' then rd header else (0, header, 1)
  let range := { range with new_lines := r4.2.2 }
  if r4.1 < 0 then (-1, range) else
  if range.old_start < 0 ∨ range.new_start < 0 then (-1, range) else
  (0, range)

/-- The numbers of a hunk header as the helper `rd` reads them one after the other: for
each of old start, old count, new start and new count the result code of the read and the
value read, and for each count whether it is written.  A count is written when the
character behind the start is a comma, and is read then; otherwise its read is (0, 1),
the default. -/
structure hunk_reads where
  old_start : Int × Int
  old_written : Bool
  old_lines : Int × Int
  new_start : Int × Int
  new_written : Bool
  new_lines : Int × Int

/-- The reads of `header` by the helper `rd`, in the order of `parse_hunk_header`. -/
def read_hunk (rd : List Char → Int × List Char × Int) (header : List Char) : hunk_reads :=
  let r1 := rd header
  let r2 := if deref r1.2.1 = ',' then rd r1.2.1 else (0, r1.2.1, 1)
  let r3 := rd r2.2.1
  let r4 := if deref r3.2.1 = ',' then rd r3.2.1 else (0, r3.2.1, 1)
  ⟨(r1.1, r1.2.2), decide (deref r1.2.1 = ','), (r2.1, r2.2.2),
    (r3.1, r3.2.2), decide (deref r3.2.1 = ','), (r4.1, r4.2.2)⟩

/-! ## Definitions for the states behind a skipped preloaded delta -/

/-- Tree-to-workdir list with the changed file only, `FORCE_TEXT` set. -/
def diff_force_changed : git_diff_list :=
  ⟨force_text_opts, git_iterator_type_t.TREE, git_iterator_type_t.WORKDIR, [delta_changed]⟩

/-- Tree-to-workdir list with `FORCE_TEXT` set: an ambiguous delta with identical
content, then the changed file. -/
def diff_force_skipped_changed : git_diff_list :=
  ⟨force_text_opts, git_iterator_type_t.TREE, git_iterator_type_t.WORKDIR,
    [delta_ambiguous, delta_changed]⟩

/-- Tree-to-workdir list with one delta, ambiguous and with identical content. -/
def diff_one_ambiguous : git_diff_list :=
  ⟨sample_opts, git_iterator_type_t.TREE, git_iterator_type_t.WORKDIR, [delta_ambiguous]⟩

/-- Hunk callback that aborts: returns 1. -/
def abort_hunk_cb : git_diff_hunk_fn Unit := fun s _ _ _ _ => (s, 1)

/-! # Theorems -/

/-! ## Properties of skipping and counting -/

/-- C4: `diff_delta_should_skip` is true exactly for an Unmodified, Ignored or Untracked
delta whose including option is not set; a delta with status Added, Deleted, Modified,
Renamed, Copied or Typechange is never skipped, whatever the options. -/
theorem should_skip_iff (opts : git_diff_options) (delta : git_diff_delta) :
    (diff_delta_should_skip opts delta = true ↔
      ((delta.status = git_delta_t.UNMODIFIED ∧ opts.flags.INCLUDE_UNMODIFIED = false) ∨
       (delta.status = git_delta_t.IGNORED ∧ opts.flags.INCLUDE_IGNORED = false) ∨
       (delta.status = git_delta_t.UNTRACKED ∧ opts.flags.INCLUDE_UNTRACKED = false))) ∧
    ((delta.status = git_delta_t.ADDED ∨ delta.status = git_delta_t.DELETED ∨
      delta.status = git_delta_t.MODIFIED ∨ delta.status = git_delta_t.RENAMED ∨
      delta.status = git_delta_t.COPIED ∨ delta.status = git_delta_t.TYPECHANGE) →
      diff_delta_should_skip opts delta = false) := by
  constructor
  · unfold diff_delta_should_skip
    by_cases h1 : delta.status = git_delta_t.UNMODIFIED ∧ opts.flags.INCLUDE_UNMODIFIED = false
    · simp [h1]
    · by_cases h2 : delta.status = git_delta_t.IGNORED ∧ opts.flags.INCLUDE_IGNORED = false
      · simp [h2]
      · by_cases h3 : delta.status = git_delta_t.UNTRACKED ∧
            opts.flags.INCLUDE_UNTRACKED = false
        · simp [h3]
        · rw [if_neg h1, if_neg h2, if_neg h3]
          constructor
          · intro h; exact absurd h (by decide)
          · rintro (h | h | h)
            · exact absurd h h1
            · exact absurd h h2
            · exact absurd h h3
  · intro h
    unfold diff_delta_should_skip
    rcases h with h | h | h | h | h | h <;> simp [h]

theorem entrycount_loop_eq (opts : git_diff_options) (delta_t : Int)
    (deltas : List git_diff_delta) (count : Nat) :
    entrycount_loop opts delta_t deltas count =
      count + (deltas.filter (counted opts delta_t)).length := by
  induction deltas generalizing count with
  | nil => simp [entrycount_loop]
  | cons d rest ih =>
    unfold entrycount_loop
    by_cases hs : diff_delta_should_skip opts d = true
    · rw [if_pos hs, ih]
      simp [List.filter_cons, counted, hs]
    · rw [if_neg hs]
      have hs' : diff_delta_should_skip opts d = false := by simpa using hs
      by_cases ht : delta_t < 0 ∨ d.status.code = delta_t
      · rw [if_pos ht, ih]
        have hc : counted opts delta_t d = true := by
          rcases ht with ht | ht <;> simp [counted, hs', ht]
        simp [List.filter_cons, hc]
        omega
      · rw [if_neg ht, ih]
        have hc : counted opts delta_t d = false := by
          have h1 : ¬ delta_t < 0 := fun h => ht (Or.inl h)
          have h2 : ¬ d.status.code = delta_t := fun h => ht (Or.inr h)
          simp [counted, hs', h1, h2]
        simp [List.filter_cons, hc]

theorem status_code_injective (s t : git_delta_t) (h : s.code = t.code) : s = t := by
  cases s <;> cases t <;> first | rfl | (exact absurd h (by decide))

theorem any_count_split (opts : git_diff_options) (delta_t : Int) (hneg : delta_t < 0)
    (deltas : List git_diff_delta) :
    (deltas.filter (counted opts delta_t)).length =
      (all_statuses.map fun s => (deltas.filter (counted opts s.code)).length).sum := by
  induction deltas with
  | nil => simp [all_statuses]
  | cons d rest ih =>
    by_cases hs : diff_delta_should_skip opts d = true
    · have h1 : ∀ t, counted opts t d = false := fun t => by simp [counted, hs]
      simp only [List.filter_cons, h1]
      simpa using ih
    · have hs' : diff_delta_should_skip opts d = false := by simpa using hs
      have h0 : counted opts delta_t d = true := by simp [counted, hs', hneg]
      have hk : ∀ s : git_delta_t, counted opts s.code d = decide (d.status = s) := by
        intro s
        have hn : ¬ s.code < 0 := by cases s <;> decide
        by_cases hds : d.status = s
        · simp [counted, hs', hds]
        · have : ¬ d.status.code = s.code := fun h => hds (status_code_injective _ _ h)
          simp [counted, hs', hn, this, hds]
      simp only [List.filter_cons, h0, hk, if_true, List.length_cons, ih]
      simp only [all_statuses, List.map_cons, List.map_nil, List.sum_cons, List.sum_nil]
      cases hst : d.status <;> simp <;> omega

/-- C5: `git_diff_entrycount(diff, t)` is the number of deltas of the list that are not
skippable under the list's options and whose status is `t`, or, for negative `t` ("any"),
the number of all non-skippable deltas; the count for "any" is the sum of the counts over
the individual statuses, and no count exceeds the length of the list. -/
theorem entrycount_spec (diff : git_diff_list) (t : Int) :
    git_diff_entrycount diff t =
      ((diff.deltas.filter fun d =>
          !diff_delta_should_skip diff.opts d && (decide (t < 0) || d.status.code == t)).length
        : Nat) ∧
    (t < 0 → git_diff_entrycount diff t =
      ((diff.deltas.filter fun d => !diff_delta_should_skip diff.opts d).length : Nat)) ∧
    (t < 0 → git_diff_entrycount diff t =
      (all_statuses.map fun s => git_diff_entrycount diff s.code).sum) ∧
    git_diff_entrycount diff t ≤ (diff.deltas.length : Nat) := by
  have hmain : git_diff_entrycount diff t =
      ((diff.deltas.filter (counted diff.opts t)).length : Nat) := by
    simp [git_diff_entrycount, entrycount_loop_eq]
  refine ⟨?_, ?_, ?_, ?_⟩
  · rw [hmain]; rfl
  · intro hneg
    have hc : counted diff.opts t = fun d => !diff_delta_should_skip diff.opts d := by
      funext d
      simp [counted, hneg]
    rw [hmain, hc]
  · intro hneg
    rw [hmain, any_count_split diff.opts t hneg]
    simp only [git_diff_entrycount, entrycount_loop_eq, Nat.zero_add]
    induction all_statuses with
    | nil => simp
    | cons s rest ih => simp only [List.map_cons, List.sum_cons, Nat.cast_add, ih]
  · rw [hmain]
    exact_mod_cast List.length_filter_le _ _

/-! ## Size tier of the binary classifier -/

theorem update_delta_is_binary_files (delta : git_diff_delta) :
    (update_delta_is_binary delta).old_file = delta.old_file ∧
    (update_delta_is_binary delta).new_file = delta.new_file := by
  unfold update_delta_is_binary
  split_ifs <;> exact ⟨rfl, rfl⟩

theorem update_delta_is_binary_file (delta : git_diff_delta) (s : side) :
    (update_delta_is_binary delta).file s = delta.file s := by
  cases s
  · exact (update_delta_is_binary_files delta).1
  · exact (update_delta_is_binary_files delta).2

theorem file_set_file (delta : git_diff_delta) (s : side) (f : git_diff_file) :
    (delta.set_file s f).file s = f := by
  cases s <;> rfl

/-- C10: size tier on a side with no binary flag yet.  With `max_size < 0` the side's
flags are unchanged for every size; otherwise, the threshold being `max_size` when it is
positive and `MAX_DIFF_FILESIZE` when it is 0, the `BINARY` flag is set iff the side's
size is strictly greater than the threshold, and `NOT_BINARY` is not set. -/
theorem binary_by_size_spec (opts : git_diff_options) (delta : git_diff_delta) (file : side)
    (hb : (delta.file file).flags.BINARY = false)
    (hn : (delta.file file).flags.NOT_BINARY = false) :
    (opts.max_size < 0 →
      ((diff_delta_is_binary_by_size (some opts) delta file).file file).flags =
        (delta.file file).flags) ∧
    (0 ≤ opts.max_size →
      (((diff_delta_is_binary_by_size (some opts) delta file).file file).flags.BINARY = true ↔
        (delta.file file).size >
          (if opts.max_size > 0 then opts.max_size else MAX_DIFF_FILESIZE))) ∧
    ((diff_delta_is_binary_by_size (some opts) delta file).file file).flags.NOT_BINARY
      = false := by
  have hg : ¬ ((delta.file file).flags.BINARY = true ∨
      (delta.file file).flags.NOT_BINARY = true) := by simp [hb, hn]
  refine ⟨?_, ?_, ?_⟩
  · intro hneg
    simp [diff_delta_is_binary_by_size, hb, hn, hneg]
  · intro hpos
    have hneg : ¬ opts.max_size < 0 := not_lt.mpr hpos
    simp only [diff_delta_is_binary_by_size, if_neg hg, if_neg hneg,
      update_delta_is_binary_file]
    by_cases hsz : (delta.file file).size >
        (if opts.max_size > 0 then opts.max_size else MAX_DIFF_FILESIZE)
    · simp [hsz, file_set_file]
    · simp [hsz, hb]
  · by_cases hneg : opts.max_size < 0
    · simp [diff_delta_is_binary_by_size, hb, hn, hneg]
    · simp only [diff_delta_is_binary_by_size, if_neg hg, if_neg hneg,
        update_delta_is_binary_file]
      split_ifs <;> simp [file_set_file, hn]


/-! ## Decimal numerals -/

theorem digitChar_isDigit (m : Nat) (h : m < 10) : (Nat.digitChar m).isDigit = true := by
  interval_cases m <;> decide

theorem digitChar_value (m : Nat) (h : m < 10) : ((Nat.digitChar m).toNat : Int) - 48 = m := by
  interval_cases m <;> decide

theorem isDigit_ne_NUL (c : Char) (h : c.isDigit = true) : c ≠ NUL := by
  intro hc
  rw [hc] at h
  exact absurd h (by decide)

theorem decimal_nat_small (n : Nat) (h : n < 10) : decimal_nat n = [Nat.digitChar n] := by
  unfold decimal_nat
  by_cases h0 : n = 0
  · rw [if_pos h0, h0]; rfl
  · rw [if_neg h0, Nat.digits_of_lt 10 n h0 h]; rfl

theorem decimal_nat_step (n : Nat) (h : 10 ≤ n) :
    decimal_nat n = decimal_nat (n / 10) ++ [Nat.digitChar (n % 10)] := by
  unfold decimal_nat
  have h0 : n ≠ 0 := by omega
  have h1 : n / 10 ≠ 0 := by omega
  rw [if_neg h0, if_neg h1, Nat.digits_def' (by norm_num) (by omega)]
  simp

theorem toDigitsCore_decimal (fuel : Nat) : ∀ (n : Nat) (acc : List Char), n < fuel →
    Nat.toDigitsCore 10 fuel n acc = decimal_nat n ++ acc := by
  induction fuel with
  | zero => intro n acc h; exact absurd h (Nat.not_lt_zero n)
  | succ fuel ih =>
    intro n acc h
    rw [Nat.toDigitsCore.eq_2]
    by_cases hq : n / 10 = 0
    · have hlt : n < 10 := by omega
      rw [if_pos hq, decimal_nat_small n hlt, Nat.mod_eq_of_lt hlt]
      rfl
    · have hge : 10 ≤ n := by omega
      rw [if_neg hq, ih (n / 10) _ (by omega), decimal_nat_step n hge, List.append_assoc]
      rfl

theorem toDigits_decimal (n : Nat) : Nat.toDigits 10 n = decimal_nat n := by
  unfold Nat.toDigits
  rw [toDigitsCore_decimal (n + 1) n [] (Nat.lt_succ_self n), List.append_nil]

theorem fmt_d_decimal (v : Int) : fmt_d v = decimal v := by
  cases v with
  | ofNat n =>
    have h : ¬ (Int.ofNat n < 0) := not_lt.mpr (Int.ofNat_nonneg n)
    simp only [fmt_d, decimal, if_neg h, toDigits_decimal]
    rfl
  | negSucc n =>
    have h : Int.negSucc n < 0 := Int.negSucc_lt_zero n
    simp only [fmt_d, decimal, if_pos h, toDigits_decimal, Int.natAbs_negSucc]

theorem decimal_nat_digits (n : Nat) : ∀ c ∈ decimal_nat n, c.isDigit = true := by
  induction n using Nat.strong_induction_on with
  | _ n ih =>
    intro c hc
    by_cases h : n < 10
    · rw [decimal_nat_small n h, List.mem_singleton] at hc
      rw [hc]; exact digitChar_isDigit n h
    · rw [decimal_nat_step n (by omega), List.mem_append, List.mem_singleton] at hc
      rcases hc with hc | hc
      · exact ih (n / 10) (by omega) c hc
      · rw [hc]; exact digitChar_isDigit _ (Nat.mod_lt n (by norm_num))

theorem decimal_nat_length (k : Nat) : ∀ n : Nat, n < 10 ^ (k + 1) →
    (decimal_nat n).length ≤ k + 1 := by
  induction k with
  | zero =>
    intro n h
    rw [decimal_nat_small n (by simpa using h)]
    simp
  | succ k ih =>
    intro n h
    by_cases hs : n < 10
    · rw [decimal_nat_small n hs]; simp
    · rw [decimal_nat_step n (by omega), List.length_append, List.length_singleton]
      have : n / 10 < 10 ^ (k + 1) := by
        rw [Nat.div_lt_iff_lt_mul (by norm_num)]
        calc n < 10 ^ (k + 1 + 1) := h
          _ = 10 ^ (k + 1) * 10 := by ring
      have := ih (n / 10) this
      omega

theorem decimal_nat_ne_nil (n : Nat) : decimal_nat n ≠ [] := by
  by_cases h : n < 10
  · rw [decimal_nat_small n h]; simp
  · rw [decimal_nat_step n (by omega)]; simp

theorem decimal_length (v : Int) (h : is_int v) : (decimal v).length ≤ 11 := by
  have hb : v.natAbs < 10 ^ (9 + 1) := by
    have h1 := h.1
    have h2 := h.2
    omega
  have hl := decimal_nat_length 9 v.natAbs hb
  unfold decimal
  split_ifs
  · simp only [List.length_cons]; omega
  · omega

theorem decimal_no_NUL (v : Int) : ∀ c ∈ decimal v, c ≠ NUL := by
  intro c hc
  unfold decimal at hc
  split_ifs at hc
  · rw [List.mem_cons] at hc
    rcases hc with hc | hc
    · rw [hc]; decide
    · exact isDigit_ne_NUL c (decimal_nat_digits _ c hc)
  · exact isDigit_ne_NUL c (decimal_nat_digits _ c hc)

theorem decimal_of_nonneg (v : Int) (h : 0 ≤ v) : decimal v = decimal_nat v.toNat := by
  unfold decimal
  rw [if_neg (not_lt.mpr h)]
  congr 1
  omega

/-! ## The header formatter -/

theorem cstr_append_NUL (s rest : List Char) (h : ∀ c ∈ s, c ≠ NUL) :
    cstr (s ++ NUL :: rest) = s := by
  induction s with
  | nil => simp [cstr]
  | cons c cs ih =>
    have hc : c ≠ NUL := h c (List.mem_cons_self c cs)
    have := ih (fun x hx => h x (List.mem_cons_of_mem c hx))
    simp [cstr, hc, this]

theorem format_hunk_header_eq (header : List Char) (len : Nat) (r : git_diff_range) :
    format_hunk_header header len r = p_snprintf header len (canonical_header r) := by
  unfold format_hunk_header canonical_header
  by_cases ho : r.old_lines = 1 <;> by_cases hn : r.new_lines = 1 <;>
    simp [ho, hn, fmt_d_decimal]

theorem no_NUL_append (s t : List Char) (hs : ∀ c ∈ s, c ≠ NUL) (ht : ∀ c ∈ t, c ≠ NUL) :
    ∀ c ∈ s ++ t, c ≠ NUL := by
  intro c hc
  rcases List.mem_append.mp hc with h | h
  · exact hs c h
  · exact ht c h

theorem count_no_NUL (b : Prop) [Decidable b] (v : Int) :
    ∀ c ∈ (if b then [] else ',' :: decimal v), c ≠ NUL := by
  intro c hc
  split_ifs at hc
  · simp at hc
  · rw [List.mem_cons] at hc
    rcases hc with hc | hc
    · rw [hc]; decide
    · exact decimal_no_NUL v c hc

theorem canonical_header_no_NUL (r : git_diff_range) : ∀ c ∈ canonical_header r, c ≠ NUL := by
  unfold canonical_header
  refine no_NUL_append _ _ (no_NUL_append _ _ (no_NUL_append _ _ (no_NUL_append _ _
    (no_NUL_append _ _ (no_NUL_append _ _ ?_ ?_) ?_) ?_) ?_) ?_) ?_
  · decide
  · exact decimal_no_NUL _
  · exact count_no_NUL _ _
  · decide
  · exact decimal_no_NUL _
  · exact count_no_NUL _ _
  · decide

theorem canonical_header_length (r : git_diff_range) (hr : range_is_int r) :
    (canonical_header r).length ≤ 55 := by
  obtain ⟨h1, h2, h3, h4⟩ := hr
  have l1 := decimal_length _ h1
  have l2 := decimal_length _ h2
  have l3 := decimal_length _ h3
  have l4 := decimal_length _ h4
  unfold canonical_header
  simp only [List.length_append, String.toList]
  have e1 : ("@@ -".data).length = 4 := rfl
  have e2 : (" +".data).length = 2 := rfl
  have e3 : (" @@".data).length = 3 := rfl
  rw [e1, e2, e3]
  split_ifs <;> simp only [List.length_cons, List.length_nil] <;> omega

/-- The formatter's output when the text fits the buffer: the canonical header, a `NUL`,
and the rest of the buffer; the result is the length of the text. -/
theorem format_hunk_header_fits (header : List Char) (len : Nat) (r : git_diff_range)
    (h : (canonical_header r).length < len) :
    format_hunk_header header len r =
      (canonical_header r ++ NUL :: header.drop ((canonical_header r).length + 1),
        ((canonical_header r).length : Int)) := by
  rw [format_hunk_header_eq]
  unfold p_snprintf
  have h0 : len ≠ 0 := by omega
  rw [if_neg h0, List.take_of_length_le (by omega)]


/-- C2: for a range of `int` fields `(a, b, c, d)`, `format_hunk_header` leaves in a buffer
of more than 55 bytes exactly `@@ -a,b +c,d @@` when `b ≠ 1` and `d ≠ 1`,
`@@ -a,b +c @@` when `b ≠ 1` and `d = 1`, `@@ -a +c,d @@` when `b = 1` and `d ≠ 1`, and
`@@ -a +c @@` when `b = 1` and `d = 1`, the numbers in decimal, and returns the length
of that text; `(0,0,1,1)` gives `@@ -0,0 +1 @@` and `(1,1,0,0)` gives `@@ -1 +0,0 @@`. -/
theorem format_hunk_header_forms (header : List Char) (len : Nat) (r : git_diff_range)
    (hr : range_is_int r) (hlen : 55 < len) :
    (r.old_lines ≠ 1 → r.new_lines ≠ 1 →
      cstr (format_hunk_header header len r).1 =
        "@@ -".toList ++ decimal r.old_start ++ ",".toList ++ decimal r.old_lines ++
          " +".toList ++ decimal r.new_start ++ ",".toList ++ decimal r.new_lines ++
          " @@".toList) ∧
    (r.old_lines ≠ 1 → r.new_lines = 1 →
      cstr (format_hunk_header header len r).1 =
        "@@ -".toList ++ decimal r.old_start ++ ",".toList ++ decimal r.old_lines ++
          " +".toList ++ decimal r.new_start ++ " @@".toList) ∧
    (r.old_lines = 1 → r.new_lines ≠ 1 →
      cstr (format_hunk_header header len r).1 =
        "@@ -".toList ++ decimal r.old_start ++ " +".toList ++ decimal r.new_start ++
          ",".toList ++ decimal r.new_lines ++ " @@".toList) ∧
    (r.old_lines = 1 → r.new_lines = 1 →
      cstr (format_hunk_header header len r).1 =
        "@@ -".toList ++ decimal r.old_start ++ " +".toList ++ decimal r.new_start ++
          " @@".toList) ∧
    (format_hunk_header header len r).2 = (cstr (format_hunk_header header len r).1).length ∧
    cstr (format_hunk_header (List.replicate 128 NUL) 128 ⟨0, 0, 1, 1⟩).1 =
      "@@ -0,0 +1 @@".toList ∧
    cstr (format_hunk_header (List.replicate 128 NUL) 128 ⟨1, 1, 0, 0⟩).1 =
      "@@ -1 +0,0 @@".toList := by
  have hfit : (canonical_header r).length < len := by
    have := canonical_header_length r hr
    omega
  have hc : cstr (format_hunk_header header len r).1 = canonical_header r := by
    rw [format_hunk_header_fits header len r hfit]
    exact cstr_append_NUL _ _ (canonical_header_no_NUL r)
  rw [hc]
  refine ⟨?_, ?_, ?_, ?_, ?_, by decide, by decide⟩
  · intro ho hn; simp [canonical_header, ho, hn]
  · intro ho hn; simp [canonical_header, ho, hn]
  · intro ho hn; simp [canonical_header, ho, hn]
  · intro ho hn; simp [canonical_header, ho, hn]
  · rw [format_hunk_header_fits header len r hfit]

theorem format_hunk_header_forms_witness :
    range_is_int ⟨12, 3, 14, 1⟩ ∧ 55 < 128 ∧
    cstr (format_hunk_header (List.replicate 128 NUL) 128 ⟨12, 3, 14, 1⟩).1 =
      "@@ -".toList ++ decimal 12 ++ ",".toList ++ decimal 3 ++ " +".toList ++ decimal 14 ++
        " @@".toList :=
  ⟨by decide, by decide,
    (format_hunk_header_forms (List.replicate 128 NUL) 128 ⟨12, 3, 14, 1⟩ (by decide)
      (by decide)).2.1 (by decide) rfl⟩

/-! ## The header parser -/

theorem wrap32_id (x : Int) (h : is_int x) : wrap32 x = x := by
  obtain ⟨h1, h2⟩ := h
  unfold wrap32
  omega

theorem skip_to_digit_separators (pre rest : List Char)
    (hpre : ∀ c ∈ pre, c ≠ NUL ∧ c.isDigit = false) :
    skip_to_digit (pre ++ rest) = skip_to_digit rest := by
  induction pre with
  | nil => rfl
  | cons c cs ih =>
    obtain ⟨h1, h2⟩ := hpre c (List.mem_cons_self c cs)
    have := ih (fun x hx => hpre x (List.mem_cons_of_mem c hx))
    simp [skip_to_digit, h1, h2, this]

theorem skip_to_digit_digit (c : Char) (cs : List Char) (h : c.isDigit = true) :
    skip_to_digit (c :: cs) = c :: cs := by
  simp [skip_to_digit, h]

theorem read_digits_stop (tail : List Char) (v : Int) (k : Nat)
    (h : (deref tail).isDigit = false) : read_digits tail v k = (v, k, tail) := by
  cases tail with
  | nil => rfl
  | cons c cs =>
    have hc : c.isDigit = false := h
    simp [read_digits, hc]

theorem read_digits_digitChar (m : Nat) (hm : m < 10) (rest : List Char) (v : Int) (k : Nat)
    (h0 : 0 ≤ v) (hb : v * 10 + m ≤ 2147483647) :
    read_digits (Nat.digitChar m :: rest) v k = read_digits rest (v * 10 + m) (k + 1) := by
  have hw : wrap32 (v * 10 + m) = v * 10 + m := wrap32_id _ ⟨by omega, hb⟩
  simp only [read_digits, digitChar_isDigit m hm, if_true, digitChar_value m hm, hw]

theorem read_digits_decimal (n : Nat) : ∀ (v : Int) (k : Nat) (rest : List Char), 0 ≤ v →
    v * 10 ^ (decimal_nat n).length + n ≤ 2147483647 →
    read_digits (decimal_nat n ++ rest) v k =
      read_digits rest (v * 10 ^ (decimal_nat n).length + n) (k + (decimal_nat n).length) := by
  induction n using Nat.strong_induction_on with
  | _ n ih =>
    intro v k rest h0 hb
    by_cases hs : n < 10
    · rw [decimal_nat_small n hs] at hb ⊢
      simp only [List.length_singleton, pow_one] at hb ⊢
      exact read_digits_digitChar n hs rest v k h0 hb
    · have hstep := decimal_nat_step n (by omega)
      rw [hstep] at hb ⊢
      simp only [List.length_append, List.length_singleton, pow_succ] at hb ⊢
      have hAe : v * (10 ^ (decimal_nat (n / 10)).length * 10) =
          v * 10 ^ (decimal_nat (n / 10)).length * 10 := by ring
      rw [hAe] at hb ⊢
      generalize hA : v * 10 ^ (decimal_nat (n / 10)).length = A at hb ⊢
      have hA0 : 0 ≤ A := by rw [← hA]; positivity
      have hb' : v * 10 ^ (decimal_nat (n / 10)).length + ((n / 10 : Nat) : Int) ≤ 2147483647 := by
        rw [hA]; push_cast; omega
      rw [List.append_assoc, ih (n / 10) (by omega) v k _ h0 hb', hA]
      have hm : n % 10 < 10 := Nat.mod_lt n (by norm_num)
      rw [List.singleton_append, read_digits_digitChar (n % 10) hm rest _ _
        (by push_cast; omega) (by push_cast; omega)]
      congr 1
      push_cast
      omega

theorem decimal_nat_head_digit (n : Nat) (rest : List Char) :
    ∃ c cs, decimal_nat n ++ rest = c :: cs ∧ c.isDigit = true := by
  cases h : decimal_nat n with
  | nil => exact absurd h (decimal_nat_ne_nil n)
  | cons c cs =>
    refine ⟨c, cs ++ rest, rfl, decimal_nat_digits n c ?_⟩
    rw [h]; exact List.mem_cons_self c cs

/-- Reading a decimal numeral that follows separators and is followed by a character
that is not a digit. -/
theorem read_next_int_decimal (pre tail : List Char) (n : Nat)
    (hpre : ∀ c ∈ pre, c ≠ NUL ∧ c.isDigit = false) (hn : (n : Int) ≤ 2147483647)
    (htail : (deref tail).isDigit = false) :
    read_next_int (pre ++ (decimal_nat n ++ tail)) = (0, tail, (n : Int)) := by
  unfold read_next_int
  obtain ⟨c, cs, hcs, hd⟩ := decimal_nat_head_digit n tail
  have hskip : skip_to_digit (pre ++ (decimal_nat n ++ tail)) = decimal_nat n ++ tail := by
    rw [skip_to_digit_separators pre _ hpre, hcs, skip_to_digit_digit c cs hd]
  rw [hskip, read_digits_decimal n 0 0 tail (le_refl 0) (by simpa using hn),
    read_digits_stop tail _ _ htail]
  have hlen : 0 < (decimal_nat n).length := List.length_pos.mpr (decimal_nat_ne_nil n)
  simp [hlen]

/-- Control flow of `parse_hunk_header` when its four reads succeed. -/
theorem parse_hunk_header_ok (range : git_diff_range) (header h1 h2 h3 h4 : List Char)
    (a b c d : Int) (e0 : deref header = '@')
    (e1 : read_next_int header = (0, h1, a))
    (e2 : (if deref h1 = ',' then read_next_int h1 else (0, h1, 1)) = (0, h2, b))
    (e3 : read_next_int h2 = (0, h3, c))
    (e4 : (if deref h3 = ',' then read_next_int h3 else (0, h3, 1)) = (0, h4, d))
    (ha : 0 ≤ a) (hc : 0 ≤ c) :
    parse_hunk_header range header = (0, ⟨a, b, c, d⟩) := by
  unfold parse_hunk_header
  simp only [e0, ne_eq, not_true_eq_false, if_false, e1, lt_self_iff_false, e2, e3, e4]
  simp [not_lt.mpr ha, not_lt.mpr hc]


/-- Reading an optional count: `,b` when `b ≠ 1`, nothing when `b = 1`. -/
theorem read_count (b : Int) (hb0 : 0 ≤ b) (hb : b ≤ 2147483647) (tail : List Char)
    (htail : deref tail = ' ') :
    (if deref ((if b = 1 then [] else ',' :: decimal b) ++ tail) = ',' then
        read_next_int ((if b = 1 then [] else ',' :: decimal b) ++ tail)
      else (0, (if b = 1 then [] else ',' :: decimal b) ++ tail, 1)) = (0, tail, b) := by
  by_cases h1 : b = 1
  · have hne : ¬ (deref tail = ',') := by rw [htail]; decide
    simp only [h1, if_true, List.nil_append, if_neg hne]
  · simp only [if_neg h1, List.cons_append]
    have hd : deref (',' :: (decimal b ++ tail)) = ',' := rfl
    rw [if_pos hd, decimal_of_nonneg b hb0]
    have hread := read_next_int_decimal [','] tail b.toNat (by decide)
      (by rw [Int.toNat_of_nonneg hb0]; exact hb) (by rw [htail]; decide)
    rw [Int.toNat_of_nonneg hb0] at hread
    exact hread

theorem count_head_not_digit (b : Int) (tail : List Char) (htail : deref tail = ' ') :
    (deref ((if b = 1 then [] else ',' :: decimal b) ++ tail)).isDigit = false := by
  by_cases h1 : b = 1
  · simp only [h1, if_true, List.nil_append, htail]; decide
  · simp only [if_neg h1, List.cons_append]
    show (',' : Char).isDigit = false
    decide

/-- Parsing the canonical header of a range with non-negative `int` fields, whatever
follows its terminator, yields the range. -/
theorem parse_canonical_header (range0 r : git_diff_range) (rest : List Char)
    (hr : range_is_int r) (h1 : 0 ≤ r.old_start) (h2 : 0 ≤ r.old_lines)
    (h3 : 0 ≤ r.new_start) (h4 : 0 ≤ r.new_lines) :
    parse_hunk_header range0 (canonical_header r ++ NUL :: rest) = (0, r) := by
  obtain ⟨⟨_, u1⟩, ⟨_, u2⟩, ⟨_, u3⟩, ⟨_, u4⟩⟩ := hr
  let T4 : List Char := " @@".toList ++ NUL :: rest
  let T3 : List Char := (if r.new_lines = 1 then [] else ',' :: decimal r.new_lines) ++ T4
  let T2 : List Char := " +".toList ++ (decimal_nat r.new_start.toNat ++ T3)
  let T1 : List Char := (if r.old_lines = 1 then [] else ',' :: decimal r.old_lines) ++ T2
  have hform : canonical_header r ++ NUL :: rest =
      "@@ -".toList ++ (decimal_nat r.old_start.toNat ++ T1) := by
    simp only [canonical_header, decimal_of_nonneg _ h1, decimal_of_nonneg _ h3,
      List.append_assoc, T1, T2, T3, T4]
  have hT4 : deref T4 = ' ' := rfl
  have hT2 : deref T2 = ' ' := rfl
  have e1 := read_next_int_decimal "@@ -".toList T1 r.old_start.toNat (by decide)
    (by rw [Int.toNat_of_nonneg h1]; exact u1) (count_head_not_digit _ T2 hT2)
  have e3 := read_next_int_decimal " +".toList T3 r.new_start.toNat (by decide)
    (by rw [Int.toNat_of_nonneg h3]; exact u3) (count_head_not_digit _ T4 hT4)
  rw [Int.toNat_of_nonneg h1] at e1
  rw [Int.toNat_of_nonneg h3] at e3
  rw [hform]
  exact parse_hunk_header_ok range0 _ T1 T2 T3 T4 r.old_start r.old_lines r.new_start
    r.new_lines rfl e1 (read_count r.old_lines h2 u2 T2 hT2) e3
    (read_count r.new_lines h4 u4 T4 hT4) h1 h3

/-- C1: round trip.  For every range whose fields are non-negative `int` values,
`parse_hunk_header` applied to the string `format_hunk_header` leaves in a buffer (of
more than 55 bytes, which every header fits) succeeds and yields exactly that range,
whatever the range variable held before. -/
theorem hunk_header_roundtrip (header : List Char) (len : Nat) (range0 r : git_diff_range)
    (hr : range_is_int r) (h1 : 0 ≤ r.old_start) (h2 : 0 ≤ r.old_lines)
    (h3 : 0 ≤ r.new_start) (h4 : 0 ≤ r.new_lines) (hlen : 55 < len) :
    parse_hunk_header range0 (format_hunk_header header len r).1 = (0, r) := by
  have hfit : (canonical_header r).length < len := by
    have := canonical_header_length r hr
    omega
  rw [format_hunk_header_fits header len r hfit]
  exact parse_canonical_header range0 r _ hr h1 h2 h3 h4

theorem hunk_header_roundtrip_witness :
    range_is_int ⟨2147483647, 0, 7, 1⟩ ∧
    parse_hunk_header ⟨9, 9, 9, 9⟩
      (format_hunk_header (List.replicate 128 NUL) 128 ⟨2147483647, 0, 7, 1⟩).1 =
      (0, ⟨2147483647, 0, 7, 1⟩) :=
  ⟨by decide,
    hunk_header_roundtrip (List.replicate 128 NUL) 128 ⟨9, 9, 9, 9⟩ ⟨2147483647, 0, 7, 1⟩
      (by decide) (by decide) (by decide) (by decide) (by decide) (by decide)⟩


/-! ## Streaming traversal: abort by the file callback -/

theorem no_file_abort_hunk (t : List cb_event) (h : no_file_abort t) (delta : git_diff_delta)
    (range : git_diff_range) (header : List Char) (n : Nat) (ret : Int) :
    no_file_abort (t ++ [cb_event.hunk delta range header n ret]) := by
  intro d i m r hm
  rcases List.mem_append.mp hm with hm | hm
  · exact h d i m r hm
  · simp at hm

theorem no_file_abort_line (t : List cb_event) (h : no_file_abort t) (delta : git_diff_delta)
    (range : git_diff_range) (o : git_diff_line_t) (c : List Char) (n : Nat) (ret : Int) :
    no_file_abort (t ++ [cb_event.line delta range o c n ret]) := by
  intro d i m r hm
  rcases List.mem_append.mp hm with hm | hm
  · exact h d i m r hm
  · simp at hm

theorem cb_lines_no_file_abort {σ : Type} (line_cb : Option (git_diff_data_fn σ))
    (delta : git_diff_delta) (st : diff_delta_context × σ × List cb_event)
    (bufs : List (List Char)) (len : Nat) (h : no_file_abort st.2.2) :
    no_file_abort
      (diff_delta_cb_lines (line_cb.map traced_line_cb) delta st bufs len).2.2.2 := by
  cases line_cb with
  | none =>
    simp only [diff_delta_cb_lines, Option.map_none']
    split_ifs <;> exact h
  | some f =>
    simp only [diff_delta_cb_lines, Option.map_some', traced_line_cb]
    split_ifs <;>
      first
      | exact h
      | exact no_file_abort_line _ h _ _ _ _ _ _
      | exact no_file_abort_line _ (no_file_abort_line _ h _ _ _ _ _ _) _ _ _ _ _ _

theorem cb_no_file_abort {σ : Type} (hunk_cb : Option (git_diff_hunk_fn σ))
    (line_cb : Option (git_diff_data_fn σ)) (delta : git_diff_delta)
    (st : diff_delta_context × σ × List cb_event) (bufs : List (List Char)) (len : Nat)
    (h : no_file_abort st.2.2) :
    no_file_abort
      (diff_delta_cb (hunk_cb.map traced_hunk_cb) (line_cb.map traced_line_cb) delta st bufs
        len).2.2.2 := by
  unfold diff_delta_cb
  by_cases h1 : len = 1
  · rw [if_pos h1]
    dsimp only
    by_cases h2 : (parse_hunk_header st.1.range (bufs.getD 0 [])).1 < 0
    · rw [if_pos h2]; exact h
    · rw [if_neg h2]
      apply cb_lines_no_file_abort
      cases hunk_cb with
      | none => exact h
      | some f =>
        simp only [Option.map_some', traced_hunk_cb]
        exact no_file_abort_hunk _ h _ _ _ _ _
  · rw [if_neg h1]
    exact cb_lines_no_file_abort _ _ _ _ _ h

theorem xdl_emit_invariant {S : Type} (P : S → Prop)
    (outf : S → List (List Char) → Nat → Int × S)
    (hout : ∀ s bufs len, P s → P (outf s bufs len).2) :
    ∀ (batches : List (List (List Char))) (s : S), P s → P (xdl_emit outf batches s) := by
  intro batches
  induction batches with
  | nil => intro s hs; exact hs
  | cons b rest ih =>
    intro s hs
    unfold xdl_emit
    dsimp only
    split_ifs
    · exact hout s b b.length hs
    · exact ih _ (hout s b b.length hs)

theorem exec_no_file_abort {σ : Type} (env : Env) (hunk_cb : Option (git_diff_hunk_fn σ))
    (line_cb : Option (git_diff_data_fn σ)) (ctxt : diff_delta_context)
    (delta : git_diff_delta) (data : σ × List cb_event) (h : no_file_abort data.2) :
    no_file_abort
      (diff_delta_exec env (hunk_cb.map traced_hunk_cb) (line_cb.map traced_line_cb) ctxt
        delta data).2.2.2.2 := by
  unfold diff_delta_exec
  dsimp only
  generalize (if ctxt.loaded = false then diff_delta_load env ctxt delta
    else (0, ctxt, delta)) = l
  split_ifs
  · exact h
  · exact h
  · exact h
  · exact xdl_emit_invariant
      (fun s : diff_delta_context × σ × List cb_event => no_file_abort s.2.2) _
      (fun s bufs len hs => cb_no_file_abort hunk_cb line_cb _ s bufs len hs) _ _ h

/-- Outcome of one loop body of the traversal on a log without aborts: the log stays
without aborts, or the file callback has just returned non-zero, its record is the last
of the log, and the body ends at `cleanup` with `GIT_EUSER`. -/
theorem foreach_body_outcome {σ : Type} (env : Env) (file_cb : Option (git_diff_file_fn σ))
    (hunk_cb : Option (git_diff_hunk_fn σ)) (line_cb : Option (git_diff_data_fn σ))
    (total idx : Nat) (error : Int) (ctxt : diff_delta_context) (delta : git_diff_delta)
    (data : σ × List cb_event) (h : no_file_abort data.2) :
    no_file_abort
      (foreach_body env (file_cb.map traced_file_cb) (hunk_cb.map traced_hunk_cb)
        (line_cb.map traced_line_cb) total idx error ctxt delta data).2.2.2.2.2 ∨
    ((foreach_body env (file_cb.map traced_file_cb) (hunk_cb.map traced_hunk_cb)
        (line_cb.map traced_line_cb) total idx error ctxt delta data).1 = false ∧
     (foreach_body env (file_cb.map traced_file_cb) (hunk_cb.map traced_hunk_cb)
        (line_cb.map traced_line_cb) total idx error ctxt delta data).2.1 = GIT_EUSER ∧
     ∃ ev, (foreach_body env (file_cb.map traced_file_cb) (hunk_cb.map traced_hunk_cb)
        (line_cb.map traced_line_cb) total idx error ctxt delta data).2.2.2.2.2 =
          data.2 ++ [ev]) := by
  unfold foreach_body
  dsimp only
  generalize (if diff_delta_is_ambiguous delta = true then
      diff_delta_load env { ctxt with delta := some idx } delta
    else (error, { ctxt with delta := some idx }, delta)) = a
  generalize diff_delta_load env a.2.1 a.2.2 = l
  cases file_cb with
  | none =>
    simp only [Option.map_none', ne_eq, not_true_eq_false, if_false]
    split_ifs
    · exact Or.inl h
    · exact Or.inl h
    · exact Or.inl h
    · exact Or.inl (exec_no_file_abort env hunk_cb line_cb _ _ _ h)
  | some f =>
    simp only [Option.map_some', traced_file_cb]
    split_ifs with h1 h2 h3 h4
    · exact Or.inl h
    · exact Or.inl h
    · exact Or.inl h
    · exact Or.inr ⟨rfl, rfl, _, rfl⟩
    · left
      apply exec_no_file_abort
      have h0 : (f data.1 l.2.2 idx total).2 = 0 := not_not.mp h4
      intro d i m r hm
      rcases List.mem_append.mp hm with hm | hm
      · exact h d i m r hm
      · simp only [List.mem_singleton, cb_event.file.injEq] at hm
        rw [hm.2.2.2, h0]

/-- Outcome of the traversal's loop started on a log without aborts. -/
theorem foreach_loop_outcome {σ : Type} (env : Env) (file_cb : Option (git_diff_file_fn σ))
    (hunk_cb : Option (git_diff_hunk_fn σ)) (line_cb : Option (git_diff_data_fn σ))
    (total : Nat) (rest : List git_diff_delta) :
    ∀ (idx : Nat) (error : Int) (ctxt : diff_delta_context) (data : σ × List cb_event)
      (done : List git_diff_delta), no_file_abort data.2 →
      no_file_abort
        (foreach_loop env (file_cb.map traced_file_cb) (hunk_cb.map traced_hunk_cb)
          (line_cb.map traced_line_cb) total idx rest error ctxt data done).data.2 ∨
      ((foreach_loop env (file_cb.map traced_file_cb) (hunk_cb.map traced_hunk_cb)
          (line_cb.map traced_line_cb) total idx rest error ctxt data done).error = GIT_EUSER ∧
       ∃ t ev, no_file_abort t ∧
        (foreach_loop env (file_cb.map traced_file_cb) (hunk_cb.map traced_hunk_cb)
          (line_cb.map traced_line_cb) total idx rest error ctxt data done).data.2 =
            t ++ [ev]) := by
  induction rest with
  | nil => intro idx error ctxt data done h; exact Or.inl h
  | cons delta rest ih =>
    intro idx error ctxt data done h
    unfold foreach_loop
    dsimp only
    rcases foreach_body_outcome env file_cb hunk_cb line_cb total idx error ctxt delta data h
      with hb | ⟨hb1, hb2, ev, hb3⟩
    · split_ifs
      · exact ih _ _ _ _ _ hb
      · exact Or.inl hb
      · exact ih _ _ _ _ _ hb
    · have hstop : foreach_stops GIT_EUSER = true := by decide
      rw [if_neg (by rw [hb1]; decide), hb2, if_pos hstop]
      exact Or.inr ⟨rfl, data.2, ev, h, hb3⟩

/-- C6: in `git_diff_foreach`, once the file callback has returned non-zero for a delta,
the traversal returns `GIT_EUSER` and no callback (file, hunk or line) is invoked after
that return: the record of that invocation is the last of the log of all invocations. -/
theorem foreach_file_cb_abort {σ : Type} (env : Env) (diff : git_diff_list) (data : σ)
    (file_cb : Option (git_diff_file_fn σ)) (hunk_cb : Option (git_diff_hunk_fn σ))
    (line_cb : Option (git_diff_data_fn σ)) (pre post : List cb_event)
    (delta : git_diff_delta) (idx total : Nat) (ret : Int)
    (hlog : (git_diff_foreach env diff (data, ([] : List cb_event))
        (file_cb.map traced_file_cb) (hunk_cb.map traced_hunk_cb)
        (line_cb.map traced_line_cb)).data.2 =
      pre ++ cb_event.file delta idx total ret :: post)
    (hret : ret ≠ 0) :
    (git_diff_foreach env diff (data, ([] : List cb_event)) (file_cb.map traced_file_cb)
        (hunk_cb.map traced_hunk_cb) (line_cb.map traced_line_cb)).error = GIT_EUSER ∧
    post = [] := by
  have hmem : cb_event.file delta idx total ret ∈ pre ++ cb_event.file delta idx total ret :: post :=
    List.mem_append_right pre (List.mem_cons_self _ _)
  have h0 : no_file_abort ((data, ([] : List cb_event)).2) := by
    intro d i m r hm
    simp at hm
  rcases foreach_loop_outcome env file_cb hunk_cb line_cb diff.deltas.length diff.deltas 0 0
    (diff_delta_init_context_from_diff_list diff) (data, []) [] h0 with hc | ⟨he, t, ev, ht, heq⟩
  · exfalso
    apply hret
    apply hc delta idx total ret
    unfold git_diff_foreach at hlog
    rw [hlog]
    exact hmem
  · refine ⟨he, ?_⟩
    unfold git_diff_foreach at hlog
    rw [hlog] at heq
    rcases List.eq_nil_or_concat post with hp | ⟨p, x, hp⟩
    · exact hp
    · exfalso
      rw [hp, List.concat_eq_append, ← List.cons_append, ← List.append_assoc] at heq
      have := (List.append_inj' heq rfl).1
      apply hret
      apply ht delta idx total ret
      rw [← this]
      exact List.mem_append_right pre (List.mem_cons_self _ _)


theorem foreach_file_cb_abort_witness :
    (git_diff_foreach sample_env diff_text_binary ((), ([] : List cb_event))
      ((some abort_file_cb).map traced_file_cb) ((some ok_hunk_cb).map traced_hunk_cb)
      ((some ok_line_cb).map traced_line_cb)).error = GIT_EUSER ∧
    (git_diff_foreach sample_env diff_text_binary ((), ([] : List cb_event))
      ((some abort_file_cb).map traced_file_cb) ((some ok_hunk_cb).map traced_hunk_cb)
      ((some ok_line_cb).map traced_line_cb)).data.2.length = 1 :=
  ⟨(foreach_file_cb_abort sample_env diff_text_binary () (some abort_file_cb)
      (some ok_hunk_cb) (some ok_line_cb) [] []
      (diff_delta_load sample_env
        { diff_delta_init_context_from_diff_list diff_text_binary with delta := some 0 }
        delta_text).2.2 0 2 1 (by decide) (by decide)).1,
    by decide⟩

theorem binary_by_size_spec_witness :
    (delta_text.file side.old).flags.BINARY = false ∧
    ((diff_delta_is_binary_by_size (some { sample_opts with max_size := 1 })
        { delta_text with old_file := { delta_text.old_file with size := 6 } }
        side.old).file side.old).flags.BINARY = true :=
  ⟨by decide,
    ((binary_by_size_spec { sample_opts with max_size := 1 }
        { delta_text with old_file := { delta_text.old_file with size := 6 } } side.old
        (by decide) (by decide)).2.1 (by decide)).mpr (by decide)⟩

/-! ## Pull iterator: the hunk header -/

theorem set_length_append (s rest : List Char) (x y : Char) :
    ((s ++ x :: rest).set s.length y).take (s.length + 1) = s ++ [y] := by
  induction s with
  | nil => simp
  | cons c cs ih => simpa using ih

/-- C3 (the code differs): for the text delta, whose diff has two hunks, the streaming
traversal passes two lines to the line callback for each hunk, whereas the iterator,
after the first `next_hunk`, returns through `next_line` the lines of the first hunk and
then those of the second hunk before it returns `GIT_ITEROVER`. -/
theorem iterator_lines_run_into_next_hunk :
    streaming_hunks streaming_log_of_text =
      [(⟨1, 1, 1, 1⟩, [(git_diff_line_t.DELETION, "a\n".toList, 2),
                       (git_diff_line_t.ADDITION, "b\n".toList, 2)]),
       (⟨3, 1, 3, 1⟩, [(git_diff_line_t.DELETION, "c\n".toList, 2),
                       (git_diff_line_t.ADDITION, "d\n".toList, 2)])] ∧
    iterator_hunks sample_env 8 8 iter_on_text =
      some [(⟨1, 1, 1, 1⟩, [(git_diff_line_t.DELETION, "a\n".toList, 2),
                            (git_diff_line_t.ADDITION, "b\n".toList, 2),
                            (git_diff_line_t.DELETION, "c\n".toList, 2),
                            (git_diff_line_t.ADDITION, "d\n".toList, 2)]),
            (⟨3, 1, 3, 1⟩, [(git_diff_line_t.DELETION, "c\n".toList, 2),
                            (git_diff_line_t.ADDITION, "d\n".toList, 2)])] :=
  ⟨rfl, rfl⟩

/-- C7 (the code differs): after `next_file` on the text delta, `num_hunks_in_file` and a
second `next_file`, the iterator is on the binary delta, which yields no hunk
(`num_hunks_in_file` is 0), but `hunk_curr` still points at the first hunk of the text
delta in the cleared pool; `next_hunk` does not return `GIT_ITEROVER`, it reads through
that dangling pointer. -/
theorem next_hunk_stale_after_next_file :
    (iter_on_binary.map fun it => (it.ctxt.delta, it.hunk_head, it.hunk_curr, it.hunks)) =
      some (some 1, none, some 0, []) ∧
    ((iter_on_binary.bind (git_diff_iterator_num_hunks_in_file sample_env)).map fun c => c.1) =
      some 0 ∧
    iter_on_binary.bind (git_diff_iterator_next_hunk sample_env true true true) = none := by
  decide

/-- C8 (the code differs): in `diff_ambiguous` each of the two deltas, loaded on its own,
resolves to Unmodified and is skippable, so every delta from index 0 on is skippable;
yet `next_file` does not return `GIT_ITEROVER`: it returns the second delta, still
recorded as Modified, because the context stayed loaded from the first delta and the
second one was never resolved. -/
theorem next_file_returns_unresolved_delta :
    (∀ d ∈ diff_ambiguous.deltas,
      diff_delta_should_skip diff_ambiguous.opts
        (diff_delta_load sample_env
          { diff_delta_init_context_from_diff_list diff_ambiguous with delta := some 0 }
          d).2.2 = true) ∧
    ((git_diff_iterator_next_file sample_env (git_diff_iterator_new diff_ambiguous)).map
      fun r => (r.error, r.delta_ptr, r.iter.next_index,
        r.iter.diff.deltas.map fun d => d.status)) =
      some (0, some 1, 2, [git_delta_t.UNMODIFIED, git_delta_t.MODIFIED]) := by
  decide

/-! ## Size tier with `max_size = 1` -/

/-- C11 (as stated, refuted): with `max_size = 1` a side of size 1 that carries no binary
flag is not marked `BINARY` by the size tier, although it is not empty. -/
theorem size_one_not_binary :
    ((delta_text.file side.old).flags.BINARY = false ∧
      (delta_text.file side.old).flags.NOT_BINARY = false) ∧
    (1 : Int) ≤ ({ delta_text with
        old_file := { delta_text.old_file with size := 1 } }.file side.old).size ∧
    ((diff_delta_is_binary_by_size (some { sample_opts with max_size := 1 })
        { delta_text with old_file := { delta_text.old_file with size := 1 } }
        side.old).file side.old).flags.BINARY = false := by
  decide

/-- C11 (amended): with `max_size = 1` the size tier marks a side that carries no binary
flag yet as `BINARY` exactly when its size is at least 2 (strictly greater than 1); a
side of size 1 is left unmarked. -/
theorem size_tier_max_size_one (opts : git_diff_options) (delta : git_diff_delta)
    (file : side) (hmax : opts.max_size = 1)
    (hb : (delta.file file).flags.BINARY = false)
    (hn : (delta.file file).flags.NOT_BINARY = false) :
    (((diff_delta_is_binary_by_size (some opts) delta file).file file).flags.BINARY = true ↔
      2 ≤ (delta.file file).size) ∧
    ((delta.file file).size = 1 →
      ((diff_delta_is_binary_by_size (some opts) delta file).file file).flags.BINARY
        = false) := by
  have hg : ¬ ((delta.file file).flags.BINARY = true ∨
      (delta.file file).flags.NOT_BINARY = true) := by simp [hb, hn]
  have hneg : ¬ opts.max_size < 0 := by rw [hmax]; decide
  have hpos : opts.max_size > 0 := by rw [hmax]; decide
  have key : ((diff_delta_is_binary_by_size (some opts) delta file).file file).flags.BINARY
      = true ↔ 2 ≤ (delta.file file).size := by
    simp only [diff_delta_is_binary_by_size, if_neg hg, if_neg hneg, if_pos hpos]
    rw [hmax, update_delta_is_binary_file]
    by_cases hsz : (delta.file file).size > 1
    · rw [if_pos hsz, file_set_file]
      constructor
      · intro _; omega
      · intro _; rfl
    · rw [if_neg hsz, hb]
      constructor
      · intro h; exact absurd h (by decide)
      · intro h; omega
  refine ⟨key, ?_⟩
  intro h1
  cases hB : ((diff_delta_is_binary_by_size (some opts) delta file).file file).flags.BINARY
  · rfl
  · have := key.mp hB
    omega

theorem size_tier_max_size_one_witness :
    ((diff_delta_is_binary_by_size (some { sample_opts with max_size := 1 })
        { delta_text with old_file := { delta_text.old_file with size := 2 } }
        side.old).file side.old).flags.BINARY = true :=
  (size_tier_max_size_one { sample_opts with max_size := 1 }
    { delta_text with old_file := { delta_text.old_file with size := 2 } } side.old rfl
    (by decide) (by decide)).1.mpr (by decide)

/-! ## The verdict after a classification step -/

/-- C15 (as stated, refuted): for a delta whose old side carries `NO_DATA` but not
`NOT_BINARY` and whose new side carries `NOT_BINARY`, `update_delta_is_binary` makes the
verdict no (0), although not both sides carry `NOT_BINARY`. -/
theorem verdict_no_with_no_data :
    delta_added_text.old_file.flags.NOT_BINARY = false ∧
    (update_delta_is_binary delta_added_text).old_file.flags.NOT_BINARY = false ∧
    (update_delta_is_binary delta_added_text).binary = 0 := by
  decide

/-- What `update_delta_is_binary` needs of the verdict it starts from: unknown, or yes with
a `BINARY` side, or no with both sides not binary or without data. -/
theorem update_delta_is_binary_consistent (d : git_diff_delta)
    (h : d.binary = -1 ∨
      (d.binary = 1 ∧ (d.old_file.flags.BINARY = true ∨ d.new_file.flags.BINARY = true)) ∨
      (d.binary = 0 ∧
        (d.old_file.flags.NOT_BINARY = true ∨ d.old_file.flags.NO_DATA = true) ∧
        (d.new_file.flags.NOT_BINARY = true ∨ d.new_file.flags.NO_DATA = true))) :
    verdict_consistent (update_delta_is_binary d) := by
  unfold verdict_consistent verdict_of_flags
  rw [(update_delta_is_binary_files d).1, (update_delta_is_binary_files d).2]
  unfold update_delta_is_binary
  by_cases hB : d.old_file.flags.BINARY = true ∨ d.new_file.flags.BINARY = true
  · rw [if_pos hB, if_pos hB]
  · rw [if_neg hB, if_neg hB]
    by_cases hN : (d.old_file.flags.NOT_BINARY = true ∨ d.old_file.flags.NO_DATA = true) ∧
        (d.new_file.flags.NOT_BINARY = true ∨ d.new_file.flags.NO_DATA = true)
    · rw [if_pos hN, if_pos hN]
    · rw [if_neg hN, if_neg hN]
      rcases h with h | ⟨_, h⟩ | ⟨_, h⟩
      · exact h
      · exact absurd h hB
      · exact absurd h hN

/-- A consistent verdict, read as the starting condition of `update_delta_is_binary`. -/
theorem verdict_consistent_start (d : git_diff_delta) (h : verdict_consistent d) :
    d.binary = -1 ∨
      (d.binary = 1 ∧ (d.old_file.flags.BINARY = true ∨ d.new_file.flags.BINARY = true)) ∨
      (d.binary = 0 ∧
        (d.old_file.flags.NOT_BINARY = true ∨ d.old_file.flags.NO_DATA = true) ∧
        (d.new_file.flags.NOT_BINARY = true ∨ d.new_file.flags.NO_DATA = true)) := by
  unfold verdict_consistent verdict_of_flags at h
  by_cases hB : d.old_file.flags.BINARY = true ∨ d.new_file.flags.BINARY = true
  · rw [if_pos hB] at h; exact Or.inr (Or.inl ⟨h, hB⟩)
  · rw [if_neg hB] at h
    by_cases hN : (d.old_file.flags.NOT_BINARY = true ∨ d.old_file.flags.NO_DATA = true) ∧
        (d.new_file.flags.NOT_BINARY = true ∨ d.new_file.flags.NO_DATA = true)
    · rw [if_pos hN] at h; exact Or.inr (Or.inr ⟨h, hN⟩)
    · rw [if_neg hN] at h; exact Or.inl h

/-- Setting `BINARY` or `NOT_BINARY` on a side keeps the starting condition of
`update_delta_is_binary`. -/
theorem start_after_flag (d : git_diff_delta) (s : side) (b n : Bool)
    (h : d.binary = -1 ∨
      (d.binary = 1 ∧ (d.old_file.flags.BINARY = true ∨ d.new_file.flags.BINARY = true)) ∨
      (d.binary = 0 ∧
        (d.old_file.flags.NOT_BINARY = true ∨ d.old_file.flags.NO_DATA = true) ∧
        (d.new_file.flags.NOT_BINARY = true ∨ d.new_file.flags.NO_DATA = true))) :
    let d' := d.set_file s { d.file s with
      flags := { (d.file s).flags with BINARY := (d.file s).flags.BINARY || b,
                                        NOT_BINARY := (d.file s).flags.NOT_BINARY || n } }
    d'.binary = -1 ∨
      (d'.binary = 1 ∧ (d'.old_file.flags.BINARY = true ∨ d'.new_file.flags.BINARY = true)) ∨
      (d'.binary = 0 ∧
        (d'.old_file.flags.NOT_BINARY = true ∨ d'.old_file.flags.NO_DATA = true) ∧
        (d'.new_file.flags.NOT_BINARY = true ∨ d'.new_file.flags.NO_DATA = true)) := by
  cases s <;>
    simp only [git_diff_delta.set_file, git_diff_delta.file, Bool.or_eq_true] <;>
    rcases h with h | ⟨h1, h2⟩ | ⟨h1, h2, h3⟩ <;> tauto

theorem by_size_consistent (opts : Option git_diff_options) (d : git_diff_delta) (s : side)
    (h : verdict_consistent d) : verdict_consistent (diff_delta_is_binary_by_size opts d s) := by
  have hs := verdict_consistent_start d h
  have hset := start_after_flag d s true false hs
  have hfile : d.set_file s { d.file s with
      flags := { (d.file s).flags with BINARY := (d.file s).flags.BINARY || true,
                                        NOT_BINARY := (d.file s).flags.NOT_BINARY || false } } =
      d.set_file s { d.file s with flags := { (d.file s).flags with BINARY := true } } := by
    simp
  rw [hfile] at hset
  unfold diff_delta_is_binary_by_size
  split_ifs
  · exact h
  · cases opts with
    | none =>
      dsimp only
      split_ifs
      · exact update_delta_is_binary_consistent _ hset
      · exact update_delta_is_binary_consistent _ hs
    | some o =>
      dsimp only
      split_ifs
      · exact h
      · exact update_delta_is_binary_consistent _ hset
      · exact update_delta_is_binary_consistent _ hs
      · exact update_delta_is_binary_consistent _ hset
      · exact update_delta_is_binary_consistent _ hs

theorem by_content_consistent (env : Env) (d : git_diff_delta) (s : side) (map : git_map)
    (h : verdict_consistent d) :
    verdict_consistent (diff_delta_is_binary_by_content env d s map) := by
  have hs := verdict_consistent_start d h
  unfold diff_delta_is_binary_by_content
  dsimp only
  split_ifs with h1 h2
  · have hset := start_after_flag d s true false hs
    have hfile : d.set_file s { d.file s with
        flags := { (d.file s).flags with BINARY := (d.file s).flags.BINARY || true,
                                          NOT_BINARY := (d.file s).flags.NOT_BINARY || false } } =
        d.set_file s { d.file s with flags := { (d.file s).flags with BINARY := true } } := by
      simp
    rw [hfile] at hset
    exact update_delta_is_binary_consistent _ hset
  · have hset := start_after_flag d s false true hs
    have hfile : d.set_file s { d.file s with
        flags := { (d.file s).flags with BINARY := (d.file s).flags.BINARY || false,
                                          NOT_BINARY := (d.file s).flags.NOT_BINARY || true } } =
        d.set_file s { d.file s with flags := { (d.file s).flags with NOT_BINARY := true } } := by
      simp
    rw [hfile] at hset
    exact update_delta_is_binary_consistent _ hset
  · exact update_delta_is_binary_consistent _ hs

theorem by_attr_consistent (env : Env) (opts : git_diff_options) (d : git_diff_delta)
    (hf : opts.flags.FORCE_TEXT = false) (h0 : (diff_delta_is_binary_by_attr env opts d).1 = 0) :
    verdict_consistent (diff_delta_is_binary_by_attr env opts d).2 := by
  unfold diff_delta_is_binary_by_attr at h0 ⊢
  dsimp only at h0 ⊢
  have hft : ¬ opts.flags.FORCE_TEXT = true := by rw [hf]; decide
  rw [if_neg hft] at h0 ⊢
  split_ifs at h0 ⊢ with h1 h2
  · have hne : (-1 : Int) ≠ 0 := by decide
    exact absurd h0 hne
  · exact update_delta_is_binary_consistent _ (Or.inl rfl)
  · exact update_delta_is_binary_consistent _ (Or.inl rfl)

/-- The content tier always ends in the fold, so it needs only the starting condition of
`update_delta_is_binary`. -/
theorem by_content_from_start (env : Env) (d : git_diff_delta) (s : side) (map : git_map)
    (hs : d.binary = -1 ∨
      (d.binary = 1 ∧ (d.old_file.flags.BINARY = true ∨ d.new_file.flags.BINARY = true)) ∨
      (d.binary = 0 ∧
        (d.old_file.flags.NOT_BINARY = true ∨ d.old_file.flags.NO_DATA = true) ∧
        (d.new_file.flags.NOT_BINARY = true ∨ d.new_file.flags.NO_DATA = true))) :
    verdict_consistent (diff_delta_is_binary_by_content env d s map) := by
  unfold diff_delta_is_binary_by_content
  dsimp only
  split_ifs with h1 h2
  · have hset := start_after_flag d s true false hs
    have hfile : d.set_file s { d.file s with
        flags := { (d.file s).flags with BINARY := (d.file s).flags.BINARY || true,
                                          NOT_BINARY := (d.file s).flags.NOT_BINARY || false } } =
        d.set_file s { d.file s with flags := { (d.file s).flags with BINARY := true } } := by
      simp
    rw [hfile] at hset
    exact update_delta_is_binary_consistent _ hset
  · have hset := start_after_flag d s false true hs
    have hfile : d.set_file s { d.file s with
        flags := { (d.file s).flags with BINARY := (d.file s).flags.BINARY || false,
                                          NOT_BINARY := (d.file s).flags.NOT_BINARY || true } } =
        d.set_file s { d.file s with flags := { (d.file s).flags with NOT_BINARY := true } } := by
      simp
    rw [hfile] at hset
    exact update_delta_is_binary_consistent _ hset
  · exact update_delta_is_binary_consistent _ hs

/-- Under `FORCE_TEXT` the attribute tier leaves a verdict that agrees with the flags when
no side of the delta carried `BINARY`. -/
theorem by_attr_force_text_consistent (env : Env) (opts : git_diff_options)
    (d : git_diff_delta) (hf : opts.flags.FORCE_TEXT = true)
    (ho : d.old_file.flags.BINARY = false) (hn : d.new_file.flags.BINARY = false) :
    verdict_consistent (diff_delta_is_binary_by_attr env opts d).2 := by
  unfold diff_delta_is_binary_by_attr
  dsimp only
  rw [if_pos hf]
  unfold verdict_consistent verdict_of_flags
  simp [ho, hn]

/-- C15 (amended): the verdict agrees with the flags, that is, it is yes (1) iff at least
one side carries `BINARY`, it is no (0) iff no side carries `BINARY` and each side
carries `NOT_BINARY` or `NO_DATA`, and it is unknown (-1) otherwise, after each of these
steps: `update_delta_is_binary` on a delta whose verdict was unknown or agreed with its
flags; the attribute tier when it returns 0, without `FORCE_TEXT` or on a delta no side
of which carried `BINARY`; the size tier (with or without options) on a delta whose
verdict agreed with its flags; the content tier on a delta whose verdict was unknown or
agreed with its flags. -/
theorem verdict_after_classification (env : Env) (opts : git_diff_options)
    (size_opts : Option git_diff_options) (d : git_diff_delta) (s : side) (map : git_map) :
    ((d.binary = -1 ∨ verdict_consistent d) →
      verdict_consistent (update_delta_is_binary d)) ∧
    ((opts.flags.FORCE_TEXT = false ∨
        (d.old_file.flags.BINARY = false ∧ d.new_file.flags.BINARY = false)) →
      (diff_delta_is_binary_by_attr env opts d).1 = 0 →
      verdict_consistent (diff_delta_is_binary_by_attr env opts d).2) ∧
    (verdict_consistent d →
      verdict_consistent (diff_delta_is_binary_by_size size_opts d s)) ∧
    ((d.binary = -1 ∨ verdict_consistent d) →
      verdict_consistent (diff_delta_is_binary_by_content env d s map)) ∧
    (verdict_consistent d ↔
      ((d.binary = 1 ↔ (d.old_file.flags.BINARY = true ∨ d.new_file.flags.BINARY = true)) ∧
       (d.binary = 0 ↔
          (¬ (d.old_file.flags.BINARY = true ∨ d.new_file.flags.BINARY = true) ∧
           (d.old_file.flags.NOT_BINARY = true ∨ d.old_file.flags.NO_DATA = true) ∧
           (d.new_file.flags.NOT_BINARY = true ∨ d.new_file.flags.NO_DATA = true))) ∧
       (d.binary = -1 ↔
          (¬ (d.old_file.flags.BINARY = true ∨ d.new_file.flags.BINARY = true) ∧
           ¬ ((d.old_file.flags.NOT_BINARY = true ∨ d.old_file.flags.NO_DATA = true) ∧
              (d.new_file.flags.NOT_BINARY = true ∨ d.new_file.flags.NO_DATA = true)))))) := by
  have hstart : (d.binary = -1 ∨ verdict_consistent d) →
      (d.binary = -1 ∨
        (d.binary = 1 ∧ (d.old_file.flags.BINARY = true ∨ d.new_file.flags.BINARY = true)) ∨
        (d.binary = 0 ∧
          (d.old_file.flags.NOT_BINARY = true ∨ d.old_file.flags.NO_DATA = true) ∧
          (d.new_file.flags.NOT_BINARY = true ∨ d.new_file.flags.NO_DATA = true))) := by
    rintro (h | h)
    · exact Or.inl h
    · exact verdict_consistent_start d h
  refine ⟨fun h => update_delta_is_binary_consistent d (hstart h), ?_,
    by_size_consistent size_opts d s,
    fun h => by_content_from_start env d s map (hstart h), ?_⟩
  · intro hc h0
    cases hf : opts.flags.FORCE_TEXT
    · exact by_attr_consistent env opts d hf h0
    · rcases hc with hc | ⟨ho, hn⟩
      · rw [hf] at hc; exact absurd hc (by decide)
      · exact by_attr_force_text_consistent env opts d hf ho hn
  unfold verdict_consistent verdict_of_flags
  by_cases hB : d.old_file.flags.BINARY = true ∨ d.new_file.flags.BINARY = true
  · rw [if_pos hB]
    constructor
    · intro h
      rw [h]
      refine ⟨⟨fun _ => hB, fun _ => rfl⟩, ⟨fun h' => absurd h' (by decide), fun h' => absurd hB h'.1⟩,
        ⟨fun h' => absurd h' (by decide), fun h' => absurd hB h'.1⟩⟩
    · intro h; exact h.1.mpr hB
  · rw [if_neg hB]
    by_cases hN : (d.old_file.flags.NOT_BINARY = true ∨ d.old_file.flags.NO_DATA = true) ∧
        (d.new_file.flags.NOT_BINARY = true ∨ d.new_file.flags.NO_DATA = true)
    · rw [if_pos hN]
      constructor
      · intro h
        rw [h]
        refine ⟨⟨fun h' => absurd h' (by decide), fun h' => absurd h' hB⟩,
          ⟨fun _ => ⟨hB, hN⟩, fun _ => rfl⟩,
          ⟨fun h' => absurd h' (by decide), fun h' => absurd hN h'.2⟩⟩
      · intro h; exact h.2.1.mpr ⟨hB, hN⟩
    · rw [if_neg hN]
      constructor
      · intro h
        rw [h]
        refine ⟨⟨fun h' => absurd h' (by decide), fun h' => absurd h' hB⟩,
          ⟨fun h' => absurd h' (by decide), fun h' => absurd h'.2 hN⟩,
          ⟨fun _ => ⟨hB, hN⟩, fun _ => rfl⟩⟩
      · intro h; exact h.2.2.mpr ⟨hB, hN⟩

theorem verdict_after_classification_witness :
    delta_added_text.binary = -1 ∧
    (update_delta_is_binary delta_added_text).binary = 0 ∧
    verdict_consistent (update_delta_is_binary delta_added_text) ∧
    verdict_consistent (diff_delta_is_binary_by_content sample_env delta_added_text side.new
      ⟨sample_blob 2, 6⟩) :=
  ⟨by decide, by decide,
    (verdict_after_classification sample_env sample_opts (some sample_opts) delta_added_text
      side.new ⟨sample_blob 2, 6⟩).1 (Or.inl (by decide)),
    (verdict_after_classification sample_env sample_opts (some sample_opts) delta_added_text
      side.new ⟨sample_blob 2, 6⟩).2.2.2.1 (Or.inl (by decide))⟩

/-! ## The demultiplexer `diff_delta_cb` -/

theorem cb_lines_len_one {σ : Type} (per_line : Option (git_diff_data_fn σ))
    (delta : git_diff_delta) (st : diff_delta_context × σ) (bufs : List (List Char)) :
    diff_delta_cb_lines per_line delta st bufs 1 = (st.1.cb_error, st) := by
  unfold diff_delta_cb_lines
  simp

/-- C18: when the line callback never aborts (and no cancellation is pending), a batch of
three buffers whose first buffer starts with `+` (resp. `-`) makes the demultiplexer
invoke the line callback exactly twice, in order: for the second buffer with origin
Addition (resp. Deletion), then for the third buffer with origin `DEL_EOFNL` (resp.
`ADD_EOFNL`); for any other first byte both invocations carry origin Context; a batch of
two buffers makes exactly one invocation, on the second buffer; a batch of one buffer
makes none. -/
theorem eofnl_line_events {σ : Type} (hunk_cb : Option (git_diff_hunk_fn σ))
    (f : git_diff_data_fn σ) (delta : git_diff_delta) (ctxt : diff_delta_context) (s : σ)
    (log : List cb_event) (bufs : List (List Char))
    (hf : ∀ s d r o c n, (f s d r o c n).2 = 0) (h0 : ctxt.cb_error = 0) :
    (deref (bufs.getD 0 []) = '+' →
      (diff_delta_cb (hunk_cb.map traced_hunk_cb) (some (traced_line_cb f)) delta
          (ctxt, (s, log)) bufs 3).2.2.2 =
        log ++ [cb_event.line delta ctxt.range git_diff_line_t.ADDITION (bufs.getD 1 [])
                  (bufs.getD 1 []).length 0,
                cb_event.line delta ctxt.range git_diff_line_t.DEL_EOFNL (bufs.getD 2 [])
                  (bufs.getD 2 []).length 0]) ∧
    (deref (bufs.getD 0 []) = '-' →
      (diff_delta_cb (hunk_cb.map traced_hunk_cb) (some (traced_line_cb f)) delta
          (ctxt, (s, log)) bufs 3).2.2.2 =
        log ++ [cb_event.line delta ctxt.range git_diff_line_t.DELETION (bufs.getD 1 [])
                  (bufs.getD 1 []).length 0,
                cb_event.line delta ctxt.range git_diff_line_t.ADD_EOFNL (bufs.getD 2 [])
                  (bufs.getD 2 []).length 0]) ∧
    (deref (bufs.getD 0 []) ≠ '+' → deref (bufs.getD 0 []) ≠ '-' →
      (diff_delta_cb (hunk_cb.map traced_hunk_cb) (some (traced_line_cb f)) delta
          (ctxt, (s, log)) bufs 3).2.2.2 =
        log ++ [cb_event.line delta ctxt.range git_diff_line_t.CONTEXT (bufs.getD 1 [])
                  (bufs.getD 1 []).length 0,
                cb_event.line delta ctxt.range git_diff_line_t.CONTEXT (bufs.getD 2 [])
                  (bufs.getD 2 []).length 0]) ∧
    ((diff_delta_cb (hunk_cb.map traced_hunk_cb) (some (traced_line_cb f)) delta
          (ctxt, (s, log)) bufs 2).2.2.2 =
        log ++ [cb_event.line delta ctxt.range
                  (if deref (bufs.getD 0 []) = '+' then git_diff_line_t.ADDITION
                   else if deref (bufs.getD 0 []) = '-' then git_diff_line_t.DELETION
                   else git_diff_line_t.CONTEXT)
                  (bufs.getD 1 []) (bufs.getD 1 []).length 0]) ∧
    ((diff_delta_cb (hunk_cb.map traced_hunk_cb) (some (traced_line_cb f)) delta
          (ctxt, (s, log)) bufs 1).2.2.2 = log ∨
      ∃ range header header_len ret,
        (diff_delta_cb (hunk_cb.map traced_hunk_cb) (some (traced_line_cb f)) delta
          (ctxt, (s, log)) bufs 1).2.2.2 =
        log ++ [cb_event.hunk delta range header header_len ret]) := by
  have h3 : ¬ (3 = 1) := by decide
  have h2 : ¬ (2 = 1) := by decide
  refine ⟨?_, ?_, ?_, ?_, ?_⟩
  · intro hc
    simp only [diff_delta_cb, diff_delta_cb_lines, traced_line_cb]
    generalize bufs.getD 0 [] = b0 at hc ⊢
    simp [hf, h0, hc]
  · intro hc
    have hne : ¬ ('-' : Char) = '+' := by decide
    simp only [diff_delta_cb, diff_delta_cb_lines, traced_line_cb]
    generalize bufs.getD 0 [] = b0 at hc ⊢
    simp [hf, h0, hc, hne]
  · intro hp hm
    simp only [diff_delta_cb, diff_delta_cb_lines, traced_line_cb]
    generalize bufs.getD 0 [] = b0 at hp hm ⊢
    simp [hf, h0, hp, hm]
  · simp only [diff_delta_cb, diff_delta_cb_lines, traced_line_cb]
    generalize bufs.getD 0 [] = b0
    simp [hf]
  · unfold diff_delta_cb
    rw [if_pos rfl]
    dsimp only
    split_ifs
    · exact Or.inl rfl
    · rw [cb_lines_len_one]
      cases hunk_cb with
      | none => exact Or.inl rfl
      | some g => exact Or.inr ⟨_, _, _, _, rfl⟩

theorem eofnl_line_events_witness :
    (diff_delta_cb (Option.map traced_hunk_cb (none : Option (git_diff_hunk_fn Nat)))
        (some (traced_line_cb counting_line_cb)) delta_text
        (diff_delta_init_context_from_diff_list diff_text, (0, [])) batch_add_eofnl 3).2.2.2 =
      [] ++ [cb_event.line delta_text (diff_delta_init_context_from_diff_list diff_text).range
                git_diff_line_t.ADDITION (batch_add_eofnl.getD 1 [])
                (batch_add_eofnl.getD 1 []).length 0,
             cb_event.line delta_text (diff_delta_init_context_from_diff_list diff_text).range
                git_diff_line_t.DEL_EOFNL (batch_add_eofnl.getD 2 [])
                (batch_add_eofnl.getD 2 []).length 0] :=
  (eofnl_line_events none counting_line_cb delta_text
    (diff_delta_init_context_from_diff_list diff_text) 0 [] batch_add_eofnl
    (fun _ _ _ _ _ _ => rfl) rfl).1 (by decide)

/-! ## Cancellation by a callback during Exec -/

theorem no_abort_append (t : List cb_event) (ev : cb_event) (h : no_abort t)
    (he : ev.ret = 0) : no_abort (t ++ [ev]) := by
  intro e hm
  rcases List.mem_append.mp hm with hm | hm
  · exact h e hm
  · rw [List.mem_singleton] at hm
    rw [hm]; exact he

theorem cb_lines_cancel {σ : Type} (line_cb : Option (git_diff_data_fn σ))
    (delta : git_diff_delta) (st : diff_delta_context × σ × List cb_event)
    (bufs : List (List Char)) (len : Nat) (h : no_abort st.2.2) :
    no_abort (diff_delta_cb_lines (line_cb.map traced_line_cb) delta st bufs len).2.2.2 ∨
    ((diff_delta_cb_lines (line_cb.map traced_line_cb) delta st bufs len).1 = GIT_EUSER ∧
     (diff_delta_cb_lines (line_cb.map traced_line_cb) delta st bufs len).2.1.cb_error
        = GIT_EUSER ∧
     ∃ t ev, (diff_delta_cb_lines (line_cb.map traced_line_cb) delta st bufs len).2.2.2
        = t ++ [ev] ∧ no_abort t ∧ ev.ret ≠ 0) := by
  cases line_cb with
  | none =>
    left
    simp only [diff_delta_cb_lines, Option.map_none']
    split_ifs <;> exact h
  | some f =>
    simp only [diff_delta_cb_lines, Option.map_some', traced_line_cb]
    generalize bufs.getD 0 [] = b0
    generalize bufs.getD 1 [] = b1
    generalize bufs.getD 2 [] = b2
    generalize (if deref b0 = '+' then git_diff_line_t.ADDITION
      else if deref b0 = '-' then git_diff_line_t.DELETION
      else git_diff_line_t.CONTEXT) = o1
    generalize (if deref b0 = '+' then git_diff_line_t.DEL_EOFNL
      else if deref b0 = '-' then git_diff_line_t.ADD_EOFNL
      else git_diff_line_t.CONTEXT) = o2
    by_cases hl : len = 2 ∨ len = 3
    · rw [if_pos hl]
      dsimp only
      by_cases hq : (f st.2.1 delta st.1.range o1 b1 b1.length).2 ≠ 0
      · rw [if_pos hq]
        have hE : GIT_EUSER ≠ 0 := by decide
        have hne : ¬ (len = 3 ∧ GIT_EUSER = 0) := fun hh => hE hh.2
        rw [if_neg hne]
        exact Or.inr ⟨rfl, rfl, st.2.2, _, rfl, h, hq⟩
      · rw [if_neg hq]
        have hq0 : (f st.2.1 delta st.1.range o1 b1 b1.length).2 = 0 := not_not.mp hq
        have h1 := no_abort_append st.2.2
          (cb_event.line delta st.1.range o1 b1 b1.length
            (f st.2.1 delta st.1.range o1 b1 b1.length).2) h hq0
        by_cases h3 : len = 3 ∧ st.1.cb_error = 0
        · rw [if_pos h3]
          dsimp only
          by_cases hq2 : (f (f st.2.1 delta st.1.range o1 b1 b1.length).1 delta st.1.range o2
              b2 b2.length).2 ≠ 0
          · rw [if_pos hq2]
            exact Or.inr ⟨rfl, rfl, _, _, rfl, h1, hq2⟩
          · rw [if_neg hq2]
            exact Or.inl (no_abort_append _ _ h1 (not_not.mp hq2))
        · rw [if_neg h3]
          exact Or.inl h1
    · rw [if_neg hl]
      have h3 : ¬ (len = 3 ∧ st.1.cb_error = 0) := fun hh => hl (Or.inr hh.1)
      rw [if_neg h3]
      exact Or.inl h

theorem cb_cancel {σ : Type} (hunk_cb : Option (git_diff_hunk_fn σ))
    (line_cb : Option (git_diff_data_fn σ)) (delta : git_diff_delta)
    (st : diff_delta_context × σ × List cb_event) (bufs : List (List Char)) (len : Nat)
    (h : no_abort st.2.2) :
    no_abort (diff_delta_cb (hunk_cb.map traced_hunk_cb) (line_cb.map traced_line_cb) delta
        st bufs len).2.2.2 ∨
    ((diff_delta_cb (hunk_cb.map traced_hunk_cb) (line_cb.map traced_line_cb) delta st bufs
        len).1 = GIT_EUSER ∧
     (diff_delta_cb (hunk_cb.map traced_hunk_cb) (line_cb.map traced_line_cb) delta st bufs
        len).2.1.cb_error = GIT_EUSER ∧
     ∃ t ev, (diff_delta_cb (hunk_cb.map traced_hunk_cb) (line_cb.map traced_line_cb) delta
        st bufs len).2.2.2 = t ++ [ev] ∧ no_abort t ∧ ev.ret ≠ 0) := by
  unfold diff_delta_cb
  by_cases h1 : len = 1
  · rw [if_pos h1]
    dsimp only
    by_cases h2 : (parse_hunk_header st.1.range (bufs.getD 0 [])).1 < 0
    · rw [if_pos h2]; exact Or.inl h
    · rw [if_neg h2, h1, cb_lines_len_one]
      cases hunk_cb with
      | none => exact Or.inl h
      | some g =>
        simp only [Option.map_some', traced_hunk_cb]
        split_ifs with hq
        · exact Or.inr ⟨rfl, rfl, st.2.2, _, rfl, h, hq⟩
        · exact Or.inl (no_abort_append _ _ h (not_not.mp hq))
  · rw [if_neg h1]
    exact cb_lines_cancel line_cb delta st bufs len h

theorem xdl_emit_cancel {σ : Type} (hunk_cb : Option (git_diff_hunk_fn σ))
    (line_cb : Option (git_diff_data_fn σ)) (delta : git_diff_delta)
    (batches : List (List (List Char))) :
    ∀ st : diff_delta_context × σ × List cb_event, no_abort st.2.2 →
      no_abort (xdl_emit (diff_delta_cb (hunk_cb.map traced_hunk_cb)
          (line_cb.map traced_line_cb) delta) batches st).2.2 ∨
      ((xdl_emit (diff_delta_cb (hunk_cb.map traced_hunk_cb)
          (line_cb.map traced_line_cb) delta) batches st).1.cb_error = GIT_EUSER ∧
       ∃ t ev, (xdl_emit (diff_delta_cb (hunk_cb.map traced_hunk_cb)
          (line_cb.map traced_line_cb) delta) batches st).2.2 = t ++ [ev] ∧
          no_abort t ∧ ev.ret ≠ 0) := by
  induction batches with
  | nil => intro st h; exact Or.inl h
  | cons b rest ih =>
    intro st h
    unfold xdl_emit
    dsimp only
    rcases cb_cancel hunk_cb line_cb delta st b b.length h with hc | ⟨h1, h2, h3⟩
    · split_ifs
      · exact Or.inl hc
      · exact ih _ hc
    · have hneg : (diff_delta_cb (hunk_cb.map traced_hunk_cb) (line_cb.map traced_line_cb)
          delta st b b.length).1 < 0 := by rw [h1]; decide
      rw [if_pos hneg]
      exact Or.inr ⟨h2, h3⟩

/-- C17: a non-zero return of a hunk or line callback during an Exec is sticky.  It sets
`cb_error` to `GIT_EUSER`; the demultiplexer returns it and the primitive hands over no
later batch in that Exec, so that the record of that invocation is the last of the log,
and Exec returns `GIT_EUSER` with `cb_error` still set.  A batch of two or three buffers
handed to `diff_delta_cb` while `cb_error` is non-zero leaves it non-zero and makes the
demultiplexer return non-zero. -/
theorem cancellation_within_exec {σ : Type} (env : Env) (hunk_cb : Option (git_diff_hunk_fn σ))
    (line_cb : Option (git_diff_data_fn σ)) (ctxt : diff_delta_context)
    (delta : git_diff_delta) (data : σ × List cb_event) (bufs : List (List Char))
    (len : Nat) (hlog : no_abort data.2) :
    (no_abort (diff_delta_exec env (hunk_cb.map traced_hunk_cb) (line_cb.map traced_line_cb)
        ctxt delta data).2.2.2.2 ∨
      ((diff_delta_exec env (hunk_cb.map traced_hunk_cb) (line_cb.map traced_line_cb)
          ctxt delta data).1 = GIT_EUSER ∧
       (diff_delta_exec env (hunk_cb.map traced_hunk_cb) (line_cb.map traced_line_cb)
          ctxt delta data).2.1.cb_error = GIT_EUSER ∧
       ∃ t ev, (diff_delta_exec env (hunk_cb.map traced_hunk_cb)
          (line_cb.map traced_line_cb) ctxt delta data).2.2.2.2 = t ++ [ev] ∧
          no_abort t ∧ ev.ret ≠ 0)) ∧
    (ctxt.cb_error ≠ 0 → (len = 2 ∨ len = 3) →
      (diff_delta_cb (hunk_cb.map traced_hunk_cb) (line_cb.map traced_line_cb) delta
        (ctxt, data) bufs len).1 ≠ 0 ∧
      (diff_delta_cb (hunk_cb.map traced_hunk_cb) (line_cb.map traced_line_cb) delta
        (ctxt, data) bufs len).2.1.cb_error ≠ 0) := by
  constructor
  · unfold diff_delta_exec
    dsimp only
    generalize (if ctxt.loaded = false then diff_delta_load env ctxt delta
      else (0, ctxt, delta)) = l
    split_ifs
    · exact Or.inl hlog
    · exact Or.inl hlog
    · exact Or.inl hlog
    · rcases xdl_emit_cancel hunk_cb line_cb l.2.2
          (env.xdl_diff l.2.1.old_data.data l.2.1.old_data.len l.2.1.new_data.data
            l.2.1.new_data.len l.2.1.opts)
          ({ l.2.1 with cb_error := 0 }, data) hlog with hc | ⟨h1, h2⟩
      · exact Or.inl hc
      · exact Or.inr ⟨h1, h1, h2⟩
  · intro hne hl
    have h1 : ¬ len = 1 := by omega
    have hE : GIT_EUSER ≠ 0 := by decide
    unfold diff_delta_cb
    rw [if_neg h1]
    cases line_cb with
    | none =>
      simp only [diff_delta_cb_lines, Option.map_none']
      split_ifs <;> exact ⟨hne, hne⟩
    | some f =>
      simp only [diff_delta_cb_lines, Option.map_some', traced_line_cb, if_pos hl]
      split_ifs <;> first | exact ⟨hne, hne⟩ | exact ⟨hE, hE⟩

theorem cancellation_within_exec_witness :
    no_abort ((), ([] : List cb_event)).2 ∧
    (diff_delta_exec sample_env (Option.map traced_hunk_cb (some abort_hunk_cb))
        (Option.map traced_line_cb (some ok_line_cb)) ctxt_text delta_text
        ((), ([] : List cb_event))).1 = GIT_EUSER ∧
    (diff_delta_exec sample_env (Option.map traced_hunk_cb (some abort_hunk_cb))
        (Option.map traced_line_cb (some ok_line_cb)) ctxt_text delta_text
        ((), ([] : List cb_event))).2.1.cb_error = GIT_EUSER ∧
    (diff_delta_exec sample_env (Option.map traced_hunk_cb (some abort_hunk_cb))
        (Option.map traced_line_cb (some ok_line_cb)) ctxt_text delta_text
        ((), ([] : List cb_event))).2.2.2.2.length = 1 ∧
    (diff_delta_exec sample_env (Option.map traced_hunk_cb (some ok_hunk_cb))
        (Option.map traced_line_cb (some ok_line_cb)) ctxt_text delta_text
        ((), ([] : List cb_event))).2.2.2.2.length = 6 :=
  ⟨fun _ h => absurd h (List.not_mem_nil _),
    ((cancellation_within_exec sample_env (some abort_hunk_cb) (some ok_line_cb) ctxt_text
      delta_text ((), []) [] 0 (fun _ h => absurd h (List.not_mem_nil _))).1.resolve_left
      (fun h => absurd (h _ (List.mem_singleton.mpr rfl)) (by decide))).1,
    ((cancellation_within_exec sample_env (some abort_hunk_cb) (some ok_line_cb) ctxt_text
      delta_text ((), []) [] 0 (fun _ h => absurd h (List.not_mem_nil _))).1.resolve_left
      (fun h => absurd (h _ (List.mem_singleton.mpr rfl)) (by decide))).2.1,
    by decide, by decide⟩

/-! ## What `parse_hunk_header` accepts and rejects -/

theorem skip_to_digit_no_digit (s : List Char) (h : ∀ c ∈ cstr s, c.isDigit = false) :
    (deref (skip_to_digit s)).isDigit = false := by
  induction s with
  | nil => decide
  | cons c cs ih =>
    by_cases hc : c = NUL
    · have : skip_to_digit (c :: cs) = c :: cs := by simp [skip_to_digit, hc]
      rw [this, hc]
      have hN : NUL.isDigit = false := by decide
      exact hN
    · have hcs : cstr (c :: cs) = c :: cstr cs := by simp [cstr, hc]
      rw [hcs] at h
      have hd : c.isDigit = false := h c (List.mem_cons_self _ _)
      have : skip_to_digit (c :: cs) = skip_to_digit cs := by simp [skip_to_digit, hc, hd]
      rw [this]
      exact ih (fun x hx => h x (List.mem_cons_of_mem _ hx))

theorem read_next_int_no_digit (s : List Char) (h : ∀ c ∈ cstr s, c.isDigit = false) :
    (read_next_int s).1 = -1 := by
  unfold read_next_int
  rw [read_digits_stop _ _ _ (skip_to_digit_no_digit s h)]
  simp

theorem read_next_int_code (s : List Char) :
    (read_next_int s).1 = 0 ∨ (read_next_int s).1 = -1 := by
  unfold read_next_int
  dsimp only
  split_ifs
  · exact Or.inl rfl
  · exact Or.inr rfl

theorem parse_hunk_header_code (range : git_diff_range) (header : List Char) :
    ((parse_hunk_header range header).1 = 0 ∨ (parse_hunk_header range header).1 = -1) ∧
    ((parse_hunk_header range header).1 = 0 →
      0 ≤ (parse_hunk_header range header).2.old_start ∧
      0 ≤ (parse_hunk_header range header).2.new_start) := by
  unfold parse_hunk_header
  dsimp only
  have hne : ¬ ((-1 : Int) = 0) := by decide
  generalize read_next_int header = r1
  generalize (if deref r1.2.1 = ',' then read_next_int r1.2.1
    else ((0 : Int), r1.2.1, (1 : Int))) = r2
  generalize read_next_int r2.2.1 = r3
  generalize (if deref r3.2.1 = ',' then read_next_int r3.2.1
    else ((0 : Int), r3.2.1, (1 : Int))) = r4
  split_ifs with h1 h2 h3 h4 h5 h6
  · exact ⟨Or.inr rfl, fun h => absurd h hne⟩
  · exact ⟨Or.inr rfl, fun h => absurd h hne⟩
  · exact ⟨Or.inr rfl, fun h => absurd h hne⟩
  · exact ⟨Or.inr rfl, fun h => absurd h hne⟩
  · exact ⟨Or.inr rfl, fun h => absurd h hne⟩
  · exact ⟨Or.inr rfl, fun h => absurd h hne⟩
  · refine ⟨Or.inl rfl, fun _ => ?_⟩
    push_neg at h6
    exact h6

theorem cstr_cons_at (s : List Char) : cstr ('@' :: s) = '@' :: cstr s := by
  have : ¬ ('@' : Char) = NUL := by decide
  simp [cstr, this]

/-- Reading an optional written count that is followed by a character that is neither a
digit nor a comma. -/
theorem read_written_count (ob : Option Nat) (hb : ∀ b ∈ ob, (b : Int) ≤ 2147483647)
    (tail : List Char) (hd : (deref tail).isDigit = false) (hc : deref tail ≠ ',') :
    (if deref (written_count ob ++ tail) = ',' then read_next_int (written_count ob ++ tail)
      else (0, written_count ob ++ tail, 1)) = (0, tail, ((ob.getD 1 : Nat) : Int)) := by
  cases ob with
  | none =>
    simp only [written_count, List.nil_append, if_neg hc, Option.getD_none, Nat.cast_one]
  | some b =>
    have hdc : deref (written_count (some b) ++ tail) = ',' := rfl
    rw [if_pos hdc]
    exact read_next_int_decimal [','] tail b (by decide) (hb b rfl) hd

theorem written_count_head (ob : Option Nat) (tail : List Char)
    (hd : (deref tail).isDigit = false) :
    (deref (written_count ob ++ tail)).isDigit = false := by
  cases ob with
  | none => exact hd
  | some b =>
    show (',' : Char).isDigit = false
    decide

/-- A header in which separators (any characters but digits) stand where the canonical
form has `@ -` and ` +` is parsed to the numbers it writes. -/
theorem parse_lenient (range : git_diff_range) (sep1 sep2 tail : List Char) (a c : Nat)
    (ob od : Option Nat) (h1 : separators sep1) (h2 : separators sep2)
    (h2d : (deref (sep2 ++ decimal_nat c ++ written_count od ++ tail)).isDigit = false)
    (h2c : deref (sep2 ++ decimal_nat c ++ written_count od ++ tail) ≠ ',')
    (htd : (deref tail).isDigit = false) (htc : deref tail ≠ ',')
    (ha : (a : Int) ≤ 2147483647) (hc : (c : Int) ≤ 2147483647)
    (hb : ∀ b ∈ ob, (b : Int) ≤ 2147483647) (hd : ∀ d ∈ od, (d : Int) ≤ 2147483647) :
    parse_hunk_header range
      ('@' :: sep1 ++ decimal_nat a ++ written_count ob ++
        (sep2 ++ decimal_nat c ++ written_count od ++ tail)) =
      (0, ⟨a, (ob.getD 1 : Nat), c, (od.getD 1 : Nat)⟩) := by
  have hpre : ∀ x ∈ '@' :: sep1, x ≠ NUL ∧ x.isDigit = false := by
    intro x hx
    rcases List.mem_cons.mp hx with hx | hx
    · rw [hx]; decide
    · exact h1 x hx
  have e1 := read_next_int_decimal ('@' :: sep1)
    (written_count ob ++ (sep2 ++ decimal_nat c ++ written_count od ++ tail)) a hpre ha
    (written_count_head ob _ h2d)
  have e3 := read_next_int_decimal sep2 (written_count od ++ tail) c h2 hc
    (written_count_head od _ htd)
  have hform : '@' :: sep1 ++ decimal_nat a ++ written_count ob ++
      (sep2 ++ decimal_nat c ++ written_count od ++ tail) =
      ('@' :: sep1) ++ (decimal_nat a ++ (written_count ob ++
        (sep2 ++ decimal_nat c ++ written_count od ++ tail))) := by
    simp only [List.append_assoc, List.cons_append]
  have hform2 : sep2 ++ decimal_nat c ++ written_count od ++ tail =
      sep2 ++ (decimal_nat c ++ (written_count od ++ tail)) := by
    simp only [List.append_assoc]
  rw [hform]
  refine parse_hunk_header_ok range _ _ _ _ tail a _ c _ rfl e1
    (read_written_count ob hb _ h2d h2c) ?_ (read_written_count od hd tail htd htc)
    (Int.ofNat_nonneg a) (Int.ofNat_nonneg c)
  rw [hform2]
  exact e3


/-! ## The parser of hunk headers over its helper -/

theorem parse_hunk_header_with_spec (rd : List Char → Int × List Char × Int)
    (range : git_diff_range) (header : List Char) :
    ((deref header ≠ '@' ∨ (read_hunk rd header).old_start.1 < 0 ∨
        (read_hunk rd header).old_lines.1 < 0 ∨ (read_hunk rd header).new_start.1 < 0 ∨
        (read_hunk rd header).new_lines.1 < 0 ∨ (read_hunk rd header).old_start.2 < 0 ∨
        (read_hunk rd header).new_start.2 < 0) →
      (parse_hunk_header_with rd range header).1 = -1) ∧
    (¬ (deref header ≠ '@' ∨ (read_hunk rd header).old_start.1 < 0 ∨
        (read_hunk rd header).old_lines.1 < 0 ∨ (read_hunk rd header).new_start.1 < 0 ∨
        (read_hunk rd header).new_lines.1 < 0 ∨ (read_hunk rd header).old_start.2 < 0 ∨
        (read_hunk rd header).new_start.2 < 0) →
      parse_hunk_header_with rd range header =
        (0, ⟨(read_hunk rd header).old_start.2, (read_hunk rd header).old_lines.2,
             (read_hunk rd header).new_start.2, (read_hunk rd header).new_lines.2⟩)) := by
  unfold parse_hunk_header_with read_hunk
  dsimp only
  generalize rd header = r1
  generalize (if deref r1.2.1 = ',' then rd r1.2.1 else ((0 : Int), r1.2.1, (1 : Int))) = r2
  generalize rd r2.2.1 = r3
  generalize (if deref r3.2.1 = ',' then rd r3.2.1 else ((0 : Int), r3.2.1, (1 : Int))) = r4
  split_ifs with h0 h1 h2 h3 h4 h5
  · exact ⟨fun _ => rfl, fun hn => absurd (Or.inl h0) hn⟩
  · exact ⟨fun _ => rfl, fun hn => absurd (Or.inr (Or.inl h1)) hn⟩
  · exact ⟨fun _ => rfl, fun hn => absurd (Or.inr (Or.inr (Or.inl h2))) hn⟩
  · exact ⟨fun _ => rfl, fun hn => absurd (Or.inr (Or.inr (Or.inr (Or.inl h3)))) hn⟩
  · exact ⟨fun _ => rfl, fun hn => absurd (Or.inr (Or.inr (Or.inr (Or.inr (Or.inl h4))))) hn⟩
  · refine ⟨fun _ => rfl, fun hn => ?_⟩
    rcases h5 with h5 | h5
    · exact absurd (Or.inr (Or.inr (Or.inr (Or.inr (Or.inr (Or.inl h5)))))) hn
    · exact absurd (Or.inr (Or.inr (Or.inr (Or.inr (Or.inr (Or.inr h5)))))) hn
  · refine ⟨fun h => ?_, fun _ => rfl⟩
    exfalso
    rcases h with h | h | h | h | h | h | h
    · exact h0 h
    · exact h1 h
    · exact h2 h
    · exact h3 h
    · exact h4 h
    · exact h5 (Or.inl h)
    · exact h5 (Or.inr h)

theorem read_hunk_default (rd : List Char → Int × List Char × Int) (header : List Char) :
    ((read_hunk rd header).old_written = false → (read_hunk rd header).old_lines = (0, 1)) ∧
    ((read_hunk rd header).new_written = false → (read_hunk rd header).new_lines = (0, 1)) := by
  unfold read_hunk
  dsimp only
  constructor
  · intro h
    have hne : ¬ (deref (rd header).2.1 = ',') := by simpa using h
    rw [if_neg hne]
  · intro h
    generalize (rd (if deref (rd header).2.1 = ',' then rd (rd header).2.1
      else ((0 : Int), (rd header).2.1, (1 : Int))).2.1) = r3 at h ⊢
    have hne : ¬ (deref r3.2.1 = ',') := by simpa using h
    rw [if_neg hne]

theorem read_digits_count (s : List Char) :
    ∀ (v : Int) (k : Nat), k ≤ (read_digits s v k).2.1 := by
  induction s with
  | nil => intro v k; exact le_refl k
  | cons c cs ih =>
    intro v k
    unfold read_digits
    split_ifs
    · exact le_trans (Nat.le_succ k) (ih _ _)
    · exact le_refl k

theorem skip_to_digit_some_digit (s : List Char) (h : ∃ c ∈ cstr s, c.isDigit = true) :
    (deref (skip_to_digit s)).isDigit = true := by
  induction s with
  | nil =>
    obtain ⟨c, hc, _⟩ := h
    simp [cstr] at hc
  | cons c cs ih =>
    by_cases hc : c = NUL
    · obtain ⟨x, hx, _⟩ := h
      simp [cstr, hc] at hx
    · by_cases hd : c.isDigit = true
      · rw [skip_to_digit_digit c cs hd]
        exact hd
      · have hstep : skip_to_digit (c :: cs) = skip_to_digit cs := by
          simp [skip_to_digit, hc, hd]
        rw [hstep]
        apply ih
        obtain ⟨x, hx, hxd⟩ := h
        have hcs : cstr (c :: cs) = c :: cstr cs := by simp [cstr, hc]
        rw [hcs] at hx
        rcases List.mem_cons.mp hx with hx | hx
        · rw [hx] at hxd; exact absurd hxd hd
        · exact ⟨x, hx, hxd⟩

theorem read_next_int_fails_iff (s : List Char) :
    (read_next_int s).1 < 0 ↔ ∀ c ∈ cstr s, c.isDigit = false := by
  constructor
  · intro hlt c hc
    by_contra hd
    have hd' : c.isDigit = true := by
      cases hx : c.isDigit
      · exact absurd hx hd
      · rfl
    have hdig := skip_to_digit_some_digit s ⟨c, hc, hd'⟩
    revert hlt
    unfold read_next_int
    dsimp only
    cases hs : skip_to_digit s with
    | nil =>
      rw [hs] at hdig
      exact absurd hdig (by decide)
    | cons x xs =>
      rw [hs] at hdig
      have hx : x.isDigit = true := hdig
      have hcount := read_digits_count xs (wrap32 (0 * 10 + ((x.toNat : Int) - 48))) (0 + 1)
      have hstep : read_digits (x :: xs) 0 0 =
          read_digits xs (wrap32 (0 * 10 + ((x.toNat : Int) - 48))) (0 + 1) := by
        simp [read_digits, hx]
      rw [hstep]
      have hpos : 0 < (read_digits xs (wrap32 (0 * 10 + ((x.toNat : Int) - 48))) (0 + 1)).2.1 := by
        omega
      rw [if_pos hpos]
      intro h
      exact absurd h (by decide)
  · intro h
    rw [read_next_int_no_digit s h]
    decide

theorem run_tier_force_text (env : Env) (opts : Option git_diff_options) (d : git_diff_delta)
    (step : tier_step) (ho : d.old_file.flags.NOT_BINARY = true)
    (hn : d.new_file.flags.NOT_BINARY = true) :
    (run_tier env opts d step).old_file.flags = d.old_file.flags ∧
    (run_tier env opts d step).new_file.flags = d.new_file.flags ∧
    ((run_tier env opts d step).binary = d.binary ∨
      (run_tier env opts d step).binary =
        (if d.old_file.flags.BINARY = true ∨ d.new_file.flags.BINARY = true then 1 else 0)) := by
  cases step with
  | size_tier file =>
    have hret : diff_delta_is_binary_by_size opts d file = d := by
      unfold diff_delta_is_binary_by_size
      cases file <;> simp [git_diff_delta.file, ho, hn]
    simp [run_tier, hret]
  | content_tier file map =>
    have hret : diff_delta_is_binary_by_content env d file map = update_delta_is_binary d := by
      unfold diff_delta_is_binary_by_content
      cases file <;> simp [git_diff_delta.file, ho, hn]
    simp only [run_tier, hret]
    refine ⟨by rw [(update_delta_is_binary_files d).1],
      by rw [(update_delta_is_binary_files d).2], Or.inr ?_⟩
    unfold update_delta_is_binary
    by_cases hB : d.old_file.flags.BINARY = true ∨ d.new_file.flags.BINARY = true
    · rw [if_pos hB, if_pos hB]
    · have hN : (d.old_file.flags.NOT_BINARY = true ∨ d.old_file.flags.NO_DATA = true) ∧
          (d.new_file.flags.NOT_BINARY = true ∨ d.new_file.flags.NO_DATA = true) :=
        ⟨Or.inl ho, Or.inl hn⟩
      rw [if_neg hB, if_neg hB, if_pos hN]
  | set_size file size =>
    cases file <;> exact ⟨rfl, rfl, Or.inl rfl⟩

theorem run_tiers_force_text (env : Env) (opts : Option git_diff_options)
    (steps : List tier_step) :
    ∀ d : git_diff_delta, d.old_file.flags.NOT_BINARY = true →
      d.new_file.flags.NOT_BINARY = true →
      (d.binary = 0 ∨ d.binary =
        (if d.old_file.flags.BINARY = true ∨ d.new_file.flags.BINARY = true then 1 else 0)) →
      (run_tiers env opts steps d).old_file.flags = d.old_file.flags ∧
      (run_tiers env opts steps d).new_file.flags = d.new_file.flags ∧
      ((run_tiers env opts steps d).binary = 0 ∨ (run_tiers env opts steps d).binary =
        (if d.old_file.flags.BINARY = true ∨ d.new_file.flags.BINARY = true then 1 else 0)) := by
  induction steps with
  | nil => intro d _ _ hb; exact ⟨rfl, rfl, hb⟩
  | cons step rest ih =>
    intro d ho hn hb
    obtain ⟨e1, e2, e3⟩ := run_tier_force_text env opts d step ho hn
    have ho' : (run_tier env opts d step).old_file.flags.NOT_BINARY = true := by rw [e1]; exact ho
    have hn' : (run_tier env opts d step).new_file.flags.NOT_BINARY = true := by rw [e2]; exact hn
    have hb' : (run_tier env opts d step).binary = 0 ∨ (run_tier env opts d step).binary =
        (if (run_tier env opts d step).old_file.flags.BINARY = true ∨
            (run_tier env opts d step).new_file.flags.BINARY = true then 1 else 0) := by
      rw [e1, e2]
      rcases e3 with e3 | e3
      · rw [e3]; exact hb
      · exact Or.inr e3
    obtain ⟨r1, r2, r3⟩ := ih (run_tier env opts d step) ho' hn' hb'
    rw [e1, e2] at r3
    exact ⟨by rw [run_tiers, r1, e1], by rw [run_tiers, r2, e2], r3⟩

/-- With `FORCE_TEXT` set, a prep that passes its guards (the context not yet prepped, a
delta attached) sets `NOT_BINARY` on both sides and the verdict to no (0); whatever the
sides' sizes, attributes and bytes, the size and content tiers that follow leave the
flags of both sides as prep left them (they never set `BINARY`), and they do not change
the verdict to yes for a delta neither side of which carried `BINARY` before prep. -/
theorem force_text_classification (env : Env) (ctxt : diff_delta_context)
    (d : git_diff_delta) (opts : Option git_diff_options) (steps : List tier_step)
    (hft : ctxt.opts.flags.FORCE_TEXT = true) (hp : ctxt.prepped = false)
    (hd : ctxt.delta ≠ none) :
    (diff_delta_prep env ctxt d).1 = 0 ∧
    (diff_delta_prep env ctxt d).2.1.prepped = true ∧
    (diff_delta_prep env ctxt d).2.2.old_file.flags.NOT_BINARY = true ∧
    (diff_delta_prep env ctxt d).2.2.new_file.flags.NOT_BINARY = true ∧
    (diff_delta_prep env ctxt d).2.2.binary = 0 ∧
    (run_tiers env opts steps (diff_delta_prep env ctxt d).2.2).old_file.flags.NOT_BINARY
      = true ∧
    (run_tiers env opts steps (diff_delta_prep env ctxt d).2.2).new_file.flags.NOT_BINARY
      = true ∧
    (run_tiers env opts steps (diff_delta_prep env ctxt d).2.2).old_file.flags.BINARY =
      d.old_file.flags.BINARY ∧
    (run_tiers env opts steps (diff_delta_prep env ctxt d).2.2).new_file.flags.BINARY =
      d.new_file.flags.BINARY ∧
    (d.old_file.flags.BINARY = false → d.new_file.flags.BINARY = false →
      (run_tiers env opts steps (diff_delta_prep env ctxt d).2.2).binary = 0) := by
  have hg : ¬ (ctxt.prepped = true ∨ ctxt.delta = none) := by
    rw [hp]; simp [hd]
  have hprep : diff_delta_prep env ctxt d =
      (0, { ctxt with prepped := true },
        { d with
            old_file := { d.old_file with flags := { d.old_file.flags with NOT_BINARY := true } },
            new_file := { d.new_file with flags := { d.new_file.flags with NOT_BINARY := true } },
            binary := 0 }) := by
    unfold diff_delta_prep
    rw [if_neg hg]
    unfold diff_delta_is_binary_by_attr
    dsimp only
    rw [if_pos hft]
    rfl
  rw [hprep]
  obtain ⟨r1, r2, r3⟩ := run_tiers_force_text env opts steps
    { d with
        old_file := { d.old_file with flags := { d.old_file.flags with NOT_BINARY := true } },
        new_file := { d.new_file with flags := { d.new_file.flags with NOT_BINARY := true } },
        binary := 0 } rfl rfl (Or.inl rfl)
  refine ⟨rfl, rfl, rfl, rfl, rfl, by rw [r1], by rw [r2], by rw [r1], by rw [r2], ?_⟩
  intro ho hn
  rcases r3 with r3 | r3
  · exact r3
  · rw [r3]
    simp [ho, hn]

theorem force_text_classification_witness :
    ctxt_force_text.opts.flags.FORCE_TEXT = true ∧
    (run_tiers sample_env (some force_text_opts)
      [tier_step.set_size side.old 1000000000, tier_step.size_tier side.old,
       tier_step.content_tier side.old ⟨sample_blob 3, 4⟩]
      (diff_delta_prep sample_env ctxt_force_text delta_binary).2.2).binary = 0 :=
  ⟨by decide,
    (force_text_classification sample_env ctxt_force_text delta_binary (some force_text_opts)
      [tier_step.set_size side.old 1000000000, tier_step.size_tier side.old,
       tier_step.content_tier side.old ⟨sample_blob 3, 4⟩] (by decide) (by decide)
      (by decide)).2.2.2.2.2.2.2.2.2 (by decide) (by decide)⟩

/-- C12 (code defect): with `FORCE_TEXT` set, the changed file `g.txt`, alone in a list,
is returned by `git_diff_iterator_next_file` with `NOT_BINARY` on both sides and the
verdict no (0).  Behind an ambiguous delta that `next_file` loads, resolves to
`UNMODIFIED` and skips, the context is still marked prepped from the skipped delta: the
prep that `next_file` performs for `g.txt` returns at its `prepped` guard, and `g.txt` is
returned with `NOT_BINARY` on neither side and the verdict unknown (-1). -/
theorem force_text_prep_skipped :
    diff_force_skipped_changed.opts.flags.FORCE_TEXT = true ∧
    ((git_diff_iterator_next_file changed_env
        (git_diff_iterator_new diff_force_changed)).map fun r =>
      (r.error, r.delta_ptr, r.iter.ctxt.prepped,
        (r.delta_ptr.bind fun i => r.iter.diff.deltas[i]?).map fun d =>
          (d.old_file.flags.NOT_BINARY, d.new_file.flags.NOT_BINARY, d.binary))) =
      some (0, some 0, true, some (true, true, 0)) ∧
    ((git_diff_iterator_next_file changed_env
        (git_diff_iterator_new diff_force_skipped_changed)).map fun r =>
      (r.iter.diff.deltas.map fun d => d.status)) =
      some [git_delta_t.UNMODIFIED, git_delta_t.MODIFIED] ∧
    ((git_diff_iterator_next_file changed_env
        (git_diff_iterator_new diff_force_skipped_changed)).map fun r =>
      (r.error, r.delta_ptr, r.iter.ctxt.prepped,
        (r.delta_ptr.bind fun i => r.iter.diff.deltas[i]?).map fun d =>
          (d.old_file.flags.NOT_BINARY, d.new_file.flags.NOT_BINARY, d.binary))) =
      some (0, some 1, true, some (false, false, -1)) :=
  ⟨rfl, rfl, rfl, rfl⟩

/-! ## The `diffable` flag -/

theorem load_cleanup_form (env : Env) (ctxt : diff_delta_context) (delta : git_diff_delta)
    (hg : ¬ (ctxt.loaded = true ∨ ctxt.delta = none)) :
    ∃ e c d, diff_delta_load env ctxt delta = diff_delta_load_cleanup e c d := by
  unfold diff_delta_load diff_delta_load_finish
  rw [if_neg hg]
  lift_lets
  intros
  split_ifs <;> exact ⟨_, _, _, rfl⟩

theorem cleanup_diffable (e : Int) (c : diff_delta_context) (d : git_diff_delta)
    (h0 : (diff_delta_load_cleanup e c d).1 = 0) :
    (diff_delta_load_cleanup e c d).2.1.loaded = true ∧
    ((diff_delta_load_cleanup e c d).2.1.diffable = true ↔
      diffable_spec (diff_delta_load_cleanup e c d).2.1 (diff_delta_load_cleanup e c d).2.2) := by
  have he : e = 0 := h0
  subst he
  unfold diff_delta_load_cleanup diffable_spec
  simp [and_assoc]

theorem load_diffable (env : Env) (ctxt : diff_delta_context) (delta : git_diff_delta)
    (hinv : ctxt.loaded = true → (ctxt.diffable = true ↔ diffable_spec ctxt delta))
    (h0 : (diff_delta_load env ctxt delta).1 = 0)
    (hl : (diff_delta_load env ctxt delta).2.1.loaded = true) :
    (diff_delta_load env ctxt delta).2.1.diffable = true ↔
      diffable_spec (diff_delta_load env ctxt delta).2.1 (diff_delta_load env ctxt delta).2.2 := by
  by_cases hg : ctxt.loaded = true ∨ ctxt.delta = none
  · have hret : diff_delta_load env ctxt delta = (0, ctxt, delta) := by
      unfold diff_delta_load
      rw [if_pos hg]
    rw [hret] at hl ⊢
    exact hinv hl
  · obtain ⟨e, c, d, hr⟩ := load_cleanup_form env ctxt delta hg
    rw [hr] at h0 ⊢
    exact (cleanup_diffable e c d h0).2

theorem exec_load_eq (env : Env) (ctxt : diff_delta_context) (delta : git_diff_delta) :
    (if ctxt.loaded = false then diff_delta_load env ctxt delta else (0, ctxt, delta)) =
      diff_delta_load env ctxt delta := by
  by_cases hld : ctxt.loaded = false
  · rw [if_pos hld]
  · rw [if_neg hld]
    have ht : ctxt.loaded = true := by
      cases hc : ctxt.loaded
      · exact absurd hc hld
      · rfl
    unfold diff_delta_load
    rw [if_pos (Or.inl ht)]

theorem exec_not_diffable {σ : Type} (env : Env) (hunk_cb : Option (git_diff_hunk_fn σ))
    (line_cb : Option (git_diff_data_fn σ)) (ctxt : diff_delta_context)
    (delta : git_diff_delta) (data : σ)
    (h : (diff_delta_load env ctxt delta).2.1.diffable = false) :
    (diff_delta_exec env hunk_cb line_cb ctxt delta data).2.2.2 = data := by
  unfold diff_delta_exec
  dsimp only
  rw [exec_load_eq]
  split_ifs
  · rfl
  · rfl
  · rfl

theorem load_binary_not_diffable (env : Env) (ctxt : diff_delta_context)
    (delta : git_diff_delta)
    (hinv : ctxt.loaded = true → (ctxt.diffable = true ↔ diffable_spec ctxt delta))
    (hd : ctxt.delta ≠ none)
    (h0 : (diff_delta_load env ctxt delta).1 = 0)
    (hb : (diff_delta_load env ctxt delta).2.2.binary = 1) :
    (diff_delta_load env ctxt delta).2.1.diffable = false := by
  have hl : (diff_delta_load env ctxt delta).2.1.loaded = true := by
    by_cases hld : ctxt.loaded = true
    · have hret : diff_delta_load env ctxt delta = (0, ctxt, delta) := by
        unfold diff_delta_load
        rw [if_pos (Or.inl hld)]
      rw [hret]; exact hld
    · have hg : ¬ (ctxt.loaded = true ∨ ctxt.delta = none) := by
        intro hh
        rcases hh with hh | hh
        · exact hld hh
        · exact hd hh
      obtain ⟨e, c, d, hr⟩ := load_cleanup_form env ctxt delta hg
      rw [hr] at h0 ⊢
      exact (cleanup_diffable e c d h0).1
  cases hc : (diff_delta_load env ctxt delta).2.1.diffable
  · rfl
  · exact absurd hb ((load_diffable env ctxt delta hinv h0 hl).1 hc).1

theorem exec_binary {σ : Type} (env : Env) (hunk_cb : Option (git_diff_hunk_fn σ))
    (line_cb : Option (git_diff_data_fn σ)) (ctxt : diff_delta_context)
    (delta : git_diff_delta) (data : σ)
    (hinv : ctxt.loaded = true → (ctxt.diffable = true ↔ diffable_spec ctxt delta))
    (h0 : (diff_delta_load env ctxt delta).1 = 0)
    (hb : (diff_delta_load env ctxt delta).2.2.binary = 1) :
    (diff_delta_exec env hunk_cb line_cb ctxt delta data).2.2.2 = data := by
  unfold diff_delta_exec
  dsimp only
  rw [exec_load_eq]
  split_ifs with h1 h2 h3
  · rfl
  · rfl
  · rfl
  · exfalso
    have hd : ctxt.delta ≠ none := fun hh => h1 (Or.inr hh)
    exact h3 (load_binary_not_diffable env ctxt delta hinv hd h0 hb)

/-- The `diffable` flag after a load entered with a context that, when it is already
marked loaded, carries the flag of this delta: after a successful load (result 0, context
marked loaded) the flag is true iff the verdict is not yes, the status is not
`UNMODIFIED`, at least one content map has non-zero length and the two object ids
differ; Exec, whose load is that load, leaves the user data and the log of hunk and line
callbacks unchanged when the flag is false, so that a delta whose verdict is yes yields
no event. -/
theorem diffable_flag_and_exec {σ : Type} (env : Env)
    (hunk_cb : Option (git_diff_hunk_fn σ)) (line_cb : Option (git_diff_data_fn σ))
    (ctxt : diff_delta_context) (delta : git_diff_delta) (data : σ × List cb_event)
    (hinv : ctxt.loaded = true → (ctxt.diffable = true ↔ diffable_spec ctxt delta)) :
    ((diff_delta_load env ctxt delta).1 = 0 →
      (diff_delta_load env ctxt delta).2.1.loaded = true →
      ((diff_delta_load env ctxt delta).2.1.diffable = true ↔
        diffable_spec (diff_delta_load env ctxt delta).2.1
          (diff_delta_load env ctxt delta).2.2)) ∧
    ((diff_delta_load env ctxt delta).2.1.diffable = false →
      (diff_delta_exec env (hunk_cb.map traced_hunk_cb) (line_cb.map traced_line_cb) ctxt
        delta data).2.2.2 = data) ∧
    ((diff_delta_load env ctxt delta).1 = 0 →
      (diff_delta_load env ctxt delta).2.2.binary = 1 →
      (diff_delta_exec env (hunk_cb.map traced_hunk_cb) (line_cb.map traced_line_cb) ctxt
        delta data).2.2.2 = data) :=
  ⟨load_diffable env ctxt delta hinv,
    exec_not_diffable env _ _ ctxt delta data,
    exec_binary env _ _ ctxt delta data hinv⟩

theorem diffable_flag_and_exec_witness :
    (ctxt_fresh.loaded = true →
      (ctxt_fresh.diffable = true ↔ diffable_spec ctxt_fresh delta_binary)) ∧
    (diff_delta_load sample_env ctxt_fresh delta_binary).1 = 0 ∧
    (diff_delta_load sample_env ctxt_fresh delta_binary).2.2.binary = 1 ∧
    (diff_delta_exec sample_env ((some ok_hunk_cb).map traced_hunk_cb)
      ((some ok_line_cb).map traced_line_cb) ctxt_fresh delta_binary ((), [])).2.2.2
      = ((), []) :=
  ⟨fun h => absurd h (by decide), by decide, by decide,
    (diffable_flag_and_exec sample_env (some ok_hunk_cb) (some ok_line_cb) ctxt_fresh
      delta_binary ((), []) (fun h => absurd h (by decide))).2.2 (by decide) (by decide)⟩

/-- C20 (code defect): `git_diff_iterator_next_file` returns the changed file `g.txt`
behind an ambiguous delta that it loaded and skipped, with the context still marked
loaded.  The `diff_delta_load` for `g.txt` on that context returns 0 at its `loaded`
guard and leaves the context loaded with `diffable` false, although the verdict of
`g.txt` is not yes, its status is `MODIFIED`, both content maps have length 5 and its
object ids 1 and 0 differ. -/
theorem load_guard_keeps_stale_flag :
    ((git_diff_iterator_next_file changed_env
        (git_diff_iterator_new diff_skipped_changed)).map fun r =>
      (r.error, r.delta_ptr, r.iter.ctxt.delta, r.iter.ctxt.loaded,
        (r.delta_ptr.bind fun i => r.iter.diff.deltas[i]?).map fun d =>
          ((diff_delta_load changed_env r.iter.ctxt d).1,
           (diff_delta_load changed_env r.iter.ctxt d).2.1.loaded,
           (diff_delta_load changed_env r.iter.ctxt d).2.1.diffable,
           (diff_delta_load changed_env r.iter.ctxt d).2.2.binary,
           (diff_delta_load changed_env r.iter.ctxt d).2.2.status,
           (diff_delta_load changed_env r.iter.ctxt d).2.1.old_data.len,
           (diff_delta_load changed_env r.iter.ctxt d).2.1.new_data.len,
           (diff_delta_load changed_env r.iter.ctxt d).2.2.old_file.oid,
           (diff_delta_load changed_env r.iter.ctxt d).2.2.new_file.oid,
           decide (diffable_spec (diff_delta_load changed_env r.iter.ctxt d).2.1
             (diff_delta_load changed_env r.iter.ctxt d).2.2)))) =
      some (0, some 1, some 1, true,
        some (0, true, false, -1, git_delta_t.MODIFIED, 5, 5, 1, 0, true)) :=
  rfl

/-! ## Unload in the streaming traversal -/

/-- C14 (code defect): in `git_diff_foreach` over two ambiguous deltas, the first delta is
preloaded, resolves to `UNMODIFIED` and is skipped by `continue`, which bypasses the
unload at the `cleanup` label: the body leaves the context marked loaded, holding the
content of both sides of the first delta, and the loop begins the second delta with that
context.  The loads of the second delta then return at once, and the file callback
receives the second delta unresolved (status `MODIFIED`, zero new id, verdict unknown). -/
theorem foreach_skip_keeps_context_loaded :
    (foreach_body sample_env (some (traced_file_cb ok_file_cb)) none none 2 0 0
      (diff_delta_init_context_from_diff_list diff_ambiguous) delta_ambiguous ((), [])).1
      = true ∧
    (foreach_body sample_env (some (traced_file_cb ok_file_cb)) none none 2 0 0
      (diff_delta_init_context_from_diff_list diff_ambiguous) delta_ambiguous
      ((), [])).2.2.1.loaded = true ∧
    (foreach_body sample_env (some (traced_file_cb ok_file_cb)) none none 2 0 0
      (diff_delta_init_context_from_diff_list diff_ambiguous) delta_ambiguous
      ((), [])).2.2.1.old_data = ⟨sample_blob 5, 5⟩ ∧
    (foreach_body sample_env (some (traced_file_cb ok_file_cb)) none none 2 0 0
      (diff_delta_init_context_from_diff_list diff_ambiguous) delta_ambiguous
      ((), [])).2.2.1.new_data = ⟨sample_blob 5, 5⟩ ∧
    git_diff_foreach sample_env diff_ambiguous ((), []) (some (traced_file_cb ok_file_cb))
        none none =
      foreach_loop sample_env (some (traced_file_cb ok_file_cb)) none none 2 1
        [delta_ambiguous] 0
        (foreach_body sample_env (some (traced_file_cb ok_file_cb)) none none 2 0 0
          (diff_delta_init_context_from_diff_list diff_ambiguous) delta_ambiguous
          ((), [])).2.2.1
        ((), [])
        [(foreach_body sample_env (some (traced_file_cb ok_file_cb)) none none 2 0 0
          (diff_delta_init_context_from_diff_list diff_ambiguous) delta_ambiguous
          ((), [])).2.2.2.1] ∧
    (git_diff_foreach sample_env diff_ambiguous ((), []) (some (traced_file_cb ok_file_cb))
        none none).data.2 = [cb_event.file delta_ambiguous 1 2 0] := by
  refine ⟨by decide, by decide, by decide, by decide, ?_, by decide⟩
  rfl

/-! ## What the loader leaves unchanged -/

theorem update_delta_is_binary_status (d : git_diff_delta) :
    (update_delta_is_binary d).status = d.status := by
  unfold update_delta_is_binary
  split_ifs <;> rfl

theorem set_file_other (d : git_diff_delta) (s : side) (f : git_diff_file) :
    (d.set_file s f).file s.other = d.file s.other := by
  cases s <;> rfl

theorem set_file_status (d : git_diff_delta) (s : side) (f : git_diff_file) :
    (d.set_file s f).status = d.status := by
  cases s <;> rfl

theorem set_file_binary (d : git_diff_delta) (s : side) (f : git_diff_file) :
    (d.set_file s f).binary = d.binary := by
  cases s <;> rfl

theorem set_map_other (c : diff_delta_context) (s : side) (m : git_map) :
    (c.set_map s m).map s.other = c.map s.other := by
  cases s <;> rfl

theorem set_map_map (c : diff_delta_context) (s : side) (m : git_map) :
    (c.set_map s m).map s = m := by
  cases s <;> rfl

theorem set_map_frame (c : diff_delta_context) (s : side) (m : git_map) :
    (c.set_map s m).opts = c.opts ∧ (c.set_map s m).old_src = c.old_src ∧
    (c.set_map s m).new_src = c.new_src := by
  cases s <;> exact ⟨rfl, rfl, rfl⟩

theorem by_size_frame (opts : Option git_diff_options) (d : git_diff_delta) (file : side) :
    (diff_delta_is_binary_by_size opts d file).status = d.status ∧
    (diff_delta_is_binary_by_size opts d file).file file.other = d.file file.other ∧
    ((diff_delta_is_binary_by_size opts d file).file file).ident = (d.file file).ident := by
  unfold diff_delta_is_binary_by_size
  cases opts with
  | none =>
    dsimp only
    split_ifs <;>
      simp [update_delta_is_binary_status, update_delta_is_binary_file, set_file_other,
        set_file_status, file_set_file, git_diff_file.ident]
  | some o =>
    dsimp only
    split_ifs <;>
      simp [update_delta_is_binary_status, update_delta_is_binary_file, set_file_other,
        set_file_status, file_set_file, git_diff_file.ident]

theorem by_content_frame (env : Env) (d : git_diff_delta) (file : side) (map : git_map) :
    (diff_delta_is_binary_by_content env d file map).status = d.status ∧
    (diff_delta_is_binary_by_content env d file map).file file.other = d.file file.other ∧
    ((diff_delta_is_binary_by_content env d file map).file file).ident =
      (d.file file).ident := by
  unfold diff_delta_is_binary_by_content
  dsimp only
  split_ifs <;>
    simp [update_delta_is_binary_status, update_delta_is_binary_file, set_file_other,
      set_file_status, file_set_file, git_diff_file.ident]

theorem get_workdir_content_eq (env : Env) (c : diff_delta_context) (d : git_diff_delta)
    (file : side) :
    get_workdir_content env c d file = workdir_hash env file (workdir_read env c d file) :=
  rfl

theorem workdir_read_ctxt (env : Env) (c : diff_delta_context) (d : git_diff_delta)
    (file : side) :
    (workdir_read env c d file).2.2.1.opts = c.opts ∧
    (workdir_read env c d file).2.2.1.old_src = c.old_src ∧
    (workdir_read env c d file).2.2.1.new_src = c.new_src ∧
    (workdir_read env c d file).2.2.1.map file.other = c.map file.other := by
  unfold workdir_read
  dsimp only
  split_ifs <;> simp [set_map_frame, set_map_other]

theorem workdir_read_delta (env : Env) (c : diff_delta_context) (d : git_diff_delta)
    (file : side) :
    (workdir_read env c d file).2.2.2.status = d.status ∧
    (workdir_read env c d file).2.2.2.file file.other = d.file file.other ∧
    ((workdir_read env c d file).2.2.2.file file).ident = (d.file file).ident := by
  unfold workdir_read
  dsimp only
  have hf : ∀ f : git_diff_file, f.ident = (d.file file).ident →
      (diff_delta_is_binary_by_size (some c.opts) (d.set_file file f) file).status
        = d.status ∧
      (diff_delta_is_binary_by_size (some c.opts) (d.set_file file f) file).file file.other
        = d.file file.other ∧
      ((diff_delta_is_binary_by_size (some c.opts) (d.set_file file f) file).file file).ident
        = (d.file file).ident := by
    intro f hf
    obtain ⟨h1, h2, h3⟩ := by_size_frame (some c.opts) (d.set_file file f) file
    rw [h1, h2, h3, set_file_status, set_file_other, file_set_file]
    exact ⟨rfl, rfl, hf⟩
  have hf1 : (if (d.file file).size = 0 then
      { d.file file with size := env.filesize (d.file file).path } else d.file file).ident
      = (d.file file).ident := by
    split_ifs <;> rfl
  generalize (if (d.file file).size = 0 then
      { d.file file with size := env.filesize (d.file file).path } else d.file file) = f1
    at hf1 ⊢
  obtain ⟨h1, h2, h3⟩ := hf f1 hf1
  generalize diff_delta_is_binary_by_size (some c.opts) (d.set_file file f1) file = d1
    at h1 h2 h3 ⊢
  split_ifs <;>
    simp [set_file_status, set_file_other, file_set_file, h1, h2, h3] <;>
    first
      | rfl
      | (rw [← h3]; rfl)

theorem workdir_read_code (env : Env) (c : diff_delta_context) (d : git_diff_delta)
    (file : side) (hcodes : env.codes_ok) :
    ((workdir_read env c d file).1 = true → (workdir_read env c d file).2.1 < 0) ∧
    (workdir_read env c d file).2.1 ≤ 0 := by
  obtain ⟨hm, hr, hfa, _, _⟩ := hcodes
  unfold workdir_read
  dsimp only
  generalize (if (d.file file).size = 0 then
      { d.file file with size := env.filesize (d.file file).path } else d.file file) = f1
  generalize diff_delta_is_binary_by_size (some c.opts) (d.set_file file f1) file = d1
  split_ifs with h1 h2 h3 h4 h5 h6 h7 h8
  · have hneg : (-1 : Int) < 0 := by decide
    exact ⟨fun _ => hneg, le_of_lt hneg⟩
  · exact ⟨fun h => absurd h (by decide), le_refl 0⟩
  · exact ⟨fun _ => h3, le_of_lt h3⟩
  · exact ⟨fun h => absurd h (by decide), le_refl 0⟩
  · exact ⟨fun h => absurd h (by decide), le_of_lt h5⟩
  · exact ⟨fun h => absurd h (by decide), hm _ _⟩
  · exact ⟨fun h => absurd h (by decide), hm _ _⟩
  · exact ⟨fun h => absurd h (by decide), hr _ _⟩
  · exact ⟨fun h => absurd h (by decide), hfa _ _⟩
  · exact ⟨fun h => absurd h (by decide), le_refl 0⟩

theorem ident_eq_iff (f g : git_diff_file) :
    f.ident = g.ident ↔ f.oid = g.oid ∧ f.mode = g.mode ∧
      f.flags.VALID_OID = g.flags.VALID_OID ∧ f.flags.NO_DATA = g.flags.NO_DATA := by
  simp [git_diff_file.ident]

theorem workdir_hash_frame (env : Env) (file : side)
    (s : Bool × Int × diff_delta_context × git_diff_delta) :
    (workdir_hash env file s).2.1 = s.2.2.1 ∧
    (workdir_hash env file s).2.2.status = s.2.2.2.status ∧
    (workdir_hash env file s).2.2.file file.other = s.2.2.2.file file.other ∧
    ((workdir_hash env file s).2.2.file file).mode = (s.2.2.2.file file).mode ∧
    ((workdir_hash env file s).2.2.file file).flags.NO_DATA =
      (s.2.2.2.file file).flags.NO_DATA := by
  obtain ⟨skip, e, c, d⟩ := s
  unfold workdir_hash
  dsimp only
  have hc : ∀ (d1 : git_diff_delta) (m : git_map),
      (diff_delta_is_binary_by_content env d1 file m).status = d1.status ∧
      (diff_delta_is_binary_by_content env d1 file m).file file.other = d1.file file.other ∧
      ((diff_delta_is_binary_by_content env d1 file m).file file).mode = (d1.file file).mode ∧
      ((diff_delta_is_binary_by_content env d1 file m).file file).flags.NO_DATA =
        (d1.file file).flags.NO_DATA := by
    intro d1 m
    obtain ⟨h1, h2, h3⟩ := by_content_frame env d1 file m
    rw [ident_eq_iff] at h3
    exact ⟨h1, h2, h3.2.1, h3.2.2.2⟩
  split_ifs
  · exact ⟨rfl, rfl, rfl, rfl, rfl⟩
  all_goals
    refine ⟨rfl, ?_⟩
    first
      | (obtain ⟨h1, h2, h3, h4⟩ := hc (d.set_file file
            { d.file file with
                oid := (env.odb_hash (c.map file).data (c.map file).len).2,
                flags := { (d.file file).flags with VALID_OID := true } }) (c.map file)
         rw [h1, h2, h3, h4, set_file_status, set_file_other, file_set_file]
         exact ⟨rfl, rfl, rfl, rfl⟩)
      | (obtain ⟨h1, h2, h3, h4⟩ := hc d (c.map file)
         rw [h1, h2, h3, h4]
         exact ⟨rfl, rfl, rfl, rfl⟩)
      | (rw [set_file_status, set_file_other, file_set_file]
         exact ⟨rfl, rfl, rfl, rfl⟩)
      | exact ⟨rfl, rfl, rfl, rfl⟩

theorem workdir_hash_code (env : Env) (file : side)
    (s : Bool × Int × diff_delta_context × git_diff_delta) (hcodes : env.codes_ok)
    (hs : s.2.1 ≤ 0) :
    (workdir_hash env file s).1 ≤ 0 := by
  obtain ⟨skip, e, c, d⟩ := s
  obtain ⟨_, _, _, hh, _⟩ := hcodes
  unfold workdir_hash
  dsimp only
  split_ifs
  · exact hs
  · exact le_refl 0
  · exact hh _ _
  · exact le_refl 0
  · exact hs

theorem workdir_hash_oid (env : Env) (file : side)
    (s : Bool × Int × diff_delta_context × git_diff_delta)
    (hs : s.1 = true → s.2.1 < 0) (h0 : (workdir_hash env file s).1 = 0) :
    ((workdir_hash env file s).2.2.file file).flags.VALID_OID = true ∧
    ((s.2.2.2.file file).flags.VALID_OID = false →
      ((workdir_hash env file s).2.2.file file).oid =
        (env.odb_hash ((workdir_hash env file s).2.1.map file).data
          ((workdir_hash env file s).2.1.map file).len).2) ∧
    ((s.2.2.2.file file).flags.VALID_OID = true →
      ((workdir_hash env file s).2.2.file file).oid = (s.2.2.2.file file).oid) := by
  obtain ⟨skip, e, c, d⟩ := s
  revert h0
  unfold workdir_hash
  dsimp only
  have hc : ∀ (d1 : git_diff_delta) (m : git_map),
      ((diff_delta_is_binary_by_content env d1 file m).file file).oid = (d1.file file).oid ∧
      ((diff_delta_is_binary_by_content env d1 file m).file file).flags.VALID_OID =
        (d1.file file).flags.VALID_OID := by
    intro d1 m
    obtain ⟨_, _, h3⟩ := by_content_frame env d1 file m
    rw [ident_eq_iff] at h3
    exact ⟨h3.1, h3.2.2.1⟩
  split_ifs with h1 h2 h3 h4
  · intro h0
    have hlt : e < 0 := hs h1
    have h0' : e = 0 := h0
    omega
  · intro _
    obtain ⟨e1, e2⟩ := hc (d.set_file file
            { d.file file with
                oid := (env.odb_hash (c.map file).data (c.map file).len).2,
                flags := { (d.file file).flags with VALID_OID := true } }) (c.map file)
    dsimp only
    rw [e1, e2, file_set_file]
    exact ⟨rfl, fun _ => rfl, fun h => absurd h (by rw [h2.2]; decide)⟩
  · intro h0
    exact absurd h0 h3
  · intro _
    obtain ⟨e1, e2⟩ := hc d (c.map file)
    dsimp only
    rw [e1, e2]
    have hv : (d.file file).flags.VALID_OID = true := by
      cases hv : (d.file file).flags.VALID_OID
      · exact absurd ⟨h4, hv⟩ h2
      · rfl
    exact ⟨hv, fun h => absurd h (by rw [hv]; decide), fun _ => rfl⟩
  · intro h0
    exact absurd h0 h4

theorem workdir_frame (env : Env) (c : diff_delta_context) (d : git_diff_delta)
    (file : side) :
    (get_workdir_content env c d file).2.1.opts = c.opts ∧
    (get_workdir_content env c d file).2.1.old_src = c.old_src ∧
    (get_workdir_content env c d file).2.1.new_src = c.new_src ∧
    (get_workdir_content env c d file).2.1.map file.other = c.map file.other ∧
    (get_workdir_content env c d file).2.2.status = d.status ∧
    (get_workdir_content env c d file).2.2.file file.other = d.file file.other ∧
    ((get_workdir_content env c d file).2.2.file file).mode = (d.file file).mode ∧
    ((get_workdir_content env c d file).2.2.file file).flags.NO_DATA =
      (d.file file).flags.NO_DATA := by
  rw [get_workdir_content_eq]
  obtain ⟨a1, a2, a3, a4, a5⟩ := workdir_hash_frame env file (workdir_read env c d file)
  obtain ⟨b1, b2, b3, b4⟩ := workdir_read_ctxt env c d file
  obtain ⟨c1, c2, c3⟩ := workdir_read_delta env c d file
  rw [ident_eq_iff] at c3
  rw [a1, a2, a3, a4, a5, b1, b2, b3, b4, c1, c2, c3.2.1, c3.2.2.2]
  exact ⟨rfl, rfl, rfl, rfl, rfl, rfl, rfl, rfl⟩

theorem workdir_code (env : Env) (c : diff_delta_context) (d : git_diff_delta)
    (file : side) (hcodes : env.codes_ok) :
    (get_workdir_content env c d file).1 ≤ 0 := by
  rw [get_workdir_content_eq]
  exact workdir_hash_code env file _ hcodes (workdir_read_code env c d file hcodes).2

theorem workdir_oid (env : Env) (c : diff_delta_context) (d : git_diff_delta)
    (file : side) (hcodes : env.codes_ok)
    (h0 : (get_workdir_content env c d file).1 = 0) :
    ((get_workdir_content env c d file).2.2.file file).flags.VALID_OID = true ∧
    ((d.file file).flags.VALID_OID = false →
      ((get_workdir_content env c d file).2.2.file file).oid =
        (env.odb_hash ((get_workdir_content env c d file).2.1.map file).data
          ((get_workdir_content env c d file).2.1.map file).len).2) ∧
    ((d.file file).flags.VALID_OID = true →
      ((get_workdir_content env c d file).2.2.file file).oid = (d.file file).oid) := by
  rw [get_workdir_content_eq] at h0 ⊢
  obtain ⟨a1, a2, a3⟩ := workdir_hash_oid env file (workdir_read env c d file)
    (workdir_read_code env c d file hcodes).1 h0
  obtain ⟨_, _, c3⟩ := workdir_read_delta env c d file
  rw [ident_eq_iff] at c3
  rw [c3.1, c3.2.2.1] at a3
  rw [c3.2.2.1] at a2
  exact ⟨a1, a2, a3⟩

theorem ident_with_size (f : git_diff_file) (n : Int) :
    ({ f with size := n } : git_diff_file).ident = f.ident :=
  rfl

theorem blob_ctxt_frame (env : Env) (c : diff_delta_context) (d : git_diff_delta)
    (file : side) :
    (get_blob_content env c d file).2.1.opts = c.opts ∧
    (get_blob_content env c d file).2.1.old_src = c.old_src ∧
    (get_blob_content env c d file).2.1.new_src = c.new_src ∧
    (get_blob_content env c d file).2.1.map file.other = c.map file.other := by
  unfold get_blob_content
  dsimp only
  split_ifs <;> (cases file <;> exact ⟨rfl, rfl, rfl, rfl⟩)

theorem blob_delta_frame (env : Env) (c : diff_delta_context) (d : git_diff_delta)
    (file : side) :
    (get_blob_content env c d file).2.2.status = d.status ∧
    (get_blob_content env c d file).2.2.file file.other = d.file file.other ∧
    ((get_blob_content env c d file).2.2.file file).ident = (d.file file).ident := by
  have s1 := fun o dd => (by_size_frame o dd file).1
  have s2 := fun o dd => (by_size_frame o dd file).2.1
  have s3 := fun o dd => (by_size_frame o dd file).2.2
  have c1 := fun dd m => (by_content_frame env dd file m).1
  have c2 := fun dd m => (by_content_frame env dd file m).2.1
  have c3 := fun dd m => (by_content_frame env dd file m).2.2
  unfold get_blob_content
  dsimp only
  split_ifs <;>
    simp only [s1, s2, s3, c1, c2, c3, set_file_status, set_file_other, file_set_file,
      ident_with_size, and_self]

theorem blob_frame (env : Env) (c : diff_delta_context) (d : git_diff_delta)
    (file : side) :
    (get_blob_content env c d file).2.1.opts = c.opts ∧
    (get_blob_content env c d file).2.1.old_src = c.old_src ∧
    (get_blob_content env c d file).2.1.new_src = c.new_src ∧
    (get_blob_content env c d file).2.1.map file.other = c.map file.other ∧
    (get_blob_content env c d file).2.2.status = d.status ∧
    (get_blob_content env c d file).2.2.file file.other = d.file file.other ∧
    ((get_blob_content env c d file).2.2.file file).ident = (d.file file).ident := by
  obtain ⟨a1, a2, a3, a4⟩ := blob_ctxt_frame env c d file
  obtain ⟨b1, b2, b3⟩ := blob_delta_frame env c d file
  exact ⟨a1, a2, a3, a4, b1, b2, b3⟩

theorem blob_code (env : Env) (c : diff_delta_context) (d : git_diff_delta)
    (file : side) (hcodes : env.codes_ok) :
    (get_blob_content env c d file).1 ≤ 0 := by
  obtain ⟨_, _, _, _, hb⟩ := hcodes
  have hb' := hb (d.file file).oid
  unfold get_blob_content
  dsimp only
  split_ifs <;> dsimp only <;> omega

theorem blob_map (env : Env) (c : diff_delta_context) (d : git_diff_delta)
    (file : side) (h0 : (get_blob_content env c d file).1 = 0)
    (hb : (get_blob_content env c d file).2.2.binary ≠ 1)
    (hoid : (d.file file).oid ≠ 0) :
    (env.blob_lookup (d.file file).oid).1 = 0 ∧
    (get_blob_content env c d file).2.1.map file =
      ⟨(env.blob_lookup (d.file file).oid).2,
        (env.blob_lookup (d.file file).oid).2.length⟩ := by
  revert h0 hb
  unfold get_blob_content
  dsimp only
  split_ifs <;> dsimp only <;> intro h0 hb <;>
    first
      | omega
      | exact absurd ‹_› hb
      | exact absurd h0 ‹_›
      | (refine ⟨by omega, ?_⟩
         cases file <;> rfl)

/-! ## The successful load as a sequence of steps -/

theorem cleanup_result (e : Int) (c : diff_delta_context) (d : git_diff_delta) :
    (diff_delta_load_cleanup e c d).1 = e ∧
    (d.binary = 1 → (diff_delta_load_cleanup e c d).2.2.binary = 1) ∧
    (diff_delta_load_cleanup e c d).2.2.old_file = d.old_file ∧
    (diff_delta_load_cleanup e c d).2.2.new_file = d.new_file ∧
    (diff_delta_load_cleanup e c d).2.2.status = d.status ∧
    (diff_delta_load_cleanup e c d).2.1.old_data = c.old_data ∧
    (diff_delta_load_cleanup e c d).2.1.new_data = c.new_data := by
  unfold diff_delta_load_cleanup
  dsimp only
  refine ⟨rfl, ?_, ?_, ?_, ?_, ?_, ?_⟩
  · intro h1
    have hne : ¬ (d.binary = -1) := by rw [h1]; decide
    rw [if_neg hne]
    exact h1
  · split_ifs <;> first | rfl | exact (update_delta_is_binary_files d).1
  · split_ifs <;> first | rfl | exact (update_delta_is_binary_files d).2
  · split_ifs <;> first | rfl | exact update_delta_is_binary_status d
  · split_ifs <;> rfl
  · split_ifs <;> rfl

theorem load_success_form (env : Env) (ctxt : diff_delta_context) (delta : git_diff_delta)
    (hg : ¬ (ctxt.loaded = true ∨ ctxt.delta = none))
    (h0 : 0 ≤ (diff_delta_load env ctxt delta).1)
    (hb : (diff_delta_load env ctxt delta).2.2.binary ≠ 1) :
    diff_delta_load env ctxt delta =
      diff_delta_load_finish (load_check (load_start env ctxt delta).2.2)
        (load_blob env side.new (load_blob env side.old (load_workdir env side.new
          (load_workdir env side.old (load_start env ctxt delta))))).1
        (load_blob env side.new (load_blob env side.old (load_workdir env side.new
          (load_workdir env side.old (load_start env ctxt delta))))).2.1
        (load_blob env side.new (load_blob env side.old (load_workdir env side.new
          (load_workdir env side.old (load_start env ctxt delta))))).2.2 ∧
    0 ≤ (load_workdir env side.old (load_start env ctxt delta)).1 ∧
    0 ≤ (load_workdir env side.new
          (load_workdir env side.old (load_start env ctxt delta))).1 ∧
    0 ≤ (load_blob env side.old (load_workdir env side.new
          (load_workdir env side.old (load_start env ctxt delta)))).1 ∧
    (((load_workdir env side.new (load_workdir env side.old
          (load_start env ctxt delta))).2.2.old_file.flags.NO_DATA = false ∧
        (load_workdir env side.new (load_workdir env side.old
          (load_start env ctxt delta))).2.1.old_src ≠ git_iterator_type_t.WORKDIR) →
      (load_blob env side.old (load_workdir env side.new
          (load_workdir env side.old (load_start env ctxt delta)))).2.2.binary ≠ 1) ∧
    0 ≤ (load_blob env side.new (load_blob env side.old (load_workdir env side.new
          (load_workdir env side.old (load_start env ctxt delta))))).1 ∧
    (load_blob env side.new (load_blob env side.old (load_workdir env side.new
          (load_workdir env side.old (load_start env ctxt delta))))).2.2.binary ≠ 1 := by
  generalize hr : diff_delta_load env ctxt delta = R at h0 hb ⊢
  unfold diff_delta_load at hr
  rw [if_neg hg] at hr
  lift_lets at hr
  extract_lets p error psrc c0 d00 d0 chk wo_do wo wn_do wn bo_do bo bn_do bn at hr
  split_ifs at hr with g1 g2 g3 g4 g5 g6
  · exfalso
    rw [← hr, (cleanup_result _ _ _).1] at h0
    omega
  · exfalso
    rw [← hr] at hb
    exact hb ((cleanup_result _ _ _).2.1 g2)
  · exfalso
    rw [← hr] at hb h0
    rw [(cleanup_result _ _ _).1] at h0
    rcases g3.2 with h | h
    · omega
    · exact hb ((cleanup_result _ _ _).2.1 h)
  · exfalso
    rw [← hr, (cleanup_result _ _ _).1] at h0
    have := g4.2
    omega
  · exfalso
    rw [← hr] at hb h0
    rw [(cleanup_result _ _ _).1] at h0
    rcases g5.2 with h | h
    · omega
    · exact hb ((cleanup_result _ _ _).2.1 h)
  · exfalso
    rw [← hr] at hb h0
    rw [(cleanup_result _ _ _).1] at h0
    rcases g6.2 with h | h
    · omega
    · exact hb ((cleanup_result _ _ _).2.1 h)
  · have hp0 : 0 ≤ p.1 := by
      by_cases hpp : ctxt.prepped = false
      · by_contra hlt
        exact g1 ⟨hpp, by omega⟩
      · have : p = (0, ctxt, delta) := if_neg hpp
        rw [this]
    have hwo : 0 ≤ wo.1 := by
      by_cases hdo : wo_do
      · by_contra hlt
        exact g3 ⟨hdo, Or.inl (by omega)⟩
      · have : wo = (error, c0, d0) := if_neg hdo
        rw [this]
        exact hp0
    have hwn : 0 ≤ wn.1 := by
      by_cases hdo : wn_do
      · by_contra hlt
        exact g4 ⟨hdo, by omega⟩
      · have : wn = wo := if_neg hdo
        rw [this]
        exact hwo
    have hbo : 0 ≤ bo.1 := by
      by_cases hdo : bo_do
      · by_contra hlt
        exact g5 ⟨hdo, Or.inl (by omega)⟩
      · have : bo = wn := if_neg hdo
        rw [this]
        exact hwn
    have hbn : 0 ≤ bn.1 := by
      by_cases hdo : bn_do
      · by_contra hlt
        exact g6 ⟨hdo, Or.inl (by omega)⟩
      · have : bn = bo := if_neg hdo
        rw [this]
        exact hbo
    have hfin : bn.2.2.binary ≠ 1 := by
      intro h1
      apply hb
      rw [← hr]
      unfold diff_delta_load_finish
      dsimp only
      split_ifs
      · exact (cleanup_result _ _ _).2.1 h1
      · exact (cleanup_result _ _ _).2.1 h1
    refine ⟨hr.symm, hwo, hwn, hbo, ?_, hbn, hfin⟩
    intro hdo h1
    exact g5 ⟨hdo, Or.inr h1⟩

theorem attr_file_ident (env : Env) (f : git_diff_file) :
    (update_file_is_binary_by_attr env f).2.ident = f.ident := by
  unfold update_file_is_binary_by_attr
  dsimp only
  split_ifs
  · rfl
  · rfl
  · cases (env.attr_get (f.path.getD [])).2 <;> rfl

theorem by_attr_frame (env : Env) (opts : git_diff_options) (d : git_diff_delta) :
    (diff_delta_is_binary_by_attr env opts d).2.status = d.status ∧
    (diff_delta_is_binary_by_attr env opts d).2.old_file.ident = d.old_file.ident ∧
    (diff_delta_is_binary_by_attr env opts d).2.new_file.ident = d.new_file.ident := by
  unfold diff_delta_is_binary_by_attr
  dsimp only
  split_ifs
  · exact ⟨rfl, rfl, rfl⟩
  · exact ⟨rfl, attr_file_ident env d.old_file, rfl⟩
  · rw [update_delta_is_binary_status, (update_delta_is_binary_files _).1,
      (update_delta_is_binary_files _).2]
    exact ⟨rfl, attr_file_ident env d.old_file, rfl⟩
  · rw [update_delta_is_binary_status, (update_delta_is_binary_files _).1,
      (update_delta_is_binary_files _).2]
    exact ⟨rfl, attr_file_ident env d.old_file, attr_file_ident env d.new_file⟩

theorem prep_frame (env : Env) (c : diff_delta_context) (d : git_diff_delta) :
    (diff_delta_prep env c d).2.1.opts = c.opts ∧
    (diff_delta_prep env c d).2.1.old_src = c.old_src ∧
    (diff_delta_prep env c d).2.1.new_src = c.new_src ∧
    (diff_delta_prep env c d).2.2.status = d.status ∧
    (diff_delta_prep env c d).2.2.old_file.ident = d.old_file.ident ∧
    (diff_delta_prep env c d).2.2.new_file.ident = d.new_file.ident := by
  unfold diff_delta_prep
  split_ifs
  · exact ⟨rfl, rfl, rfl, rfl, rfl, rfl⟩
  · exact ⟨rfl, rfl, rfl, by_attr_frame env c.opts d⟩

theorem no_data_frame (d : git_diff_delta) :
    (diff_delta_load_no_data d).status = d.status ∧
    (diff_delta_load_no_data d).old_file.oid = d.old_file.oid ∧
    (diff_delta_load_no_data d).old_file.mode = d.old_file.mode ∧
    (diff_delta_load_no_data d).old_file.flags.VALID_OID = d.old_file.flags.VALID_OID ∧
    (diff_delta_load_no_data d).new_file.oid = d.new_file.oid ∧
    (diff_delta_load_no_data d).new_file.mode = d.new_file.mode ∧
    (diff_delta_load_no_data d).new_file.flags.VALID_OID = d.new_file.flags.VALID_OID ∧
    (d.status = git_delta_t.MODIFIED → diff_delta_load_no_data d = d) := by
  unfold diff_delta_load_no_data
  cases hs : d.status <;> simp [hs]

theorem load_start_frame (env : Env) (c : diff_delta_context) (d : git_diff_delta) :
    (load_start env c d).2.1.opts = c.opts ∧
    (load_start env c d).2.1.old_src = c.old_src ∧
    (load_start env c d).2.1.new_src = c.new_src ∧
    (load_start env c d).2.2.status = d.status ∧
    (load_start env c d).2.2.old_file.oid = d.old_file.oid ∧
    (load_start env c d).2.2.old_file.mode = d.old_file.mode ∧
    (load_start env c d).2.2.old_file.flags.VALID_OID = d.old_file.flags.VALID_OID ∧
    (load_start env c d).2.2.new_file.oid = d.new_file.oid ∧
    (load_start env c d).2.2.new_file.mode = d.new_file.mode ∧
    (load_start env c d).2.2.new_file.flags.VALID_OID = d.new_file.flags.VALID_OID ∧
    (d.status = git_delta_t.MODIFIED →
      (load_start env c d).2.2.old_file.flags.NO_DATA = d.old_file.flags.NO_DATA ∧
      (load_start env c d).2.2.new_file.flags.NO_DATA = d.new_file.flags.NO_DATA) := by
  have hp : ∀ p : Int × diff_delta_context × git_diff_delta,
      p = (if c.prepped = false then diff_delta_prep env c d else (0, c, d)) →
      p.2.1.opts = c.opts ∧ p.2.1.old_src = c.old_src ∧ p.2.1.new_src = c.new_src ∧
      p.2.2.status = d.status ∧ p.2.2.old_file.ident = d.old_file.ident ∧
      p.2.2.new_file.ident = d.new_file.ident := by
    intro p hp
    rw [hp]
    split_ifs
    · exact prep_frame env c d
    · exact ⟨rfl, rfl, rfl, rfl, rfl, rfl⟩
  obtain ⟨p1, p2, p3, p4, p5, p6⟩ := hp _ rfl
  rw [ident_eq_iff] at p5 p6
  unfold load_start
  dsimp only
  generalize (if c.prepped = false then diff_delta_prep env c d else (0, c, d)) = p
    at p1 p2 p3 p4 p5 p6 ⊢
  obtain ⟨n1, n2, n3, n4, n5, n6, n7, n8⟩ := no_data_frame p.2.2
  refine ⟨p1, p2, p3, n1.trans p4, n2.trans p5.1, n3.trans p5.2.1, n4.trans p5.2.2.1,
    n5.trans p6.1, n6.trans p6.2.1, n7.trans p6.2.2.1, ?_⟩
  intro hm
  rw [n8 (p4.trans hm)]
  exact ⟨p5.2.2.2, p6.2.2.2⟩

theorem finish_result (chk : Bool) (e : Int) (c : diff_delta_context) (d : git_diff_delta) :
    (diff_delta_load_finish chk e c d).1 = e ∧
    (diff_delta_load_finish chk e c d).2.2.old_file = d.old_file ∧
    (diff_delta_load_finish chk e c d).2.2.new_file = d.new_file ∧
    (diff_delta_load_finish chk e c d).2.1.old_data = c.old_data ∧
    (diff_delta_load_finish chk e c d).2.1.new_data = c.new_data ∧
    (diff_delta_load_finish chk e c d).2.2.status =
      (if chk = true ∧ d.old_file.mode = d.new_file.mode ∧ d.old_file.oid = d.new_file.oid
        then git_delta_t.UNMODIFIED else d.status) := by
  unfold diff_delta_load_finish
  dsimp only
  obtain ⟨c1, _, c3, c4, c5, c6, c7⟩ := cleanup_result e c
    (if chk = true ∧ d.old_file.mode = d.new_file.mode ∧ d.old_file.oid = d.new_file.oid
      then { d with status := git_delta_t.UNMODIFIED } else d)
  rw [c1, c3, c4, c5, c6, c7]
  split_ifs <;> exact ⟨rfl, rfl, rfl, rfl, rfl, rfl⟩

theorem load_workdir_frame (env : Env) (file : side)
    (s : Int × diff_delta_context × git_diff_delta) :
    (load_workdir env file s).2.1.old_src = s.2.1.old_src ∧
    (load_workdir env file s).2.1.new_src = s.2.1.new_src ∧
    (load_workdir env file s).2.1.map file.other = s.2.1.map file.other ∧
    (load_workdir env file s).2.2.file file.other = s.2.2.file file.other ∧
    ((load_workdir env file s).2.2.file file).flags.NO_DATA =
      (s.2.2.file file).flags.NO_DATA := by
  unfold load_workdir
  split_ifs
  · obtain ⟨_, a2, a3, a4, _, a6, _, a8⟩ := workdir_frame env s.2.1 s.2.2 file
    exact ⟨a2, a3, a4, a6, a8⟩
  · exact ⟨rfl, rfl, rfl, rfl, rfl⟩

theorem load_blob_frame (env : Env) (file : side)
    (s : Int × diff_delta_context × git_diff_delta) :
    (load_blob env file s).2.1.old_src = s.2.1.old_src ∧
    (load_blob env file s).2.1.new_src = s.2.1.new_src ∧
    (load_blob env file s).2.1.map file.other = s.2.1.map file.other ∧
    (load_blob env file s).2.2.file file.other = s.2.2.file file.other ∧
    ((load_blob env file s).2.2.file file).ident = (s.2.2.file file).ident := by
  unfold load_blob
  split_ifs
  · obtain ⟨_, a2, a3, a4, _, a6, a7⟩ := blob_frame env s.2.1 s.2.2 file
    exact ⟨a2, a3, a4, a6, a7⟩
  · exact ⟨rfl, rfl, rfl, rfl, rfl⟩

theorem load_workdir_oid (env : Env) (file : side)
    (s : Int × diff_delta_context × git_diff_delta) (hcodes : env.codes_ok)
    (h0 : 0 ≤ (load_workdir env file s).1)
    (hnd : (s.2.2.file file).flags.NO_DATA = false)
    (hsrc : s.2.1.src file = git_iterator_type_t.WORKDIR) :
    ((load_workdir env file s).2.2.file file).flags.VALID_OID = true ∧
    ((s.2.2.file file).flags.VALID_OID = false →
      ((load_workdir env file s).2.2.file file).oid =
        (env.odb_hash ((load_workdir env file s).2.1.map file).data
          ((load_workdir env file s).2.1.map file).len).2) := by
  have hrun : load_workdir env file s = get_workdir_content env s.2.1 s.2.2 file := by
    unfold load_workdir
    rw [if_pos ⟨hnd, hsrc⟩]
  rw [hrun] at h0 ⊢
  have hle := workdir_code env s.2.1 s.2.2 file hcodes
  obtain ⟨a1, a2, _⟩ := workdir_oid env s.2.1 s.2.2 file hcodes (by omega)
  exact ⟨a1, a2⟩

theorem load_blob_map (env : Env) (file : side)
    (s : Int × diff_delta_context × git_diff_delta) (hcodes : env.codes_ok)
    (h0 : 0 ≤ (load_blob env file s).1)
    (hb : (load_blob env file s).2.2.binary ≠ 1)
    (hnd : (s.2.2.file file).flags.NO_DATA = false)
    (hsrc : s.2.1.src file ≠ git_iterator_type_t.WORKDIR)
    (hoid : (s.2.2.file file).oid ≠ 0) :
    (env.blob_lookup (s.2.2.file file).oid).1 = 0 ∧
    (load_blob env file s).2.1.map file =
      ⟨(env.blob_lookup (s.2.2.file file).oid).2,
        (env.blob_lookup (s.2.2.file file).oid).2.length⟩ := by
  have hrun : load_blob env file s = get_blob_content env s.2.1 s.2.2 file := by
    unfold load_blob
    rw [if_pos ⟨hnd, hsrc⟩]
  rw [hrun] at h0 hb ⊢
  have hle := blob_code env s.2.1 s.2.2 file hcodes
  exact blob_map env s.2.1 s.2.2 file (by omega) hb hoid

theorem load_workdir_skip (env : Env) (file : side)
    (s : Int × diff_delta_context × git_diff_delta)
    (hsrc : s.2.1.src file ≠ git_iterator_type_t.WORKDIR) :
    load_workdir env file s = s := by
  unfold load_workdir
  rw [if_neg (fun h => hsrc h.2)]

theorem load_blob_skip (env : Env) (file : side)
    (s : Int × diff_delta_context × git_diff_delta)
    (hsrc : s.2.1.src file = git_iterator_type_t.WORKDIR) :
    load_blob env file s = s := by
  unfold load_blob
  rw [if_neg (fun h => h.2 hsrc)]

theorem load_guard_open (env : Env) (ctxt : diff_delta_context) (delta : git_diff_delta)
    (hl : ctxt.loaded = false)
    (hld : (diff_delta_load env ctxt delta).2.1.loaded = true) :
    ¬ (ctxt.loaded = true ∨ ctxt.delta = none) := by
  intro hg
  have hret : diff_delta_load env ctxt delta = (0, ctxt, delta) := by
    unfold diff_delta_load
    rw [if_pos hg]
  rw [hret] at hld
  have hld' : ctxt.loaded = true := hld
  rw [hl] at hld'
  exact absurd hld' (by decide)

theorem load_side_old (env : Env) (ctxt : diff_delta_context) (delta : git_diff_delta)
    (hcodes : env.codes_ok) (hl : ctxt.loaded = false)
    (h0 : (diff_delta_load env ctxt delta).1 = 0)
    (hld : (diff_delta_load env ctxt delta).2.1.loaded = true)
    (hb : (diff_delta_load env ctxt delta).2.2.binary ≠ 1)
    (hnd : (diff_delta_load env ctxt delta).2.2.old_file.flags.NO_DATA = false) :
    (ctxt.old_src = git_iterator_type_t.WORKDIR →
      (diff_delta_load env ctxt delta).2.2.old_file.flags.VALID_OID = true ∧
      (delta.old_file.flags.VALID_OID = false →
        (diff_delta_load env ctxt delta).2.2.old_file.oid =
          (env.odb_hash (diff_delta_load env ctxt delta).2.1.old_data.data
            (diff_delta_load env ctxt delta).2.1.old_data.len).2)) ∧
    (ctxt.old_src ≠ git_iterator_type_t.WORKDIR →
      (diff_delta_load env ctxt delta).2.2.old_file.oid = delta.old_file.oid ∧
      (diff_delta_load env ctxt delta).2.2.old_file.flags.VALID_OID =
        delta.old_file.flags.VALID_OID ∧
      (delta.old_file.oid ≠ 0 →
        (env.blob_lookup delta.old_file.oid).1 = 0 ∧
        (diff_delta_load env ctxt delta).2.1.old_data =
          ⟨(env.blob_lookup delta.old_file.oid).2,
            (env.blob_lookup delta.old_file.oid).2.length⟩)) := by
  have hg := load_guard_open env ctxt delta hl hld
  obtain ⟨hform, w1, w2, b1, b1b, b2, b2b⟩ :=
    load_success_form env ctxt delta hg (by omega) hb
  obtain ⟨_, s2, _, _, s5, _, s7, _⟩ := load_start_frame env ctxt delta
  rw [hform] at hnd ⊢
  obtain ⟨_, f2, _, f4, _, _⟩ := finish_result
    (load_check (load_start env ctxt delta).2.2)
    (load_blob env side.new (load_blob env side.old (load_workdir env side.new
      (load_workdir env side.old (load_start env ctxt delta))))).1
    (load_blob env side.new (load_blob env side.old (load_workdir env side.new
      (load_workdir env side.old (load_start env ctxt delta))))).2.1
    (load_blob env side.new (load_blob env side.old (load_workdir env side.new
      (load_workdir env side.old (load_start env ctxt delta))))).2.2
  rw [f2] at hnd
  rw [f2, f4]
  generalize load_start env ctxt delta = S0 at *
  have A := load_workdir_frame env side.old S0
  have A1 := load_workdir_oid env side.old S0 hcodes w1
  have A2 := load_workdir_skip env side.old S0
  generalize load_workdir env side.old S0 = S1 at *
  have B := load_workdir_frame env side.new S1
  generalize load_workdir env side.new S1 = S2 at *
  have C := load_blob_frame env side.old S2
  have C1 := load_blob_map env side.old S2 hcodes b1
  have C2 := load_blob_skip env side.old S2
  generalize load_blob env side.old S2 = S3 at *
  have D := load_blob_frame env side.new S3
  generalize load_blob env side.new S3 = S4 at *
  simp only [side.other, git_diff_delta.file, diff_delta_context.map,
    diff_delta_context.src, ident_eq_iff] at A A1 A2 B C C1 C2 D
  obtain ⟨a1, a2, a3, a4, a5⟩ := A
  obtain ⟨bb1, bb2, bb3, bb4, bb5⟩ := B
  obtain ⟨c1, c2, c3, c4, c5, c6, c7, c8⟩ := C
  obtain ⟨d1, d2, d3, d4, d5⟩ := D
  rw [d4] at hnd ⊢
  rw [d3]
  constructor
  · intro hw
    have hS2 : S2.2.1.old_src = git_iterator_type_t.WORKDIR := by
      rw [bb1, a1, s2]; exact hw
    rw [C2 hS2] at hnd ⊢
    rw [bb4] at hnd ⊢
    rw [bb3]
    rw [a5] at hnd
    obtain ⟨e1, e2⟩ := A1 hnd (by rw [s2]; exact hw)
    refine ⟨e1, fun hv => e2 ?_⟩
    rw [s7]; exact hv
  · intro hw
    have hS0 : S0.2.1.old_src ≠ git_iterator_type_t.WORKDIR := by
      rw [s2]; exact hw
    have hS2 : S2.2.1.old_src ≠ git_iterator_type_t.WORKDIR := by
      rw [bb1, a1, s2]; exact hw
    have h12 : S1 = S0 := A2 hS0
    rw [c5, bb4, h12, s5]
    rw [c7, bb4, h12, s7]
    refine ⟨rfl, rfl, ?_⟩
    intro hoid
    rw [c8, bb4, h12] at hnd
    have hS2o : S2.2.2.old_file.oid ≠ 0 := by
      rw [bb4, h12, s5]; exact hoid
    have hS2n : S2.2.2.old_file.flags.NO_DATA = false := by
      rw [bb4, h12]; exact hnd
    have hm := C1 (b1b ⟨hS2n, hS2⟩) hS2n hS2 hS2o
    rw [bb4, h12, s5] at hm
    exact hm

theorem load_side_new (env : Env) (ctxt : diff_delta_context) (delta : git_diff_delta)
    (hcodes : env.codes_ok) (hl : ctxt.loaded = false)
    (h0 : (diff_delta_load env ctxt delta).1 = 0)
    (hld : (diff_delta_load env ctxt delta).2.1.loaded = true)
    (hb : (diff_delta_load env ctxt delta).2.2.binary ≠ 1)
    (hnd : (diff_delta_load env ctxt delta).2.2.new_file.flags.NO_DATA = false) :
    (ctxt.new_src = git_iterator_type_t.WORKDIR →
      (diff_delta_load env ctxt delta).2.2.new_file.flags.VALID_OID = true ∧
      (delta.new_file.flags.VALID_OID = false →
        (diff_delta_load env ctxt delta).2.2.new_file.oid =
          (env.odb_hash (diff_delta_load env ctxt delta).2.1.new_data.data
            (diff_delta_load env ctxt delta).2.1.new_data.len).2)) ∧
    (ctxt.new_src ≠ git_iterator_type_t.WORKDIR →
      (diff_delta_load env ctxt delta).2.2.new_file.oid = delta.new_file.oid ∧
      (diff_delta_load env ctxt delta).2.2.new_file.flags.VALID_OID =
        delta.new_file.flags.VALID_OID ∧
      (delta.new_file.oid ≠ 0 →
        (env.blob_lookup delta.new_file.oid).1 = 0 ∧
        (diff_delta_load env ctxt delta).2.1.new_data =
          ⟨(env.blob_lookup delta.new_file.oid).2,
            (env.blob_lookup delta.new_file.oid).2.length⟩)) := by
  have hg := load_guard_open env ctxt delta hl hld
  obtain ⟨hform, w1, w2, b1, b1b, b2, b2b⟩ :=
    load_success_form env ctxt delta hg (by omega) hb
  obtain ⟨_, _, s3, _, _, _, _, s8, _, s10, _⟩ := load_start_frame env ctxt delta
  rw [hform] at hnd ⊢
  obtain ⟨_, _, f3, _, f5, _⟩ := finish_result
    (load_check (load_start env ctxt delta).2.2)
    (load_blob env side.new (load_blob env side.old (load_workdir env side.new
      (load_workdir env side.old (load_start env ctxt delta))))).1
    (load_blob env side.new (load_blob env side.old (load_workdir env side.new
      (load_workdir env side.old (load_start env ctxt delta))))).2.1
    (load_blob env side.new (load_blob env side.old (load_workdir env side.new
      (load_workdir env side.old (load_start env ctxt delta))))).2.2
  rw [f3] at hnd
  rw [f3, f5]
  generalize load_start env ctxt delta = S0 at *
  have A := load_workdir_frame env side.old S0
  generalize load_workdir env side.old S0 = S1 at *
  have B := load_workdir_frame env side.new S1
  have B1 := load_workdir_oid env side.new S1 hcodes w2
  have B2 := load_workdir_skip env side.new S1
  generalize load_workdir env side.new S1 = S2 at *
  have C := load_blob_frame env side.old S2
  generalize load_blob env side.old S2 = S3 at *
  have D := load_blob_frame env side.new S3
  have D1 := load_blob_map env side.new S3 hcodes b2 b2b
  have D2 := load_blob_skip env side.new S3
  generalize load_blob env side.new S3 = S4 at *
  simp only [side.other, git_diff_delta.file, diff_delta_context.map,
    diff_delta_context.src, ident_eq_iff] at A B B1 B2 C D D1 D2
  obtain ⟨a1, a2, a3, a4, a5⟩ := A
  obtain ⟨bb1, bb2, bb3, bb4, bb5⟩ := B
  obtain ⟨c1, c2, c3, c4, c5⟩ := C
  obtain ⟨d1, d2, d3, d4, d5, d6, d7, d8⟩ := D
  constructor
  · intro hw
    have hS1 : S1.2.1.new_src = git_iterator_type_t.WORKDIR := by
      rw [a2, s3]; exact hw
    have hS3 : S3.2.1.new_src = git_iterator_type_t.WORKDIR := by
      rw [c2, bb2, a2, s3]; exact hw
    rw [D2 hS3] at hnd ⊢
    rw [c4] at hnd ⊢
    rw [c3]
    rw [bb5] at hnd
    obtain ⟨e1, e2⟩ := B1 hnd hS1
    refine ⟨e1, fun hv => e2 ?_⟩
    rw [a4, s10]; exact hv
  · intro hw
    have hS1 : S1.2.1.new_src ≠ git_iterator_type_t.WORKDIR := by
      rw [a2, s3]; exact hw
    have hS3 : S3.2.1.new_src ≠ git_iterator_type_t.WORKDIR := by
      rw [c2, bb2, a2, s3]; exact hw
    have h21 : S2 = S1 := B2 hS1
    rw [d5, c4, h21, a4, s8]
    rw [d7, c4, h21, a4, s10]
    refine ⟨rfl, rfl, ?_⟩
    intro hoid
    rw [d8, c4, h21, a4] at hnd
    have hS3o : S3.2.2.new_file.oid ≠ 0 := by
      rw [c4, h21, a4, s8]; exact hoid
    have hS3n : S3.2.2.new_file.flags.NO_DATA = false := by
      rw [c4, h21, a4]; exact hnd
    have hm := D1 hS3n hS3 hS3o
    rw [c4, h21, a4, s8] at hm
    exact hm

/-! ## Object ids after a load -/

/-- C16 (as stated, refuted): the load of the binary delta of a tree-to-tree list returns 0
and marks the context loaded, but stops at the old side once the verdict is yes: the new
side, which carries no `NO_DATA`, has the id 4 while its content map holds no bytes, whose
hash is another id.  And the load of the ambiguous delta of a tree-to-workdir list
succeeds with the old side, read from the object database, carrying neither `NO_DATA` nor
`VALID_OID`. -/
theorem load_leaves_side_without_content :
    (diff_delta_load sample_env ctxt_fresh delta_binary).1 = 0 ∧
    (diff_delta_load sample_env ctxt_fresh delta_binary).2.1.loaded = true ∧
    (diff_delta_load sample_env ctxt_fresh delta_binary).2.2.new_file.flags.NO_DATA = false ∧
    (diff_delta_load sample_env ctxt_fresh delta_binary).2.2.new_file.oid = 4 ∧
    (diff_delta_load sample_env ctxt_fresh delta_binary).2.1.new_data = empty_map ∧
    (sample_env.odb_hash
      (diff_delta_load sample_env ctxt_fresh delta_binary).2.1.new_data.data
      (diff_delta_load sample_env ctxt_fresh delta_binary).2.1.new_data.len).2 ≠ 4 ∧
    (diff_delta_load sample_env ctxt_workdir delta_ambiguous).1 = 0 ∧
    (diff_delta_load sample_env ctxt_workdir delta_ambiguous).2.1.loaded = true ∧
    (diff_delta_load sample_env ctxt_workdir delta_ambiguous).2.2.old_file.flags.NO_DATA
      = false ∧
    (diff_delta_load sample_env ctxt_workdir delta_ambiguous).2.2.old_file.flags.VALID_OID
      = false := by
  decide

theorem sample_env_codes_ok : sample_env.codes_ok :=
  ⟨fun _ _ => le_refl 0, fun _ _ => le_refl 0, fun _ _ => le_refl 0, fun _ _ => le_refl 0,
    fun _ => le_refl 0⟩

/-- C16 (amended): after a successful `diff_delta_load` (result 0, context marked loaded)
that starts from a context not marked loaded and ends with a verdict other than yes, the
collaborators returning 0 or a negative code, a side that does not carry `NO_DATA`
satisfies: if it lives in the working directory it carries `VALID_OID`, and its id is the
blob hash of the bytes held in its content map if it did not carry `VALID_OID` before the
load; otherwise it keeps the id and the `VALID_OID` flag it had before the load and, when
that id is not zero, its content map holds the content of the blob of that id. -/
theorem load_oid_of_loaded_side (env : Env) (ctxt : diff_delta_context)
    (delta : git_diff_delta) (file : side) (hcodes : env.codes_ok)
    (hl : ctxt.loaded = false)
    (h0 : (diff_delta_load env ctxt delta).1 = 0)
    (hld : (diff_delta_load env ctxt delta).2.1.loaded = true)
    (hb : (diff_delta_load env ctxt delta).2.2.binary ≠ 1)
    (hnd : ((diff_delta_load env ctxt delta).2.2.file file).flags.NO_DATA = false) :
    (ctxt.src file = git_iterator_type_t.WORKDIR →
      ((diff_delta_load env ctxt delta).2.2.file file).flags.VALID_OID = true ∧
      ((delta.file file).flags.VALID_OID = false →
        ((diff_delta_load env ctxt delta).2.2.file file).oid =
          (env.odb_hash ((diff_delta_load env ctxt delta).2.1.map file).data
            ((diff_delta_load env ctxt delta).2.1.map file).len).2)) ∧
    (ctxt.src file ≠ git_iterator_type_t.WORKDIR →
      ((diff_delta_load env ctxt delta).2.2.file file).oid = (delta.file file).oid ∧
      ((diff_delta_load env ctxt delta).2.2.file file).flags.VALID_OID =
        (delta.file file).flags.VALID_OID ∧
      ((delta.file file).oid ≠ 0 →
        (env.blob_lookup (delta.file file).oid).1 = 0 ∧
        (diff_delta_load env ctxt delta).2.1.map file =
          ⟨(env.blob_lookup (delta.file file).oid).2,
            (env.blob_lookup (delta.file file).oid).2.length⟩)) := by
  cases file
  · exact load_side_old env ctxt delta hcodes hl h0 hld hb hnd
  · exact load_side_new env ctxt delta hcodes hl h0 hld hb hnd

theorem load_oid_of_loaded_side_witness :
    ctxt_workdir.loaded = false ∧
    (diff_delta_load sample_env ctxt_workdir delta_ambiguous).1 = 0 ∧
    ((diff_delta_load sample_env ctxt_workdir delta_ambiguous).2.2.file side.new).flags.VALID_OID
      = true ∧
    ((diff_delta_load sample_env ctxt_workdir delta_ambiguous).2.2.file side.new).oid =
      (sample_env.odb_hash
        ((diff_delta_load sample_env ctxt_workdir delta_ambiguous).2.1.map side.new).data
        ((diff_delta_load sample_env ctxt_workdir delta_ambiguous).2.1.map side.new).len).2 :=
  ⟨by decide, by decide,
    ((load_oid_of_loaded_side sample_env ctxt_workdir delta_ambiguous side.new
      sample_env_codes_ok (by decide) (by decide) (by decide) (by decide) (by decide)).1
      (by decide)).1,
    ((load_oid_of_loaded_side sample_env ctxt_workdir delta_ambiguous side.new
      sample_env_codes_ok (by decide) (by decide) (by decide) (by decide) (by decide)).1
      (by decide)).2 (by decide)⟩

/-! ## Resolution of an ambiguous delta -/

theorem load_workdir_keep (env : Env) (file : side)
    (s : Int × diff_delta_context × git_diff_delta) :
    (load_workdir env file s).2.1.opts = s.2.1.opts ∧
    (load_workdir env file s).2.2.old_file.mode = s.2.2.old_file.mode ∧
    (load_workdir env file s).2.2.new_file.mode = s.2.2.new_file.mode := by
  unfold load_workdir
  split_ifs
  · obtain ⟨a1, _, _, _, _, a6, a7, _⟩ := workdir_frame env s.2.1 s.2.2 file
    cases file
    · simp only [side.other, git_diff_delta.file] at a6 a7
      exact ⟨a1, a7, by rw [a6]⟩
    · simp only [side.other, git_diff_delta.file] at a6 a7
      exact ⟨a1, by rw [a6], a7⟩
  · exact ⟨rfl, rfl, rfl⟩

theorem load_blob_keep (env : Env) (file : side)
    (s : Int × diff_delta_context × git_diff_delta) :
    (load_blob env file s).2.1.opts = s.2.1.opts ∧
    (load_blob env file s).2.2.old_file.mode = s.2.2.old_file.mode ∧
    (load_blob env file s).2.2.new_file.mode = s.2.2.new_file.mode := by
  unfold load_blob
  split_ifs
  · obtain ⟨a1, _, _, _, _, a6, a7⟩ := blob_frame env s.2.1 s.2.2 file
    rw [ident_eq_iff] at a7
    cases file
    · simp only [side.other, git_diff_delta.file] at a6 a7
      exact ⟨a1, a7.2.1, by rw [a6]⟩
    · simp only [side.other, git_diff_delta.file] at a6 a7
      exact ⟨a1, by rw [a6], a7.2.1⟩
  · exact ⟨rfl, rfl, rfl⟩

theorem finish_opts (chk : Bool) (e : Int) (c : diff_delta_context) (d : git_diff_delta) :
    (diff_delta_load_finish chk e c d).2.1.opts = c.opts := by
  unfold diff_delta_load_finish diff_delta_load_cleanup
  dsimp only
  split_ifs <;> rfl

theorem load_unmodified (env : Env) (ctxt : diff_delta_context) (delta : git_diff_delta)
    (hl : ctxt.loaded = false)
    (hs : delta.status = git_delta_t.MODIFIED)
    (hfo : delta.old_file.flags.NO_DATA = false ∧ delta.old_file.flags.VALID_OID = false)
    (hfn : delta.new_file.flags.NO_DATA = false ∧ delta.new_file.flags.VALID_OID = false)
    (hm : delta.old_file.mode = delta.new_file.mode)
    (h0 : (diff_delta_load env ctxt delta).1 = 0)
    (hld : (diff_delta_load env ctxt delta).2.1.loaded = true)
    (hb : (diff_delta_load env ctxt delta).2.2.binary ≠ 1)
    (ho : (diff_delta_load env ctxt delta).2.2.old_file.oid =
      (diff_delta_load env ctxt delta).2.2.new_file.oid) :
    (diff_delta_load env ctxt delta).2.2.status = git_delta_t.UNMODIFIED ∧
    (diff_delta_load env ctxt delta).2.1.opts = ctxt.opts := by
  have hg := load_guard_open env ctxt delta hl hld
  obtain ⟨hform, _, _, _, _, _, _⟩ := load_success_form env ctxt delta hg (by omega) hb
  obtain ⟨s1, _, _, _, _, s6, s7, _, s9, s10, s11⟩ := load_start_frame env ctxt delta
  obtain ⟨n1, n2⟩ := s11 hs
  have hchk : load_check (load_start env ctxt delta).2.2 = true := by
    unfold load_check
    rw [n1, n2, s7, s10, hfo.1, hfo.2, hfn.1, hfn.2]
    rfl
  rw [hform] at ho ⊢
  rw [hchk] at ho ⊢
  obtain ⟨_, f2, f3, _, _, f6⟩ := finish_result true
    (load_blob env side.new (load_blob env side.old (load_workdir env side.new
      (load_workdir env side.old (load_start env ctxt delta))))).1
    (load_blob env side.new (load_blob env side.old (load_workdir env side.new
      (load_workdir env side.old (load_start env ctxt delta))))).2.1
    (load_blob env side.new (load_blob env side.old (load_workdir env side.new
      (load_workdir env side.old (load_start env ctxt delta))))).2.2
  rw [f2, f3] at ho
  rw [f6, finish_opts]
  generalize load_start env ctxt delta = S0 at *
  obtain ⟨a1, a2, a3⟩ := load_workdir_keep env side.old S0
  generalize load_workdir env side.old S0 = S1 at *
  obtain ⟨b1, b2, b3⟩ := load_workdir_keep env side.new S1
  generalize load_workdir env side.new S1 = S2 at *
  obtain ⟨c1, c2, c3⟩ := load_blob_keep env side.old S2
  generalize load_blob env side.old S2 = S3 at *
  obtain ⟨d1, d2, d3⟩ := load_blob_keep env side.new S3
  generalize load_blob env side.new S3 = S4 at *
  have hmode : S4.2.2.old_file.mode = S4.2.2.new_file.mode := by
    rw [d2, d3, c2, c3, b2, b3, a2, a3, s6, s9]
    exact hm
  rw [if_pos ⟨rfl, hmode, ho⟩]
  refine ⟨rfl, ?_⟩
  rw [d1, c1, b1, a1, s1]

/-- C13 (as stated, refuted): three Modified deltas of a tree-to-workdir list whose sides
have equal modes and, after a successful load, equal ids, and for each of which
`git_diff_foreach` without `INCLUDE_UNMODIFIED` calls the file callback.  The first
carries `VALID_OID` on its old side: the load leaves it `MODIFIED`.  The second is
binary: the load stops at the verdict yes and leaves it `MODIFIED`.  The third has a
non-zero new id that is not definitive: the load rewrites it to `UNMODIFIED`, but the
traversal tests the status before that load. -/
theorem same_content_stays_modified :
    ((diff_delta_load sample_env ctxt_workdir delta_same_content).1 = 0 ∧
      delta_same_content.old_file.mode = delta_same_content.new_file.mode ∧
      (diff_delta_load sample_env ctxt_workdir delta_same_content).2.2.old_file.oid =
        (diff_delta_load sample_env ctxt_workdir delta_same_content).2.2.new_file.oid ∧
      (diff_delta_load sample_env ctxt_workdir delta_same_content).2.2.status =
        git_delta_t.MODIFIED ∧
      (git_diff_foreach sample_env diff_same_content ((), [])
        (some (traced_file_cb ok_file_cb)) none none).data.2 =
        [cb_event.file (diff_delta_load sample_env ctxt_workdir delta_same_content).2.2
          0 1 0]) ∧
    ((diff_delta_load binary_env ctxt_workdir delta_same_binary).1 = 0 ∧
      delta_same_binary.old_file.mode = delta_same_binary.new_file.mode ∧
      (diff_delta_load binary_env ctxt_workdir delta_same_binary).2.2.old_file.oid =
        (diff_delta_load binary_env ctxt_workdir delta_same_binary).2.2.new_file.oid ∧
      (diff_delta_load binary_env ctxt_workdir delta_same_binary).2.2.binary = 1 ∧
      (diff_delta_load binary_env ctxt_workdir delta_same_binary).2.2.status =
        git_delta_t.MODIFIED ∧
      (git_diff_foreach binary_env diff_same_binary ((), [])
        (some (traced_file_cb ok_file_cb)) none none).data.2 =
        [cb_event.file (diff_delta_load binary_env ctxt_workdir delta_same_binary).2.2
          0 1 0]) ∧
    ((diff_delta_load sample_env ctxt_workdir delta_stale_oid).1 = 0 ∧
      delta_stale_oid.old_file.mode = delta_stale_oid.new_file.mode ∧
      (diff_delta_load sample_env ctxt_workdir delta_stale_oid).2.2.old_file.oid =
        (diff_delta_load sample_env ctxt_workdir delta_stale_oid).2.2.new_file.oid ∧
      (diff_delta_load sample_env ctxt_workdir delta_stale_oid).2.2.status =
        git_delta_t.UNMODIFIED ∧
      (git_diff_foreach sample_env diff_stale_oid ((), [])
        (some (traced_file_cb ok_file_cb)) none none).data.2 =
        [cb_event.file (diff_delta_load sample_env ctxt_workdir delta_stale_oid).2.2
          0 1 0]) := by
  decide

/-- C13 (amended): for every delta with status Modified neither side of which carries
`NO_DATA` or `VALID_OID`, whose two sides have equal modes and, after a successful load
that starts from a context not marked loaded and ends with a verdict other than yes,
equal ids, the load rewrites the status to `UNMODIFIED`; if moreover the new id of the
delta is zero, the body of the loop of `git_diff_foreach` without `INCLUDE_UNMODIFIED`
ends in `continue` for it with the user data and the log of callbacks unchanged: no
callback is called. -/
theorem ambiguous_resolves_unmodified {σ : Type} (env : Env)
    (file_cb : Option (git_diff_file_fn σ)) (hunk_cb : Option (git_diff_hunk_fn σ))
    (line_cb : Option (git_diff_data_fn σ)) (total idx : Nat) (error : Int)
    (ctxt : diff_delta_context) (delta : git_diff_delta) (data : σ × List cb_event)
    (hl : ctxt.loaded = false)
    (hs : delta.status = git_delta_t.MODIFIED)
    (hfo : delta.old_file.flags.NO_DATA = false ∧ delta.old_file.flags.VALID_OID = false)
    (hfn : delta.new_file.flags.NO_DATA = false ∧ delta.new_file.flags.VALID_OID = false)
    (hm : delta.old_file.mode = delta.new_file.mode)
    (h0 : (diff_delta_load env { ctxt with delta := some idx } delta).1 = 0)
    (hld : (diff_delta_load env { ctxt with delta := some idx } delta).2.1.loaded = true)
    (hb : (diff_delta_load env { ctxt with delta := some idx } delta).2.2.binary ≠ 1)
    (ho : (diff_delta_load env { ctxt with delta := some idx } delta).2.2.old_file.oid =
      (diff_delta_load env { ctxt with delta := some idx } delta).2.2.new_file.oid) :
    (diff_delta_load env { ctxt with delta := some idx } delta).2.2.status =
      git_delta_t.UNMODIFIED ∧
    (delta.new_file.oid = 0 → ctxt.opts.flags.INCLUDE_UNMODIFIED = false →
      (foreach_body env (file_cb.map traced_file_cb) (hunk_cb.map traced_hunk_cb)
        (line_cb.map traced_line_cb) total idx error ctxt delta data).1 = true ∧
      (foreach_body env (file_cb.map traced_file_cb) (hunk_cb.map traced_hunk_cb)
        (line_cb.map traced_line_cb) total idx error ctxt delta data).2.2.2.2 = data) := by
  obtain ⟨hst, hopts⟩ := load_unmodified env { ctxt with delta := some idx } delta hl hs
    hfo hfn hm h0 hld hb ho
  refine ⟨hst, ?_⟩
  intro hoid hinc
  have hamb : diff_delta_is_ambiguous delta = true := by
    unfold diff_delta_is_ambiguous
    rw [hoid, hfn.2, hs]
    rfl
  have hopts' : (diff_delta_load env { ctxt with delta := some idx } delta).2.1.opts
      = ctxt.opts := hopts
  have hskip : diff_delta_should_skip
      (diff_delta_load env { ctxt with delta := some idx } delta).2.1.opts
      (diff_delta_load env { ctxt with delta := some idx } delta).2.2 = true := by
    unfold diff_delta_should_skip
    rw [hopts', if_pos ⟨hst, hinc⟩]
  unfold foreach_body
  dsimp only
  generalize diff_delta_load env { ctxt with delta := some idx } delta = L
    at h0 hskip ⊢
  have hneg : ¬ (diff_delta_is_ambiguous delta = true ∧
      (if diff_delta_is_ambiguous delta = true then L
        else (error, { ctxt with delta := some idx }, delta)).1 < 0) := by
    rw [if_pos hamb, h0]
    intro hh
    exact absurd hh.2 (by decide)
  rw [if_neg hneg]
  simp only [if_pos hamb]
  rw [if_pos hskip]
  exact ⟨rfl, rfl⟩

theorem ambiguous_resolves_unmodified_witness :
    delta_ambiguous.status = git_delta_t.MODIFIED ∧
    (diff_delta_load sample_env
      { diff_delta_init_context_from_diff_list diff_ambiguous with delta := some 0 }
      delta_ambiguous).2.2.status = git_delta_t.UNMODIFIED ∧
    (foreach_body sample_env ((some ok_file_cb).map traced_file_cb)
      ((some ok_hunk_cb).map traced_hunk_cb) ((some ok_line_cb).map traced_line_cb) 2 0 0
      (diff_delta_init_context_from_diff_list diff_ambiguous) delta_ambiguous
      ((), [])).2.2.2.2 = ((), []) :=
  ⟨by decide,
    (ambiguous_resolves_unmodified sample_env (some ok_file_cb) (some ok_hunk_cb)
      (some ok_line_cb) 2 0 0 (diff_delta_init_context_from_diff_list diff_ambiguous)
      delta_ambiguous ((), []) (by decide) (by decide) (by decide) (by decide) (by decide)
      (by decide) (by decide) (by decide) (by decide)).1,
    ((ambiguous_resolves_unmodified sample_env (some ok_file_cb) (some ok_hunk_cb)
      (some ok_line_cb) 2 0 0 (diff_delta_init_context_from_diff_list diff_ambiguous)
      delta_ambiguous ((), []) (by decide) (by decide) (by decide) (by decide) (by decide)
      (by decide) (by decide) (by decide) (by decide)).2 (by decide) (by decide)).2⟩

/-! ## Idempotence of unload and of Exec -/

/-- An unload of a context that is not marked loaded releases nothing: it clears the phase
flags and the `delta` pointer and leaves the deltas as they are. -/
theorem diff_delta_unload_not_loaded (ctxt : diff_delta_context)
    (deltas : List git_diff_delta) (hl : ctxt.loaded = false) :
    diff_delta_unload ctxt deltas =
      some ({ ctxt with diffed := false, delta := none, prepped := false }, deltas) := by
  unfold diff_delta_unload
  dsimp only
  have hne : ¬ (ctxt.loaded = true) := by rw [hl]; decide
  rw [if_neg hne]
  rfl

/-- The unload of a loaded context is defined exactly when the `delta` pointer designates
a delta of the vector. -/
theorem diff_delta_unload_defined (ctxt : diff_delta_context) (deltas : List git_diff_delta)
    (hl : ctxt.loaded = true) :
    (diff_delta_unload ctxt deltas).isSome = true ↔
      ∃ i d, ctxt.delta = some i ∧ deltas[i]? = some d := by
  unfold diff_delta_unload
  dsimp only
  rw [if_pos hl]
  cases hd : ctxt.delta with
  | none => simp
  | some i =>
    cases hg : deltas[i]? with
    | none => simp [hg]
    | some d => simp [hg]

/-- On a context whose `delta` pointer designates the delta `d` at index `i`, the unload
is `diff_delta_unload_attached` on that delta. -/
theorem diff_delta_unload_eq_attached (ctxt : diff_delta_context)
    (deltas : List git_diff_delta) (i : Nat) (d : git_diff_delta)
    (hi : ctxt.delta = some i) (hd : deltas[i]? = some d) :
    diff_delta_unload ctxt deltas =
      some ((diff_delta_unload_attached ctxt d).1,
        deltas.set i (diff_delta_unload_attached ctxt d).2) := by
  unfold diff_delta_unload diff_delta_unload_attached
  dsimp only
  split_ifs with hl
  · simp only [hi, hd, Option.map_some']
  · have hset : deltas.set i d = deltas := by
      apply List.ext_getElem?
      intro n
      by_cases hn : i = n
      · subst hn
        rw [List.getElem?_set_self' , hd]
        simp
      · rw [List.getElem?_set_ne hn]
    simp only [Option.map_some', hset]

/-- Wherever an unload is defined, the phase flags `prepped`, `loaded` and `diffed` are 0
and no delta is attached after it, and a second unload is defined and changes nothing. -/
theorem diff_delta_unload_twice (ctxt : diff_delta_context) (deltas : List git_diff_delta)
    (s : diff_delta_context × List git_diff_delta) (h : diff_delta_unload ctxt deltas = some s) :
    diff_delta_unload s.1 s.2 = some s ∧ s.1.prepped = false ∧ s.1.loaded = false ∧
      s.1.diffed = false ∧ s.1.delta = none := by
  have hflags : s.1.prepped = false ∧ s.1.loaded = false ∧ s.1.diffed = false ∧
      s.1.delta = none := by
    unfold diff_delta_unload at h
    dsimp only at h
    split_ifs at h with hl
    · cases hd : ctxt.delta with
      | none => rw [hd] at h; simp at h
      | some i =>
        rw [hd] at h
        cases hg : deltas[i]? with
        | none => simp [hg] at h
        | some d =>
          simp only [hg, Option.map_some', Option.some.injEq] at h
          rw [← h]
          exact ⟨rfl, rfl, rfl, rfl⟩
    · simp only [Option.map_some', Option.some.injEq] at h
      rw [← h]
      refine ⟨rfl, ?_, rfl, rfl⟩
      cases hc : ctxt.loaded
      · rfl
      · exact absurd hc hl
  refine ⟨?_, hflags⟩
  obtain ⟨hp, hl, hd, hn⟩ := hflags
  rw [diff_delta_unload_not_loaded s.1 s.2 hl]
  obtain ⟨c, ds⟩ := s
  cases c
  simp only at hp hl hd hn
  subst hp hl hd hn
  rfl

theorem set_map_delta_ptr (c : diff_delta_context) (s : side) (m : git_map) :
    (c.set_map s m).delta = c.delta := by
  cases s <;> rfl

theorem workdir_delta_ptr (env : Env) (c : diff_delta_context) (d : git_diff_delta)
    (file : side) : (get_workdir_content env c d file).2.1.delta = c.delta := by
  rw [get_workdir_content_eq, (workdir_hash_frame env file (workdir_read env c d file)).1]
  unfold workdir_read
  dsimp only
  split_ifs <;> simp [set_map_delta_ptr]

theorem blob_delta_ptr (env : Env) (c : diff_delta_context) (d : git_diff_delta)
    (file : side) : (get_blob_content env c d file).2.1.delta = c.delta := by
  unfold get_blob_content
  dsimp only
  split_ifs <;> (cases file <;> rfl)

theorem prep_delta_ptr (env : Env) (c : diff_delta_context) (d : git_diff_delta) :
    (diff_delta_prep env c d).2.1.delta = c.delta := by
  unfold diff_delta_prep
  split_ifs <;> rfl

theorem cleanup_delta_ptr (e : Int) (c : diff_delta_context) (d : git_diff_delta) :
    (diff_delta_load_cleanup e c d).2.1.delta = c.delta := by
  unfold diff_delta_load_cleanup
  dsimp only
  split_ifs <;> rfl

/-- No statement of `diff_delta_load` assigns the `delta` pointer of the context. -/
theorem load_delta_ptr (env : Env) (ctxt : diff_delta_context) (delta : git_diff_delta) :
    (diff_delta_load env ctxt delta).2.1.delta = ctxt.delta := by
  by_cases hg : ctxt.loaded = true ∨ ctxt.delta = none
  · unfold diff_delta_load
    rw [if_pos hg]
  · unfold diff_delta_load diff_delta_load_finish
    rw [if_neg hg]
    lift_lets
    extract_lets p error psrc c0 d0 dnd chk wo_do wo wn_do wn bo_do bo bn_do bn
    have hp : p.2.1.delta = ctxt.delta := by
      simp only [p]
      split_ifs
      · exact prep_delta_ptr env ctxt delta
      · rfl
    have hc0 : c0.delta = ctxt.delta := hp
    have hwo : wo.2.1.delta = ctxt.delta := by
      simp only [wo]
      split_ifs
      · rw [workdir_delta_ptr]; exact hc0
      · exact hc0
    have hwn : wn.2.1.delta = ctxt.delta := by
      simp only [wn]
      split_ifs
      · rw [workdir_delta_ptr]; exact hwo
      · exact hwo
    have hbo : bo.2.1.delta = ctxt.delta := by
      simp only [bo]
      split_ifs
      · rw [blob_delta_ptr]; exact hwn
      · exact hwn
    have hbn : bn.2.1.delta = ctxt.delta := by
      simp only [bn]
      split_ifs
      · rw [blob_delta_ptr]; exact hbo
      · exact hbo
    split_ifs <;> intros <;> rw [cleanup_delta_ptr] <;> assumption

theorem cb_lines_delta_ptr {σ : Type} (per_line : Option (git_diff_data_fn σ))
    (delta : git_diff_delta) (st : diff_delta_context × σ) (bufs : List (List Char))
    (len : Nat) : (diff_delta_cb_lines per_line delta st bufs len).2.1.delta = st.1.delta := by
  unfold diff_delta_cb_lines
  cases per_line with
  | none => dsimp only; split_ifs <;> rfl
  | some f => dsimp only; split_ifs <;> rfl

theorem cb_delta_ptr {σ : Type} (per_hunk : Option (git_diff_hunk_fn σ))
    (per_line : Option (git_diff_data_fn σ)) (delta : git_diff_delta)
    (st : diff_delta_context × σ) (bufs : List (List Char)) (len : Nat) :
    (diff_delta_cb per_hunk per_line delta st bufs len).2.1.delta = st.1.delta := by
  unfold diff_delta_cb
  cases per_hunk with
  | none =>
    dsimp only
    split_ifs
    · rfl
    · rw [cb_lines_delta_ptr]
    · rw [cb_lines_delta_ptr]
  | some f =>
    dsimp only
    split_ifs
    · rfl
    · rw [cb_lines_delta_ptr]
    · rw [cb_lines_delta_ptr]
    · rw [cb_lines_delta_ptr]

/-- No statement of `diff_delta_exec`, nor of the demultiplexer it passes to the diff
primitive, assigns the `delta` pointer of the context. -/
theorem exec_delta_ptr {σ : Type} (env : Env) (per_hunk : Option (git_diff_hunk_fn σ))
    (per_line : Option (git_diff_data_fn σ)) (ctxt : diff_delta_context)
    (delta : git_diff_delta) (data : σ) :
    (diff_delta_exec env per_hunk per_line ctxt delta data).2.1.delta = ctxt.delta := by
  have hl : (if ctxt.loaded = false then diff_delta_load env ctxt delta
      else (0, ctxt, delta)).2.1.delta = ctxt.delta := by
    split_ifs
    · exact load_delta_ptr env ctxt delta
    · rfl
  unfold diff_delta_exec
  dsimp only
  generalize (if ctxt.loaded = false then diff_delta_load env ctxt delta
    else (0, ctxt, delta)) = l at hl ⊢
  split_ifs
  · rfl
  · exact hl
  · exact hl
  · exact xdl_emit_invariant (fun s => s.1.delta = ctxt.delta) _
      (fun s bufs len hs => (cb_delta_ptr per_hunk per_line l.2.2 s bufs len).trans hs) _
      ({ l.2.1 with cb_error := 0 }, data) hl

/-- At the `cleanup` label and at the `continue` of the loop of `git_diff_foreach` the
`delta` pointer of the context is the element of the loop. -/
theorem foreach_body_delta_ptr {σ : Type} (env : Env) (file_cb : Option (git_diff_file_fn σ))
    (hunk_cb : Option (git_diff_hunk_fn σ)) (line_cb : Option (git_diff_data_fn σ))
    (total idx : Nat) (error : Int) (ctxt : diff_delta_context) (delta : git_diff_delta)
    (data : σ) :
    (foreach_body env file_cb hunk_cb line_cb total idx error ctxt delta data).2.2.1.delta =
      some idx := by
  have ha : (if diff_delta_is_ambiguous delta = true
      then diff_delta_load env { ctxt with delta := some idx } delta
      else (error, { ctxt with delta := some idx }, delta)).2.1.delta = some idx := by
    split_ifs
    · exact load_delta_ptr env _ delta
    · rfl
  unfold foreach_body
  dsimp only
  generalize (if diff_delta_is_ambiguous delta = true
    then diff_delta_load env { ctxt with delta := some idx } delta
    else (error, { ctxt with delta := some idx }, delta)) = a at ha ⊢
  have hl : (diff_delta_load env a.2.1 a.2.2).2.1.delta = some idx :=
    (load_delta_ptr env a.2.1 a.2.2).trans ha
  split_ifs
  · exact ha
  · exact ha
  · exact hl
  · exact hl
  · exact (exec_delta_ptr env hunk_cb line_cb _ _ _).trans hl

/-- The unload at the `cleanup` label of `git_diff_foreach`: `diff_delta_unload` on the
context the body of the loop leaves and a vector that holds the delta of the body at the
index of the loop is defined and is `diff_delta_unload_attached` on that delta. -/
theorem foreach_unload_attached {σ : Type} (env : Env) (file_cb : Option (git_diff_file_fn σ))
    (hunk_cb : Option (git_diff_hunk_fn σ)) (line_cb : Option (git_diff_data_fn σ))
    (total idx : Nat) (error : Int) (ctxt : diff_delta_context) (delta : git_diff_delta)
    (data : σ) (deltas : List git_diff_delta)
    (hd : deltas[idx]? =
      some (foreach_body env file_cb hunk_cb line_cb total idx error ctxt delta data).2.2.2.1) :
    diff_delta_unload
        (foreach_body env file_cb hunk_cb line_cb total idx error ctxt delta data).2.2.1
        deltas =
      some ((diff_delta_unload_attached
          (foreach_body env file_cb hunk_cb line_cb total idx error ctxt delta data).2.2.1
          (foreach_body env file_cb hunk_cb line_cb total idx error ctxt delta data).2.2.2.1).1,
        deltas.set idx (diff_delta_unload_attached
          (foreach_body env file_cb hunk_cb line_cb total idx error ctxt delta data).2.2.1
          (foreach_body env file_cb hunk_cb line_cb total idx error ctxt delta data).2.2.2.1).2) :=
  diff_delta_unload_eq_attached _ deltas idx _
    (foreach_body_delta_ptr env file_cb hunk_cb line_cb total idx error ctxt delta data) hd

/-- C21 (code defect): on a new iterator over a list whose only delta is ambiguous and has
identical content, `git_diff_iterator_next_file` loads the delta, resolves it to
`UNMODIFIED`, skips it without an unload and runs off the end of the list: it returns
`GIT_ITEROVER` with the context still marked loaded and the `delta` pointer `NULL`.  On
that state `diff_delta_unload` reads the delta through the `NULL` pointer, and so does
the next call of `git_diff_iterator_next_file`, whose first step is that unload. -/
theorem unload_after_skipped_last_delta :
    ((git_diff_iterator_next_file sample_env
        (git_diff_iterator_new diff_one_ambiguous)).map fun r =>
      (r.error, r.delta_ptr, r.iter.ctxt.loaded, r.iter.ctxt.delta,
        r.iter.diff.deltas.map fun d => d.status,
        (diff_delta_unload r.iter.ctxt r.iter.diff.deltas).isSome)) =
      some (GIT_ITEROVER, none, true, none, [git_delta_t.UNMODIFIED], false) ∧
    ((git_diff_iterator_next_file sample_env
        (git_diff_iterator_new diff_one_ambiguous)).bind fun r =>
      git_diff_iterator_next_file sample_env r.iter) = none :=
  ⟨rfl, rfl⟩

theorem exec_returns_at_once {σ : Type} (env : Env) (hunk_cb : Option (git_diff_hunk_fn σ))
    (line_cb : Option (git_diff_data_fn σ)) (ctxt : diff_delta_context)
    (delta : git_diff_delta) (data : σ)
    (h : ctxt.diffed = true ∨ ctxt.delta = none ∨
      (ctxt.loaded = true ∧ ctxt.diffable = false)) :
    diff_delta_exec env hunk_cb line_cb ctxt delta data = (0, ctxt, delta, data) := by
  unfold diff_delta_exec
  dsimp only
  by_cases hg : ctxt.diffed = true ∨ ctxt.delta = none
  · rw [if_pos hg]
  · rw [if_neg hg]
    have hld : ctxt.loaded = true ∧ ctxt.diffable = false := by
      rcases h with h | h | h
      · exact absurd (Or.inl h) hg
      · exact absurd (Or.inr h) hg
      · exact h
    have hnl : ¬ (ctxt.loaded = false) := by rw [hld.1]; decide
    rw [if_neg hnl]
    have hne : ¬ (ctxt.loaded = false ∧ ((0 : Int), ctxt, delta).1 < 0) := fun hh => hnl hh.1
    rw [if_neg hne]
    have hdf : ((0 : Int), ctxt, delta).2.1.diffable = false := hld.2
    rw [if_pos hdf]

theorem exec_state_after {σ : Type} (env : Env) (hunk_cb : Option (git_diff_hunk_fn σ))
    (line_cb : Option (git_diff_data_fn σ)) (ctxt : diff_delta_context)
    (delta : git_diff_delta) (data : σ)
    (h0 : (diff_delta_exec env hunk_cb line_cb ctxt delta data).1 = 0)
    (hl : (diff_delta_exec env hunk_cb line_cb ctxt delta data).2.1.loaded = true) :
    (diff_delta_exec env hunk_cb line_cb ctxt delta data).2.1.diffed = true ∨
    (diff_delta_exec env hunk_cb line_cb ctxt delta data).2.1.delta = none ∨
    ((diff_delta_exec env hunk_cb line_cb ctxt delta data).2.1.loaded = true ∧
      (diff_delta_exec env hunk_cb line_cb ctxt delta data).2.1.diffable = false) := by
  revert h0 hl
  unfold diff_delta_exec
  dsimp only
  generalize (if ctxt.loaded = false then diff_delta_load env ctxt delta
    else (0, ctxt, delta)) = l
  split_ifs with h1 h2 h3
  · intro _ _
    rcases h1 with h1 | h1
    · exact Or.inl h1
    · exact Or.inr (Or.inl h1)
  · intro h0 _
    have hlt := h2.2
    have h0' : l.1 = 0 := h0
    omega
  · intro _ hl
    exact Or.inr (Or.inr ⟨hl, h3⟩)
  · intro h0 _
    refine Or.inl ?_
    have h0' : (xdl_emit (diff_delta_cb hunk_cb line_cb l.2.2)
      (env.xdl_diff l.2.1.old_data.data l.2.1.old_data.len l.2.1.new_data.data
        l.2.1.new_data.len l.2.1.opts) ({ l.2.1 with cb_error := 0 }, data)).1.cb_error = 0 := h0
    show ((xdl_emit (diff_delta_cb hunk_cb line_cb l.2.2)
      (env.xdl_diff l.2.1.old_data.data l.2.1.old_data.len l.2.1.new_data.data
        l.2.1.new_data.len l.2.1.opts) ({ l.2.1 with cb_error := 0 }, data)).1.cb_error == 0)
        = true
    rw [h0']
    rfl

/-- C22: when an Exec has returned 0 and left the context marked loaded, a second Exec on
that context, whatever the diff primitive and the callbacks it is given, returns 0 and
leaves the context, the delta, the user data and the log of callback invocations as they
were: neither the primitive nor a hunk or line callback is invoked. -/
theorem exec_after_exec {σ : Type} (env env2 : Env)
    (hunk_cb hunk_cb2 : Option (git_diff_hunk_fn σ))
    (line_cb line_cb2 : Option (git_diff_data_fn σ)) (ctxt : diff_delta_context)
    (delta : git_diff_delta) (data : σ × List cb_event)
    (h0 : (diff_delta_exec env (hunk_cb.map traced_hunk_cb) (line_cb.map traced_line_cb)
      ctxt delta data).1 = 0)
    (hl : (diff_delta_exec env (hunk_cb.map traced_hunk_cb) (line_cb.map traced_line_cb)
      ctxt delta data).2.1.loaded = true) :
    diff_delta_exec env2 (hunk_cb2.map traced_hunk_cb) (line_cb2.map traced_line_cb)
      (diff_delta_exec env (hunk_cb.map traced_hunk_cb) (line_cb.map traced_line_cb)
        ctxt delta data).2.1
      (diff_delta_exec env (hunk_cb.map traced_hunk_cb) (line_cb.map traced_line_cb)
        ctxt delta data).2.2.1
      (diff_delta_exec env (hunk_cb.map traced_hunk_cb) (line_cb.map traced_line_cb)
        ctxt delta data).2.2.2 =
    (0,
      (diff_delta_exec env (hunk_cb.map traced_hunk_cb) (line_cb.map traced_line_cb)
        ctxt delta data).2.1,
      (diff_delta_exec env (hunk_cb.map traced_hunk_cb) (line_cb.map traced_line_cb)
        ctxt delta data).2.2.1,
      (diff_delta_exec env (hunk_cb.map traced_hunk_cb) (line_cb.map traced_line_cb)
        ctxt delta data).2.2.2) :=
  exec_returns_at_once env2 _ _ _ _ _
    (exec_state_after env _ _ ctxt delta data h0 hl)

theorem exec_after_exec_witness :
    (diff_delta_exec sample_env ((some ok_hunk_cb).map traced_hunk_cb)
      ((some ok_line_cb).map traced_line_cb) ctxt_text delta_text ((), [])).1 = 0 ∧
    (diff_delta_exec sample_env ((some ok_hunk_cb).map traced_hunk_cb)
      ((some ok_line_cb).map traced_line_cb) ctxt_text delta_text ((), [])).2.2.2.2.length
      = 6 ∧
    diff_delta_exec sample_env ((some ok_hunk_cb).map traced_hunk_cb)
      ((some ok_line_cb).map traced_line_cb)
      (diff_delta_exec sample_env ((some ok_hunk_cb).map traced_hunk_cb)
        ((some ok_line_cb).map traced_line_cb) ctxt_text delta_text ((), [])).2.1
      (diff_delta_exec sample_env ((some ok_hunk_cb).map traced_hunk_cb)
        ((some ok_line_cb).map traced_line_cb) ctxt_text delta_text ((), [])).2.2.1
      (diff_delta_exec sample_env ((some ok_hunk_cb).map traced_hunk_cb)
        ((some ok_line_cb).map traced_line_cb) ctxt_text delta_text ((), [])).2.2.2 =
    (0,
      (diff_delta_exec sample_env ((some ok_hunk_cb).map traced_hunk_cb)
        ((some ok_line_cb).map traced_line_cb) ctxt_text delta_text ((), [])).2.1,
      (diff_delta_exec sample_env ((some ok_hunk_cb).map traced_hunk_cb)
        ((some ok_line_cb).map traced_line_cb) ctxt_text delta_text ((), [])).2.2.1,
      (diff_delta_exec sample_env ((some ok_hunk_cb).map traced_hunk_cb)
        ((some ok_line_cb).map traced_line_cb) ctxt_text delta_text ((), [])).2.2.2) :=
  ⟨by decide, by decide,
    exec_after_exec sample_env sample_env (some ok_hunk_cb) (some ok_hunk_cb)
      (some ok_line_cb) (some ok_line_cb) ctxt_text delta_text ((), []) (by decide)
      (by decide)⟩

/-! ## The header buffer of the iterator -/

theorem format_hunk_header_length (header : List Char) (len : Nat) (r : git_diff_range) :
    (format_hunk_header header len r).2 = ((canonical_header r).length : Int) := by
  rw [format_hunk_header_eq]
  unfold p_snprintf
  split_ifs <;> rfl

theorem set_length_get (s rest : List Char) (x y : Char) :
    ((s ++ x :: rest).set s.length y)[s.length]? = some y ∧
    ((s ++ x :: rest).set s.length y).take s.length = s := by
  induction s with
  | nil => simp
  | cons c cs ih => simpa using ih

/-- C23: for every range of `int` fields `format_hunk_header` returns a length between 0
and 55, less than 127, and leaves in a buffer of 128 bytes the whole header, terminated.
So when `git_diff_iterator_next_hunk` has a current hunk of such a range and is asked for
the header, its write of the newline at index `out` is inside the 128-byte buffer: the
call returns 0, the buffer keeps its 128 bytes, holds the whole header followed by the
newline, and the reported `header_len` is `out + 1`, at most 56. -/
theorem hunk_header_within_buffer (env : Env) (iter it : git_diff_iterator) (p : Nat)
    (hunk : diffiter_hunk) (r : git_diff_range) (header0 : List Char) (len : Nat)
    (hr : range_is_int r) (hh : range_is_int hunk.range)
    (hbuf : it.hunk_header.length = 128)
    (hd : diffiter_do_diff_file env iter = some (0, it)) (hp : it.hunk_curr = some p)
    (hk : it.hunks[p]? = some hunk) :
    (0 ≤ (format_hunk_header header0 len r).2 ∧ (format_hunk_header header0 len r).2 ≤ 55 ∧
      (format_hunk_header header0 len r).2 < 127) ∧
    cstr (format_hunk_header header0 128 r).1 = canonical_header r ∧
    ∃ (res : next_hunk_result) (buf : List Char),
      git_diff_iterator_next_hunk env true true true iter = some res ∧
      res.error = 0 ∧ res.header = some buf ∧ buf.length = 128 ∧
      (res.header_len : Int) = (format_hunk_header it.hunk_header 128 hunk.range).2 + 1 ∧
      res.header_len ≤ 56 ∧
      buf[res.header_len - 1]? = some LF ∧
      buf.take (res.header_len - 1) = canonical_header hunk.range := by
  have hlen := canonical_header_length r hr
  have hlenh := canonical_header_length hunk.range hh
  refine ⟨?_, ?_, ?_⟩
  · rw [format_hunk_header_length]
    omega
  · rw [format_hunk_header_fits header0 128 r (by omega)]
    exact cstr_append_NUL _ _ (canonical_header_no_NUL r)
  · have hfit := format_hunk_header_fits it.hunk_header 128 hunk.range (by omega)
    have hnot : ¬ (true = true ∧
        ((format_hunk_header it.hunk_header 128 hunk.range).2 < 0 ∨
          128 ≤ (format_hunk_header it.hunk_header 128 hunk.range).2)) := by
      rw [format_hunk_header_length]
      intro hh'
      omega
    have hcall : git_diff_iterator_next_hunk env true true true iter =
        some ⟨0, some hunk.range,
          some ((format_hunk_header it.hunk_header 128 hunk.range).1.set
            (format_hunk_header it.hunk_header 128 hunk.range).2.toNat LF),
          ((format_hunk_header it.hunk_header 128 hunk.range).2 + 1).toNat,
          { it with
              hunk_header := (format_hunk_header it.hunk_header 128 hunk.range).1.set
                (format_hunk_header it.hunk_header 128 hunk.range).2.toNat LF,
              line_curr := hunk.line_head, hunk_curr := hunk.next }⟩ := by
      unfold git_diff_iterator_next_hunk
      rw [hd]
      simp only [hp, hk, ne_eq, not_true_eq_false, if_false, if_true, and_self]
      rw [if_neg (fun hh' => hnot ⟨rfl, hh'.2⟩)]
    refine ⟨_, _, hcall, rfl, rfl, ?_, ?_, ?_, ?_, ?_⟩
    · rw [hfit]
      simp only [List.length_set, List.length_append, List.length_cons, List.length_drop]
      omega
    · show ((((format_hunk_header it.hunk_header 128 hunk.range).2 + 1).toNat : Nat) : Int) = _
      rw [format_hunk_header_length]
      omega
    · show ((format_hunk_header it.hunk_header 128 hunk.range).2 + 1).toNat ≤ 56
      rw [format_hunk_header_length]
      omega
    · show ((format_hunk_header it.hunk_header 128 hunk.range).1.set
          (format_hunk_header it.hunk_header 128 hunk.range).2.toNat LF)[
          ((format_hunk_header it.hunk_header 128 hunk.range).2 + 1).toNat - 1]? = some LF
      rw [hfit]
      have e1 : (((canonical_header hunk.range).length : Int) + 1).toNat - 1 =
          (canonical_header hunk.range).length := by omega
      have e2 : ((canonical_header hunk.range).length : Int).toNat =
          (canonical_header hunk.range).length := by omega
      simp only [e1, e2]
      exact (set_length_get _ _ _ _).1
    · show ((format_hunk_header it.hunk_header 128 hunk.range).1.set
          (format_hunk_header it.hunk_header 128 hunk.range).2.toNat LF).take
          (((format_hunk_header it.hunk_header 128 hunk.range).2 + 1).toNat - 1) =
          canonical_header hunk.range
      rw [hfit]
      have e1 : (((canonical_header hunk.range).length : Int) + 1).toNat - 1 =
          (canonical_header hunk.range).length := by omega
      have e2 : ((canonical_header hunk.range).length : Int).toNat =
          (canonical_header hunk.range).length := by omega
      simp only [e1, e2]
      exact (set_length_get _ _ _ _).2

theorem hunk_header_within_buffer_witness :
    range_is_int range_int_min ∧
    (format_hunk_header [] 128 range_int_min).2 = 55 ∧
    cstr (format_hunk_header [] 128 range_int_min).1 = canonical_header range_int_min ∧
    ∃ (res : next_hunk_result) (buf : List Char),
      git_diff_iterator_next_hunk sample_env true true true iter_on_text = some res ∧
      res.error = 0 ∧ res.header = some buf ∧ buf.length = 128 ∧
      (res.header_len : Int) =
        (format_hunk_header iter_text_diffed.hunk_header 128 hunk_of_text.range).2 + 1 ∧
      res.header_len ≤ 56 ∧
      buf[res.header_len - 1]? = some LF ∧
      buf.take (res.header_len - 1) = canonical_header hunk_of_text.range :=
  ⟨by decide, by decide,
    (hunk_header_within_buffer sample_env iter_on_text iter_text_diffed 0 hunk_of_text
      range_int_min [] 128 (by decide) (by decide) rfl (by decide) (by decide)
      (by decide)).2.1,
    (hunk_header_within_buffer sample_env iter_on_text iter_text_diffed 0 hunk_of_text
      range_int_min [] 128 (by decide) (by decide) rfl (by decide) (by decide)
      (by decide)).2.2⟩

/-! ## The load of the delta `next_file` returns -/

/-- C24 (code defect): the changed file `g.txt`, alone in a list, is loaded by
`git_diff_iterator_next_file` and has two hunks, the content maps being blob 1 and the
working-directory bytes and the new id their hash.  Behind an ambiguous delta that
`next_file` loads, resolves to `UNMODIFIED` and skips, `next_file` returns it with the
context still marked loaded from the skipped delta: the load of the capture returns at
once, `git_diff_iterator_num_hunks_in_file` reports 0 hunks, the `diffable` flag and the
content maps are those of the skipped delta, and the returned delta is neither classified
nor hashed (verdict unknown, new id zero). -/
theorem next_file_keeps_skipped_load :
    ((first_file changed_env diff_changed).map fun r =>
      (r.error, r.delta_ptr, r.num_hunks, r.diffable, r.old_data, r.new_data,
        r.delta.map fun d => (d.status, d.binary, d.new_file.oid))) =
      some (0, some 0, 2, true, ⟨sample_blob 1, 6⟩, ⟨sample_blob 2, 6⟩,
        some (git_delta_t.MODIFIED, 0, 2)) ∧
    ((git_diff_iterator_next_file changed_env
        (git_diff_iterator_new diff_skipped_changed)).map fun r =>
      (r.iter.diff.deltas.map fun d => d.status)) =
      some [git_delta_t.UNMODIFIED, git_delta_t.MODIFIED] ∧
    ((first_file changed_env diff_skipped_changed).map fun r =>
      (r.error, r.delta_ptr, r.loaded, r.num_hunks, r.diffable, r.old_data, r.new_data,
        r.delta.map fun d => (d.status, d.binary, d.new_file.oid))) =
      some (0, some 1, true, 0, false, ⟨sample_blob 5, 5⟩, ⟨sample_blob 5, 5⟩,
        some (git_delta_t.MODIFIED, -1, 0)) :=
  ⟨rfl, rfl, rfl⟩

end DiffOutput
